import Mathlib

/-!
# A shallow embedding of lnav's multi-line text input widget and external editor launcher

The development follows `src/textinput_curses.cc` (and, in `external_editor`,
`src/external_editor.cc`).  The widget state is an explicit record,
every member function becomes a pure function on that record, and `handle_key` /
`handle_mouse` return the "handled" flag together with the next state.

Conventions of the embedding

* `std::string` is a list of bytes (`List Nat`); an `attr_line_t` is represented by its
  `al_string` only, since style attributes never influence the text, the cursor or the
  viewport.
* `int` members (`tc_cursor_x`, `tc_cursor_y`, `tc_top`, `tc_left`, the visible dimensions)
  are mathematical integers.  Signed overflow is undefined behaviour in C++ and is not
  modelled; the implicit `int -> size_t` conversions of the mixed comparisons are explicit
  (`to_size_t`).  Sizes are assumed to fit an `int` when they are stored into one.
* The declarations of `textinput_curses.hh`, the `attr_line_t` / `string_fragment` helpers,
  the key codes of notcurses and the popup list widget are not part of the sources at hand;
  the definitions standing for them say so in their doc comment.  The members are typed as
  the source uses them: the tests `tc_cursor_y < 0` and `tc_cursor_x < 0` make the cursor
  signed, and the casts in `get_visible_dimensions` make the window dimensions unsigned.
* The bodies of the callbacks are outside the widget: firing one is recorded in `tc_fired`,
  and the callback body is taken not to touch the widget.
-/

namespace lnav

/-! ## Strings, columns and byte offsets -/

/-- A `std::string`, as its sequence of bytes. -/
abbrev std_string := List Nat

/-- The byte of the line terminator. -/
def NL : Nat := 10

/-- Modelled from the spec: the number of bytes of the encoded character introduced by a lead
byte (`ww898::utf::utf8`, missing from the sources).  Multi-byte encoded characters are the
units of the column arithmetic (spec 4.1). -/
def utf8_char_size (b : Nat) : Nat :=
  if b < 192 then 1 else if b < 224 then 2 else if b < 240 then 3 else 4

/-- Modelled from the spec: `column_width` of the text, reading it with `skip` bytes of the
current encoded character still to be consumed.  Every encoded character is one column. -/
def width_from : Nat → std_string → Nat
  | _, [] => 0
  | 0, b :: rest => 1 + width_from (utf8_char_size b - 1) rest
  | k + 1, _ :: rest => width_from k rest

/-- Modelled from the spec: `attr_line_t::column_width` (declared in `base/attr_line.hh`,
missing from the sources): the display width of a line, one column per encoded character. -/
def column_width (s : std_string) : Nat := width_from 0 s

/-- Modelled from the spec: the byte offset reached after `col` columns, reading the text with
`skip` bytes of the current encoded character still to be consumed. -/
def byte_index_from : Nat → std_string → Nat → Nat
  | _, [], _ => 0
  | k + 1, _ :: rest, col => 1 + byte_index_from k rest col
  | 0, _ :: _, 0 => 0
  | 0, b :: rest, col + 1 => 1 + byte_index_from (utf8_char_size b - 1) rest col

/-- Modelled from the spec: `attr_line_t::column_to_byte_index` (missing from the sources):
the start of the encoded unit at that column, clamped to the line length if the column exceeds
the width (spec 4.1). -/
def column_to_byte_index (s : std_string) (col : Nat) : Nat := byte_index_from 0 s col

/-- The value of an `int` converted to `size_t` (64 bits), as the mixed comparisons of the
source do implicitly: a negative value wraps around modulo `2^64`. -/
def to_size_t (i : Int) : Int := if 0 ≤ i then i else i % 18446744073709551616

/-- The value of an `int` converted to `unsigned` (32 bits). -/
def to_unsigned (i : Int) : Int := if 0 ≤ i then i else i % 4294967296

/-- The value of an `unsigned` stored into an `int`. -/
def to_int (u : Int) : Int := if u % 4294967296 < 2147483648 then u % 4294967296
  else u % 4294967296 - 4294967296

/-- The `size_t` argument a column taken from an `int` member becomes. -/
def to_column (i : Int) : Nat := (to_size_t i).toNat

/-- Modelled from the spec: `attr_line_t::subline(start)` (missing from the sources): the text
from byte offset `start` to the end. -/
def subline (s : std_string) (start : Nat) : std_string := s.drop start

/-- Modelled from the spec: `attr_line_t::subline(start, len)` (missing from the sources). -/
def subline_len (s : std_string) (start len : Nat) : std_string := (s.drop start).take len

/-- Modelled from the spec: `attr_line_t::erase(pos)` (missing from the sources): drops the
text from byte offset `pos` to the end. -/
def erase (s : std_string) (pos : Nat) : std_string := s.take pos

/-- Modelled from the spec: `attr_line_t::erase(pos, len)` (missing from the sources). -/
def erase_len (s : std_string) (pos len : Nat) : std_string := s.take pos ++ s.drop (pos + len)

/-- Modelled from the spec: `attr_line_t::insert(index, text)` (missing from the sources). -/
def insert (s : std_string) (index : Nat) (t : std_string) : std_string :=
  s.take index ++ t ++ s.drop index

/-- Modelled from the spec: `ww898::utf::utf8::write` (missing from the sources): the UTF-8
bytes of a code point. -/
def utf8_write (cp : Nat) : std_string :=
  if cp < 128 then [cp]
  else if cp < 2048 then [192 + cp / 64, 128 + cp % 64]
  else if cp < 65536 then [224 + cp / 4096, 128 + cp / 64 % 64, 128 + cp % 64]
  else [240 + cp / 262144 % 8, 128 + cp / 4096 % 64, 128 + cp / 64 % 64, 128 + cp % 64]

/-- The line at a row of the document (`tc_lines[row]`); a row outside the document, which the
source never reads in a valid state, reads as the empty line. -/
def line_at (ls : List std_string) (row : Int) : std_string :=
  if 0 ≤ row then ls.getD row.toNat [] else []

/-- Assignment through the reference `tc_lines[row]`. -/
def set_line (ls : List std_string) (row : Int) (al : std_string) : List std_string :=
  if 0 ≤ row then ls.set row.toNat al else ls

/-- The call `tc_lines.insert(tc_lines.begin() + row, al)`. -/
def insert_line (ls : List std_string) (row : Int) (al : std_string) : List std_string :=
  ls.take row.toNat ++ al :: ls.drop row.toNat

/-- The call `tc_lines.erase(tc_lines.begin() + row)`. -/
def erase_line (ls : List std_string) (row : Int) : List std_string :=
  ls.take row.toNat ++ ls.drop (row.toNat + 1)

/-- The loop of `textinput_curses::get_content`: every line followed by a line terminator. -/
def join_lines : List std_string → std_string
  | [] => []
  | al :: rest => al ++ NL :: join_lines rest

/-- Modelled from the spec: the scan of `attr_line_t::split_lines` (missing from the sources)
with the piece `cur` read so far.  Every line terminator closes a line, and an unterminated
last piece is a line of its own when it is not empty; so the empty text has no line, the case
`set_content` provides for, and the content `get_content` joins splits into the lines it was
joined from, as the document model of the spec (4.2) takes for granted. -/
def split_from (cur : std_string) : std_string → List std_string
  | [] => if cur = [] then [] else [cur]
  | b :: rest => if b = NL then cur :: split_from [] rest else split_from (cur ++ [b]) rest

/-- Modelled from the spec: `attr_line_t::split_lines` (missing from the sources). -/
def split_lines (content : std_string) : List std_string := split_from [] content

/-! ## Keys, mouse events and the popup -/

/-- The key chord `ncinput` of notcurses: key id, the modifiers read by `ncinput_alt_p` and
`ncinput_ctrl_p`, and the effective text (code points, a zero ends it). -/
structure ncinput where
  id : Nat
  alt : Bool
  ctrl : Bool
  eff_text : List Nat
deriving DecidableEq, Repr

/-- Key code `NCKEY_ESC` of notcurses. -/
def NCKEY_ESC : Nat := 27
/-- Key code `KEY_CTRL(']')` of `base/keycodes.hh`, the character masked with `0x1f`. -/
def KEY_CTRL_RBRACKET : Nat := 29
/-- Key code `NCKEY_TAB` of notcurses. -/
def NCKEY_TAB : Nat := 9
/-- Key code `NCKEY_UP` of notcurses (`preterunicode(2)`). -/
def NCKEY_UP : Nat := 1115002
/-- Key code `NCKEY_RIGHT` of notcurses. -/
def NCKEY_RIGHT : Nat := 1115003
/-- Key code `NCKEY_DOWN` of notcurses. -/
def NCKEY_DOWN : Nat := 1115004
/-- Key code `NCKEY_LEFT` of notcurses. -/
def NCKEY_LEFT : Nat := 1115005
/-- Key code `NCKEY_DEL` of notcurses. -/
def NCKEY_DEL : Nat := 1115007
/-- Key code `NCKEY_BACKSPACE` of notcurses. -/
def NCKEY_BACKSPACE : Nat := 1115008
/-- Key code `NCKEY_PGDOWN` of notcurses. -/
def NCKEY_PGDOWN : Nat := 1115009
/-- Key code `NCKEY_PGUP` of notcurses. -/
def NCKEY_PGUP : Nat := 1115010
/-- Key code `NCKEY_HOME` of notcurses. -/
def NCKEY_HOME : Nat := 1115011
/-- Key code `NCKEY_END` of notcurses. -/
def NCKEY_END : Nat := 1115012
/-- Key code `NCKEY_ENTER` of notcurses. -/
def NCKEY_ENTER : Nat := 1115121

/-- The states of a mouse button (`mouse_button_state_t`). -/
inductive mouse_button_state_t where
  | BUTTON_STATE_PRESSED
  | BUTTON_STATE_DRAGGED
  | BUTTON_STATE_DOUBLE_CLICK
  | BUTTON_STATE_RELEASED
deriving DecidableEq, Repr

/-- The mouse buttons (`mouse_button_t`). -/
inductive mouse_button_t where
  | BUTTON_LEFT
  | BUTTON_MIDDLE
  | BUTTON_RIGHT
  | BUTTON_SCROLL_UP
  | BUTTON_SCROLL_DOWN
deriving DecidableEq, Repr

/-- The members of `mouse_event` the widget reads. -/
structure mouse_event where
  me_button : mouse_button_t
  me_state : mouse_button_state_t
  me_x : Int
  me_y : Int
deriving DecidableEq, Repr

/-- The callbacks of the widget. -/
inductive callback where
  | on_change
  | on_completion
  | on_abort
deriving DecidableEq, Repr

/-- The completion popup `tc_popup` with its source `tc_popup_source`: geometry, selection,
candidates, and the keys handed to the list widget (whose own key handling is outside the
widget). -/
structure popup_state where
  visible : Bool
  x : Int
  y : Int
  width : Int
  height : Int
  selection : Int
  rows : List std_string
  keys : List Nat
deriving DecidableEq, Repr

/-- Modelled from the spec: `tc_popup.handle_key(ch)`, the list widget's own navigation
(missing from the sources): the popup receives the key; the engine state is not involved. -/
def popup_state.handle_key (p : popup_state) (ch : ncinput) : popup_state :=
  { p with keys := p.keys ++ [ch.id] }

/-- Modelled from the spec: `string_fragment::prev_word` and `string_fragment::next_word`
(missing from the sources), the word-boundary searches over the current line; any pair of
searches may be supplied. -/
structure word_search where
  prev_word : std_string → Int → Option Int
  next_word : std_string → Int → Option Int

/-! ## The external editor

The launcher of `src/external_editor.cc`.  Its strings are texts (`String`).  The services of
the operating system it calls (`system`, the pipe, `fork`, `read`, waiting for the child) are
given: their answers during one call are collected in `os_answers`, and the calls `open`
makes after the detection are listed, in order, next to its result.  The reader thread of
`open` is represented by what it has collected when it is joined. -/

namespace external_editor

/-- Modelled from the spec: an editor implementation of the configuration
(`external_editor.cfg.hh`, missing from the sources): the probe command and the command that
runs the editor. -/
structure impl where
  i_test_command : String
  i_command : String
deriving DecidableEq, Repr

/-- Modelled from the spec: how the child ended, as `auto_pid` (`base/auto_pid.hh`, missing
from the sources) reports it after `wait_for_child`: a normal exit with `exit_status`, or a
termination by the signal `term_signal`. -/
inductive child_end where
  | exited (exit_status : Int)
  | signaled (term_signal : Int)
deriving DecidableEq, Repr

/-- The answers of the operating system during one call of `open`: the wait status
`system` returns for a command line, the error of `auto_pipe::for_child_fd` and of
`lnav::pid::from_fork` when they fail, how the child ends, and the data the successive
`read` calls on the child's stderr return (an empty piece stands for a result `rc <= 0`,
as does the end of the list). -/
structure os_answers where
  system : String → Int
  pipe_error : Option String
  fork_error : Option String
  child : child_end
  reads : List String

/-- The calls `open` makes after the detection, in the order of the source. -/
inductive action where
  | create_pipe
  | fork
  | start_reader
  | wait_for_child
  | join_reader
deriving DecidableEq, Repr

/-- The function `lnav::external_editor::get_impl`: the loop over the configured
implementations `cfg.c_impls`, in the order of the container; the first one whose probe
command, run by `system` with its output suppressed, returns 0 is the detected one. -/
def get_impl (system : String → Int) : List (String × impl) → Option impl
  | [] => none
  | pair :: rest =>
    if system (pair.2.i_test_command ++ " > /dev/null 2>&1") = 0 then some pair.2
    else get_impl system rest

/-- The loop of the reader thread of `open`: every piece read is appended to `error_queue`
until a `read` returns `rc <= 0`. -/
def read_all : List String → String
  | [] => ""
  | buffer :: rest => if buffer.length = 0 then "" else buffer ++ read_all rest

/-- The function `lnav::external_editor::open`, for the value `IMPL` of its static (the
result of `get_impl` at the first call): the result and the calls made. -/
def open_editor (os : os_answers) (IMPL : Option impl) : Except String Unit × List action :=
  match IMPL with
  | none => (Except.error "no external editor found", [])
  | some _ =>
    match os.pipe_error with
    | some e => (Except.error e, [action.create_pipe])
    | none =>
      match os.fork_error with
      | some e => (Except.error e, [action.create_pipe, action.fork])
      | none =>
        let error_queue := read_all os.reads
        let calls := [action.create_pipe, action.fork, action.start_reader,
          action.wait_for_child, action.join_reader]
        match os.child with
        | child_end.signaled term_signal =>
          (Except.error ("editor failed with signal " ++ toString term_signal), calls)
        | child_end.exited exit_status =>
          if exit_status ≠ 0 then
            (Except.error
              ("editor failed with status " ++ toString exit_status ++ " -- " ++ error_queue),
              calls)
          else (Except.ok (), calls)

/-- The first call of `open`: the static `IMPL` is computed by `get_impl`. -/
def open_first (os : os_answers) (c_impls : List (String × impl)) :
    Except String Unit × List action :=
  open_editor os (get_impl os.system c_impls)

/-- An operating system in which only the probe `command -v vi` succeeds, and in which the
editor writes "boom" to its stderr and exits with status 2. -/
def sample_os : os_answers :=
  { system := fun cmd => if cmd = "command -v vi > /dev/null 2>&1" then 0 else 256
    pipe_error := none
    fork_error := none
    child := child_end.exited 2
    reads := ["bo", "om"] }

/-- A configuration of two editors. -/
def sample_impls : List (String × impl) :=
  [("code", { i_test_command := "command -v code", i_command := "code -w $FILE_PATH" }),
    ("vi", { i_test_command := "command -v vi", i_command := "vi $FILE_PATH" })]

end external_editor

/-! ## The widget -/

/-- The result of `get_visible_dimensions`. -/
structure dimension_result where
  dr_height : Int
  dr_width : Int
  dr_full_height : Int
  dr_full_width : Int
deriving DecidableEq, Repr

/-- The state of a `textinput_curses` widget.  `win_height` and `win_width` are what
`ncplane_dim_yx` reports for `tc_window`; `tc_on_change`, `tc_on_completion` and
`tc_on_abort` tell whether the callback is set; `tc_fired` lists the callbacks fired so
far, oldest first. -/
@[ext]
structure textinput_curses where
  tc_lines : List std_string
  tc_clipboard : std_string
  tc_left : Int
  tc_top : Int
  tc_cursor_x : Int
  tc_cursor_y : Int
  tc_height : Int
  tc_max_popup_height : Nat
  vc_x : Int
  vc_y : Int
  vc_width : Int
  win_height : Nat
  win_width : Nat
  tc_popup : popup_state
  tc_on_change : Bool
  tc_on_completion : Bool
  tc_on_abort : Bool
  tc_fired : List callback
  vc_needs_update : Bool
deriving DecidableEq, Repr

namespace textinput_curses

/-- The function `textinput_curses::get_visible_dimensions`. -/
def get_visible_dimensions (s : textinput_curses) : dimension_result :=
  { dr_full_height := s.win_height
    dr_full_width := s.win_width
    dr_height :=
      if to_unsigned s.vc_y < s.win_height then
        min ((s.win_height : Int) - s.vc_y) (s.vc_y + s.tc_height)
      else 0
    dr_width :=
      if to_unsigned s.vc_x < s.win_width then
        to_int (min (((s.win_width : Int) - s.vc_x) % 4294967296)
          ((s.vc_x + s.vc_width) % 4294967296))
      else 0 }

/-- The function `textinput_curses::get_content`. -/
def get_content (s : textinput_curses) : std_string := join_lines s.tc_lines

/-- The function `textinput_curses::ensure_cursor_visible`. -/
def ensure_cursor_visible (s : textinput_curses) : textinput_curses :=
  let dim := s.get_visible_dimensions
  let size : Int := s.tc_lines.length
  let y0 := if s.tc_cursor_y < 0 then 0 else s.tc_cursor_y
  let y := if to_size_t y0 ≥ size then size - 1 else y0
  let x0 := if s.tc_cursor_x < 0 then 0 else s.tc_cursor_x
  let x := if to_size_t x0 ≥ column_width (line_at s.tc_lines y)
    then (column_width (line_at s.tc_lines y) : Int) else x0
  let left0 := if x < s.tc_left then x else s.tc_left
  let left := if x ≥ left0 + (dim.dr_width - 1) then (x - dim.dr_width) + 1 else left0
  let top0 := if y < s.tc_top then y else s.tc_top
  let top1 := if y ≥ top0 + dim.dr_height then (y - dim.dr_height) + 1 else top0
  let top :=
    if to_size_t (top1 + dim.dr_height) > size then
      if size > to_size_t dim.dr_height then size - dim.dr_height else 0
    else top1
  { s with
    tc_cursor_x := x
    tc_cursor_y := y
    tc_left := left
    tc_top := top
    vc_needs_update := true }

/-- Firing a callback when it is set (`if (cb) cb(*this)`). -/
def fire (s : textinput_curses) (is_set : Bool) (cb : callback) : textinput_curses :=
  if is_set then { s with tc_fired := s.tc_fired ++ [cb] } else s

/-- The function `textinput_curses::update_lines`: the content is joined, highlighted (which
only touches style attributes) and split into lines again; then the cursor is clamped, the
popup hidden and the on-change callback fired. -/
def update_lines (s : textinput_curses) : textinput_curses :=
  let s1 := { s with tc_lines := split_lines s.get_content }
  let s2 := s1.ensure_cursor_visible
  let s3 := { s2 with tc_popup := { s2.tc_popup with visible := false } }
  s3.fire s3.tc_on_change callback.on_change

/-- The function `textinput_curses::handle_mouse`. -/
def handle_mouse (s : textinput_curses) (me : mouse_event) : Bool × textinput_curses :=
  let s1 :=
    if me.me_state = mouse_button_state_t.BUTTON_STATE_DRAGGED then
      ensure_cursor_visible
        { s with tc_cursor_x := s.tc_left + me.me_x, tc_cursor_y := s.tc_top + me.me_y }
    else if me.me_state = mouse_button_state_t.BUTTON_STATE_RELEASED then
      ensure_cursor_visible
        { s with tc_cursor_x := s.tc_left + me.me_x, tc_cursor_y := s.tc_top + me.me_y }
    else s
  let s2 :=
    if me.me_button = mouse_button_t.BUTTON_SCROLL_UP then
      if s1.tc_cursor_y > 0 then
        ensure_cursor_visible { s1 with tc_cursor_y := s1.tc_cursor_y - 1 }
      else s1
    else if me.me_button = mouse_button_t.BUTTON_SCROLL_DOWN then
      if to_size_t (s1.tc_cursor_y + 1) < (s1.tc_lines.length : Int) then
        ensure_cursor_visible { s1 with tc_cursor_y := s1.tc_cursor_y + 1 }
      else s1
    else s1
  (true, s2)

/-- The bytes the default branch of `handle_key` collects in its buffer `utf8`: the code
points of `eff_text` up to the first zero, each written in UTF-8. -/
def encode_eff_text : List Nat → std_string
  | [] => []
  | eff_ch :: rest => if eff_ch = 0 then [] else utf8_write eff_ch ++ encode_eff_text rest

/-- The difference of two `size_t` values. -/
def size_t_sub (a b : Nat) : Nat := (((a : Int) - (b : Int)) % 18446744073709551616).toNat

/-- Hiding the popup and asking for a redraw (`tc_popup.set_visible(false)` followed by
`set_needs_update()`). -/
def hide_popup (s : textinput_curses) : textinput_curses :=
  { s with tc_popup := { s.tc_popup with visible := false }, vc_needs_update := true }

/-- The case `NCKEY_ESC` / `KEY_CTRL(']')` of `handle_key`. -/
def key_esc (s : textinput_curses) : Bool × textinput_curses :=
  if s.tc_popup.visible then (true, s.hide_popup)
  else (true, s.fire s.tc_on_abort callback.on_abort)

/-- The case `NCKEY_ENTER` of `handle_key`. -/
def key_enter (s : textinput_curses) : Bool × textinput_curses :=
  if s.tc_popup.visible then
    (true, (s.fire s.tc_on_completion callback.on_completion).hide_popup)
  else
    let curr_al := line_at s.tc_lines s.tc_cursor_y
    let byte_index := column_to_byte_index curr_al (to_column s.tc_cursor_x)
    let remaining := subline curr_al byte_index
    let lines1 := set_line s.tc_lines s.tc_cursor_y (erase curr_al byte_index)
    (true, update_lines
      { s with
        tc_cursor_x := 0
        tc_cursor_y := s.tc_cursor_y + 1
        tc_lines := insert_line lines1 (s.tc_cursor_y + 1) remaining })

/-- The case `NCKEY_TAB` of `handle_key`; it leaves the switch by `break`, so the key is
reported as not handled. -/
def key_tab (s : textinput_curses) : Bool × textinput_curses :=
  if s.tc_popup.visible then
    (false, (s.fire s.tc_on_completion callback.on_completion).hide_popup)
  else (false, s)

/-- The case `NCKEY_HOME` of `handle_key`. -/
def key_home (s : textinput_curses) : Bool × textinput_curses :=
  (true, ensure_cursor_visible { s with tc_cursor_x := 0, tc_cursor_y := 0 })

/-- The case `NCKEY_END` of `handle_key`; `bottom` is `tc_lines.size() - 1`. -/
def key_end (s : textinput_curses) : Bool × textinput_curses :=
  (true, ensure_cursor_visible
    { s with tc_cursor_x := 0, tc_cursor_y := (s.tc_lines.length : Int) - 1 })

/-- The case `NCKEY_PGUP` of `handle_key`. -/
def key_pgup (s : textinput_curses) : Bool × textinput_curses :=
  let dim := s.get_visible_dimensions
  if s.tc_cursor_y > 0 then
    if s.tc_cursor_y < dim.dr_height then
      (true, ensure_cursor_visible { s with tc_cursor_y := 0 })
    else
      (true, ensure_cursor_visible
        { s with
          tc_top := if s.tc_top < dim.dr_height then 0 else s.tc_top - dim.dr_height
          tc_cursor_y := s.tc_cursor_y - dim.dr_height })
  else (true, s)

/-- The case `NCKEY_PGDOWN` of `handle_key`; `inner_height` is `tc_lines.size()` and `bottom`
is `inner_height - 1`, both of type `size_t`. -/
def key_pgdown (s : textinput_curses) : Bool × textinput_curses :=
  let dim := s.get_visible_dimensions
  let inner_height : Int := s.tc_lines.length
  let bottom : Int := to_size_t (inner_height - 1)
  if to_size_t s.tc_cursor_y < bottom then
    if to_size_t (s.tc_cursor_y + dim.dr_height) < inner_height then
      (true, ensure_cursor_visible
        { s with
          tc_top := s.tc_top + dim.dr_height
          tc_cursor_y := s.tc_cursor_y + dim.dr_height })
    else
      (true, ensure_cursor_visible { s with tc_cursor_y := inner_height - 1 })
  else (true, s)

/-- The case `NCKEY_DEL` of `handle_key`; it leaves the switch by `break`, so the key is
reported as not handled. -/
def key_del (s : textinput_curses) : Bool × textinput_curses :=
  let al := line_at s.tc_lines s.tc_cursor_y
  if to_size_t s.tc_cursor_x = (column_width al : Int) then
    if to_size_t (s.tc_cursor_y + 1) < (s.tc_lines.length : Int) then
      let lines1 :=
        set_line s.tc_lines s.tc_cursor_y (al ++ line_at s.tc_lines (s.tc_cursor_y + 1))
      (false, update_lines { s with tc_lines := erase_line lines1 (s.tc_cursor_y + 1) })
    else (false, s)
  else
    let start_byte_index := column_to_byte_index al (to_column s.tc_cursor_x)
    let end_byte_index := column_to_byte_index al (to_column (s.tc_cursor_x + 1))
    let al1 := erase_len al start_byte_index (size_t_sub end_byte_index start_byte_index)
    (false, update_lines { s with tc_lines := set_line s.tc_lines s.tc_cursor_y al1 })

/-- The case `NCKEY_BACKSPACE` of `handle_key`. -/
def key_backspace (s : textinput_curses) : Bool × textinput_curses :=
  if s.tc_cursor_x > 0 then
    let al := line_at s.tc_lines s.tc_cursor_y
    let start := column_to_byte_index al (to_column (s.tc_cursor_x - 1))
    let end_index := column_to_byte_index al (to_column s.tc_cursor_x)
    let al1 := erase_len al start (size_t_sub end_index start)
    (true, update_lines
      { s with
        tc_lines := set_line s.tc_lines s.tc_cursor_y al1
        tc_cursor_x := s.tc_cursor_x - 1 })
  else if s.tc_cursor_y > 0 then
    let prev_al := line_at s.tc_lines (s.tc_cursor_y - 1)
    let new_cursor_x : Int := column_width prev_al
    let lines1 :=
      set_line s.tc_lines (s.tc_cursor_y - 1) (prev_al ++ line_at s.tc_lines s.tc_cursor_y)
    (true, ensure_cursor_visible
      { s with
        tc_lines := erase_line lines1 s.tc_cursor_y
        tc_cursor_x := new_cursor_x
        tc_cursor_y := s.tc_cursor_y - 1 })
  else (true, s)

/-- The case `NCKEY_UP` of `handle_key`. -/
def key_up (s : textinput_curses) (ch : ncinput) : Bool × textinput_curses :=
  if s.tc_popup.visible then (true, { s with tc_popup := s.tc_popup.handle_key ch })
  else if s.tc_cursor_y > 0 then
    (true, ensure_cursor_visible { s with tc_cursor_y := s.tc_cursor_y - 1 })
  else (true, s)

/-- The case `NCKEY_DOWN` of `handle_key`. -/
def key_down (s : textinput_curses) (ch : ncinput) : Bool × textinput_curses :=
  if s.tc_popup.visible then (true, { s with tc_popup := s.tc_popup.handle_key ch })
  else if to_size_t (s.tc_cursor_y + 1) < (s.tc_lines.length : Int) then
    (true, ensure_cursor_visible { s with tc_cursor_y := s.tc_cursor_y + 1 })
  else (true, s)

/-- The case `NCKEY_LEFT` of `handle_key`. -/
def key_left (s : textinput_curses) : Bool × textinput_curses :=
  if s.tc_cursor_x > 0 then
    (true, ensure_cursor_visible { s with tc_cursor_x := s.tc_cursor_x - 1 })
  else if s.tc_cursor_y > 0 then
    (true, ensure_cursor_visible
      { s with
        tc_cursor_y := s.tc_cursor_y - 1
        tc_cursor_x := column_width (line_at s.tc_lines (s.tc_cursor_y - 1)) })
  else (true, s)

/-- The case `NCKEY_RIGHT` of `handle_key`; `bottom` is `tc_lines.size() - 1`, of type
`size_t`. -/
def key_right (s : textinput_curses) : Bool × textinput_curses :=
  let bottom : Int := to_size_t ((s.tc_lines.length : Int) - 1)
  if to_size_t s.tc_cursor_x < (column_width (line_at s.tc_lines s.tc_cursor_y) : Int) then
    (true, ensure_cursor_visible { s with tc_cursor_x := s.tc_cursor_x + 1 })
  else if to_size_t s.tc_cursor_y < bottom then
    (true, ensure_cursor_visible { s with tc_cursor_x := 0, tc_cursor_y := s.tc_cursor_y + 1 })
  else (true, s)

/-- The `default` case of `handle_key`: the effective text of the chord is inserted at the
cursor and the cursor advances by one column. -/
def key_default (s : textinput_curses) (ch : ncinput) : Bool × textinput_curses :=
  let utf8 := encode_eff_text ch.eff_text
  let al := line_at s.tc_lines s.tc_cursor_y
  let al1 := insert al (column_to_byte_index al (to_column s.tc_cursor_x)) utf8
  (true, update_lines
    { s with
      tc_lines := set_line s.tc_lines s.tc_cursor_y al1
      tc_cursor_x := s.tc_cursor_x + 1 })

/-- The last `switch` of `textinput_curses::handle_key`, over the key id `chid` (which the
control chords `b` and `f` have replaced by the left and right arrows). -/
def handle_named_key (s : textinput_curses) (ch : ncinput) (chid : Nat) :
    Bool × textinput_curses :=
  if chid = NCKEY_ESC ∨ chid = KEY_CTRL_RBRACKET then s.key_esc
  else if chid = NCKEY_ENTER then s.key_enter
  else if chid = NCKEY_TAB then s.key_tab
  else if chid = NCKEY_HOME then s.key_home
  else if chid = NCKEY_END then s.key_end
  else if chid = NCKEY_PGUP then s.key_pgup
  else if chid = NCKEY_PGDOWN then s.key_pgdown
  else if chid = NCKEY_DEL then s.key_del
  else if chid = NCKEY_BACKSPACE then s.key_backspace
  else if chid = NCKEY_UP then s.key_up ch
  else if chid = NCKEY_DOWN then s.key_down ch
  else if chid = NCKEY_LEFT then s.key_left
  else if chid = NCKEY_RIGHT then s.key_right
  else s.key_default ch

/-- The control chords `a` / `A` of `handle_key`. -/
def ctrl_a (s : textinput_curses) : Bool × textinput_curses :=
  (true, ensure_cursor_visible { s with tc_cursor_x := 0 })

/-- The control chords `e` / `E` of `handle_key`. -/
def ctrl_e (s : textinput_curses) : Bool × textinput_curses :=
  (true, ensure_cursor_visible
    { s with tc_cursor_x := column_width (line_at s.tc_lines s.tc_cursor_y) })

/-- The control chords `k` / `K` of `handle_key`: kill to the end of the line. -/
def ctrl_k (s : textinput_curses) : Bool × textinput_curses :=
  let al := line_at s.tc_lines s.tc_cursor_y
  let byte_index := column_to_byte_index al (to_column s.tc_cursor_x)
  (true, update_lines
    { s with
      tc_clipboard := subline al byte_index
      tc_lines := set_line s.tc_lines s.tc_cursor_y (erase al byte_index) })

/-- The control chords `u` / `U` of `handle_key`: kill to the start of the line. -/
def ctrl_u (s : textinput_curses) : Bool × textinput_curses :=
  let al := line_at s.tc_lines s.tc_cursor_y
  let byte_index := column_to_byte_index al (to_column s.tc_cursor_x)
  (true, update_lines
    { s with
      tc_clipboard := subline_len al 0 byte_index
      tc_lines := set_line s.tc_lines s.tc_cursor_y (erase_len al 0 byte_index)
      tc_cursor_x := 0 })

/-- The control chords `y` / `Y` of `handle_key`: yank the clipboard. -/
def ctrl_y (s : textinput_curses) : Bool × textinput_curses :=
  if s.tc_clipboard ≠ [] then
    let al := line_at s.tc_lines s.tc_cursor_y
    let al1 := insert al (column_to_byte_index al (to_column s.tc_cursor_x)) s.tc_clipboard
    let clip_cols : Int := column_width s.tc_clipboard
    (true, update_lines
      { s with
        tc_lines := set_line s.tc_lines s.tc_cursor_y al1
        tc_cursor_x := s.tc_cursor_x + clip_cols })
  else (true, s)

/-- The `switch` of `textinput_curses::handle_key` over the control chords.  The chords `b`
and `f` leave the switch with the key id replaced by an arrow key; any other chord is
reported as not handled. -/
def handle_ctrl_key (s : textinput_curses) (ch : ncinput) : Bool × textinput_curses :=
  if ch.id = 97 ∨ ch.id = 65 then s.ctrl_a
  else if ch.id = 98 ∨ ch.id = 66 then s.handle_named_key ch NCKEY_LEFT
  else if ch.id = 101 ∨ ch.id = 69 then s.ctrl_e
  else if ch.id = 102 ∨ ch.id = 70 then s.handle_named_key ch NCKEY_RIGHT
  else if ch.id = 107 ∨ ch.id = 75 then s.ctrl_k
  else if ch.id = 117 ∨ ch.id = 85 then s.ctrl_u
  else if ch.id = 121 ∨ ch.id = 89 then s.ctrl_y
  else (false, s)

/-- The alt chord on `NCKEY_LEFT` of `handle_key`: the previous word. -/
def alt_left (ws : word_search) (s : textinput_curses) : Bool × textinput_curses :=
  let al := line_at s.tc_lines s.tc_cursor_y
  match ws.prev_word al s.tc_cursor_x with
  | some next_col => (true, ensure_cursor_visible { s with tc_cursor_x := next_col })
  | none => (true, ensure_cursor_visible { s with tc_cursor_x := 0 })

/-- The alt chord on `NCKEY_RIGHT` of `handle_key`: the next word. -/
def alt_right (ws : word_search) (s : textinput_curses) : Bool × textinput_curses :=
  let al := line_at s.tc_lines s.tc_cursor_y
  match ws.next_word al s.tc_cursor_x with
  | some next_col => (true, ensure_cursor_visible { s with tc_cursor_x := next_col })
  | none => (true, ensure_cursor_visible { s with tc_cursor_x := column_width al })

/-- The function `textinput_curses::handle_key`: the alt chords first (an alt chord on
another key falls through), then the control chords, then the named keys and the printable
default.  The key ids of the chords are the character codes (`f` 102, `F` 70, `a` 97,
`A` 65, `b` 98, `B` 66, `e` 101, `E` 69, `k` 107, `K` 75, `u` 117, `U` 85, `y` 121,
`Y` 89). -/
def handle_key (ws : word_search) (s : textinput_curses) (ch : ncinput) :
    Bool × textinput_curses :=
  if ch.alt = true ∧ (ch.id = 102 ∨ ch.id = 70) then (true, s)
  else if ch.alt = true ∧ ch.id = NCKEY_LEFT then alt_left ws s
  else if ch.alt = true ∧ ch.id = NCKEY_RIGHT then alt_right ws s
  else if ch.ctrl = true then s.handle_ctrl_key ch
  else s.handle_named_key ch ch.id

/-- Modelled from the spec: `lnav::itertools::max` (missing from the sources): the largest
element of a sequence, or nothing for the empty sequence. -/
def itertools_max : List Nat → Option Nat
  | [] => none
  | a :: rest =>
    match itertools_max rest with
    | none => some a
    | some m => some (max a m)

/-- The function `textinput_curses::open_popup_for_completion`.  The anchor `left` is a
`size_t`, so the test `rel_x + full_width > dim.dr_width` is made on `size_t` values; the
test `vc_y + rel_y + popup_height > dim.dr_full_height` is made on `unsigned` values.  The
popup records the absolute position `vc_x + rel_x`, `vc_y + rel_y`. -/
def open_popup_for_completion (s : textinput_curses) (left : Nat)
    (possibilities : List std_string) : textinput_curses :=
  if possibilities = [] then s
  else
    let dim := s.get_visible_dimensions
    let max_width := itertools_max (possibilities.map column_width)
    let full_width : Int := min ((max_width.getD 1 : Int) + 2) dim.dr_width
    let popup_height : Int := (min s.tc_max_popup_height possibilities.length : Nat)
    let rel_x : Int :=
      if ((left : Int) + to_size_t full_width) % 18446744073709551616 > to_size_t dim.dr_width
      then to_size_t (dim.dr_width - full_width) else left
    let rel_y0 : Int := s.tc_cursor_y - s.tc_top + 1
    let rel_y : Int :=
      if to_unsigned (s.vc_y + rel_y0 + popup_height) > dim.dr_full_height
      then s.tc_cursor_y - s.tc_top - popup_height else rel_y0
    { s with
      tc_popup :=
        { s.tc_popup with
          rows := possibilities
          x := s.vc_x + rel_x
          y := s.vc_y + rel_y
          width := full_width
          height := popup_height
          visible := true
          selection := 0 }
      vc_needs_update := true }

/-- The function `textinput_curses::set_content`: the text is highlighted (which only touches
style attributes) and split into lines, an empty result becomes one empty line, and the cursor
and the viewport return to the origin. -/
def set_content (s : textinput_curses) (al : std_string) : textinput_curses :=
  { s with
    tc_lines := if split_lines al = [] then [[]] else split_lines al
    tc_left := 0
    tc_top := 0
    tc_cursor_x := 0
    tc_cursor_y := 0 }

/-- The cursor addresses a position of the document: the row is a row of the document and
the column lies between 0 and the column width of that row (spec 3, Cursor). -/
def cursor_valid (s : textinput_curses) : Prop :=
  (0 ≤ s.tc_cursor_y ∧ s.tc_cursor_y < (s.tc_lines.length : Int))
    ∧ 0 ≤ s.tc_cursor_x
    ∧ s.tc_cursor_x ≤ (column_width (line_at s.tc_lines s.tc_cursor_y) : Int)

/-- A valid state: the document is not empty and the cursor addresses a position of it. -/
def valid (s : textinput_curses) : Prop := s.tc_lines ≠ [] ∧ s.cursor_valid

instance (s : textinput_curses) : Decidable s.cursor_valid := by
  unfold cursor_valid; infer_instance

instance (s : textinput_curses) : Decidable s.valid := by
  unfold valid; infer_instance

/-- No line of the document contains a line terminator, as for every document made by
`split_lines`. -/
def lines_clean (ls : List std_string) : Prop := ∀ l ∈ ls, NL ∉ l

instance (ls : List std_string) : Decidable (lines_clean ls) := by
  unfold lines_clean; infer_instance

/-- The value `ensure_cursor_visible` leaves in `tc_left`, from the clamped cursor column,
the previous `tc_left` and the visible width (lines 424-429 of the source). -/
def scroll_left (x left w : Int) : Int :=
  if x ≥ (if x < left then x else left) + (w - 1) then (x - w) + 1
  else (if x < left then x else left)

/-- The value `ensure_cursor_visible` leaves in `tc_top`, from the clamped cursor row, the
previous `tc_top`, the visible height and the line count (lines 430-442 of the source). -/
def scroll_top (y top h size : Int) : Int :=
  if to_size_t ((if y ≥ (if y < top then y else top) + h then (y - h) + 1
        else (if y < top then y else top)) + h) > size
  then (if size > to_size_t h then size - h else 0)
  else (if y ≥ (if y < top then y else top) + h then (y - h) + 1
        else (if y < top then y else top))

/-- The line the cursor is on. -/
def cursor_line (s : textinput_curses) : std_string := line_at s.tc_lines s.tc_cursor_y

/-- The byte offset of the cursor column in the cursor's line. -/
def cursor_byte_index (s : textinput_curses) : Nat :=
  column_to_byte_index s.cursor_line (to_column s.tc_cursor_x)

/-- What a read-only operation leaves alone between the state `s` before and the state `t`
after: every line's text (and so the line count), the clipboard, the popup (and so its
visibility), and the list of fired callbacks (no callback fires). -/
def content_preserved (s t : textinput_curses) : Prop :=
  t.tc_lines = s.tc_lines ∧ t.tc_clipboard = s.tc_clipboard ∧ t.tc_popup = s.tc_popup
    ∧ t.tc_fired = s.tc_fired

/-- The navigation chords: the left, right, home, end, page-up and page-down keys with any
modifiers (so also Alt-Left and Alt-Right), the control chords `a`, `e`, `b`, `f` in either
case, and the up and down keys while the popup is hidden. -/
def is_navigation (s : textinput_curses) (ch : ncinput) : Prop :=
  (ch.id = NCKEY_LEFT ∨ ch.id = NCKEY_RIGHT ∨ ch.id = NCKEY_HOME ∨ ch.id = NCKEY_END
      ∨ ch.id = NCKEY_PGUP ∨ ch.id = NCKEY_PGDOWN)
    ∨ (ch.ctrl = true
      ∧ (ch.id = 97 ∨ ch.id = 65 ∨ ch.id = 101 ∨ ch.id = 69 ∨ ch.id = 98 ∨ ch.id = 66
        ∨ ch.id = 102 ∨ ch.id = 70))
    ∨ ((ch.id = NCKEY_UP ∨ ch.id = NCKEY_DOWN) ∧ s.tc_popup.visible = false)

instance (s : textinput_curses) (ch : ncinput) : Decidable (is_navigation s ch) := by
  unfold is_navigation; infer_instance

/-- The state with the popup showing. -/
def show_popup (s : textinput_curses) : textinput_curses :=
  { s with tc_popup := { s.tc_popup with visible := true } }

/-- What the mutation contract asks of a call from state `s` to state `t`: the popup is not
visible afterwards and the on-change callback, when one is set, has fired during the call
(spec 4.4). -/
def change_reported (s t : textinput_curses) : Prop :=
  t.tc_popup.visible = false
    ∧ (s.tc_on_change = true → t.tc_fired = s.tc_fired ++ [callback.on_change])

/-- The cursor row lies in the viewport: `top <= row < top + height`, with the visible
height of `get_visible_dimensions`. -/
def row_in_view (s : textinput_curses) : Prop :=
  s.tc_top ≤ s.tc_cursor_y ∧ s.tc_cursor_y < s.tc_top + s.get_visible_dimensions.dr_height

instance (s : textinput_curses) : Decidable s.row_in_view := by
  unfold row_in_view; infer_instance

/-- The number of bytes of the last encoded character that are missing at the end of the
text, when the text is read with `skip` bytes of the current encoded character still to be
consumed (the reading of `width_from`). -/
def pending_from : Nat → std_string → Nat
  | k, [] => k
  | 0, b :: rest => pending_from (utf8_char_size b - 1) rest
  | k + 1, _ :: rest => pending_from k rest

/-- The text is made of whole encoded characters: the last one is not cut short. -/
def whole_chars (s : std_string) : Prop := pending_from 0 s = 0

instance (s : std_string) : Decidable (whole_chars s) := by
  unfold whole_chars; infer_instance

/-- The chord reaches the `default` case of `handle_key`: the control modifier is not set,
the chord is not the alt chord `f` / `F`, and the key id is none of the named keys of the last
`switch`. -/
def reaches_default (ch : ncinput) : Prop :=
  ch.ctrl = false ∧ ¬ (ch.alt = true ∧ (ch.id = 102 ∨ ch.id = 70))
    ∧ ch.id ≠ NCKEY_ESC ∧ ch.id ≠ KEY_CTRL_RBRACKET ∧ ch.id ≠ NCKEY_ENTER ∧ ch.id ≠ NCKEY_TAB
    ∧ ch.id ≠ NCKEY_HOME ∧ ch.id ≠ NCKEY_END ∧ ch.id ≠ NCKEY_PGUP ∧ ch.id ≠ NCKEY_PGDOWN
    ∧ ch.id ≠ NCKEY_DEL ∧ ch.id ≠ NCKEY_BACKSPACE ∧ ch.id ≠ NCKEY_UP ∧ ch.id ≠ NCKEY_DOWN
    ∧ ch.id ≠ NCKEY_LEFT ∧ ch.id ≠ NCKEY_RIGHT

instance (ch : ncinput) : Decidable (reaches_default ch) := by
  unfold reaches_default; infer_instance

/-- The effective text of the chord is the single character `cp`: the code points of
`eff_text` before the first zero are `cp` alone, and `cp` is not the line terminator. -/
def single_char (ch : ncinput) (cp : Nat) : Prop :=
  cp ≠ 0 ∧ cp ≠ NL ∧ (ch.eff_text = [cp] ∨ ch.eff_text.take 2 = [cp, 0])

instance (ch : ncinput) (cp : Nat) : Decidable (single_char ch cp) := by
  unfold single_char; infer_instance

/-- The chord of a printable character: the key id and the effective text are its code
point, as notcurses fills the four entries of `eff_text`. -/
def char_key (cp : Nat) : ncinput :=
  { id := cp, alt := false, ctrl := false, eff_text := [cp, 0, 0, 0] }

/-- A widget of five rows and eighty columns at the origin of an 80 x 24 window, showing the
given document with the cursor at column `x` of row `y`; the popup is hidden, the clipboard
empty, all three callbacks are set and none has fired. -/
def sample (ls : List std_string) (x y : Int) : textinput_curses :=
  { tc_lines := ls
    tc_clipboard := []
    tc_left := 0
    tc_top := 0
    tc_cursor_x := x
    tc_cursor_y := y
    tc_height := 5
    tc_max_popup_height := 5
    vc_x := 0
    vc_y := 0
    vc_width := 80
    win_height := 24
    win_width := 80
    tc_popup :=
      { visible := false, x := 0, y := 0, width := 0, height := 0, selection := 0, rows := [],
        keys := [] }
    tc_on_change := true
    tc_on_completion := true
    tc_on_abort := true
    tc_fired := []
    vc_needs_update := false }

/-- The sample widget moved to rows 19 to 23 of its window of 24 rows, showing five lines
with the cursor at column 2 of the last one. -/
def sample_low : textinput_curses :=
  { sample [[104, 101, 108, 108, 111], [104, 101, 108, 108, 111], [104, 101, 108, 108, 111],
      [104, 101, 108, 108, 111], [104, 101, 108, 108, 111]] 2 4 with vc_y := 19 }

/-- The bytes of "hello". -/
def hello : std_string := [104, 101, 108, 108, 111]

/-- The bytes of "abc". -/
def abc : std_string := [97, 98, 99]

/-- A word search that never finds a boundary. -/
def no_words : word_search :=
  { prev_word := fun _ _ => none
    next_word := fun _ _ => none }

/-- A plain key chord: no modifier, no text. -/
def plain_key (id : Nat) : ncinput :=
  { id := id, alt := false, ctrl := false, eff_text := [] }

/-- A control chord on a character. -/
def ctrl_key (id : Nat) : ncinput :=
  { id := id, alt := false, ctrl := true, eff_text := [] }

/-! # Properties -/

/-! ## Integer conversions -/

/-- On every value a 64-bit integer type can hold, `to_size_t` is the reduction modulo
`2^64`. -/
theorem to_size_t_eq_emod (i : Int) (h0 : -18446744073709551616 ≤ i)
    (h1 : i < 18446744073709551616) : to_size_t i = i % 18446744073709551616 := by
  unfold to_size_t
  split_ifs <;> omega

/-! ## `ensure_cursor_visible` -/

theorem ensure_lines (s : textinput_curses) :
    s.ensure_cursor_visible.tc_lines = s.tc_lines := rfl

theorem ensure_dims (s : textinput_curses) :
    s.ensure_cursor_visible.get_visible_dimensions = s.get_visible_dimensions := rfl

theorem ensure_cursor_y_eq (s : textinput_curses) (hne : s.tc_lines ≠ []) :
    s.ensure_cursor_visible.tc_cursor_y
      = max 0 (min s.tc_cursor_y ((s.tc_lines.length : Int) - 1)) := by
  have hlen : 0 < s.tc_lines.length := List.length_pos.mpr hne
  have hlen2 : (1 : Int) ≤ (s.tc_lines.length : Int) := by omega
  simp only [ensure_cursor_visible, to_size_t, max_def, min_def]
  generalize (s.tc_lines.length : Int) = n at *
  split_ifs <;> omega

theorem ensure_cursor_x_eq (s : textinput_curses) :
    s.ensure_cursor_visible.tc_cursor_x
      = max 0 (min s.tc_cursor_x
          (column_width (line_at s.tc_lines s.ensure_cursor_visible.tc_cursor_y) : Int)) := by
  simp only [ensure_cursor_visible, to_size_t, max_def, min_def]
  generalize hw : (column_width _ : Int) = w
  have hw0 : 0 ≤ w := hw ▸ Int.natCast_nonneg _
  split_ifs <;> omega

theorem ensure_left_eq (s : textinput_curses) :
    s.ensure_cursor_visible.tc_left
      = scroll_left s.ensure_cursor_visible.tc_cursor_x s.tc_left
          s.get_visible_dimensions.dr_width := rfl

theorem ensure_top_eq (s : textinput_curses) :
    s.ensure_cursor_visible.tc_top
      = scroll_top s.ensure_cursor_visible.tc_cursor_y s.tc_top
          s.get_visible_dimensions.dr_height s.tc_lines.length := rfl

/-- After the pass the cursor addresses a position of the document. -/
theorem ensure_cursor_valid (s : textinput_curses) (hne : s.tc_lines ≠ []) :
    s.ensure_cursor_visible.cursor_valid := by
  have hlen : 0 < s.tc_lines.length := List.length_pos.mpr hne
  have hy := ensure_cursor_y_eq s hne
  have hx := ensure_cursor_x_eq s
  have hw := Int.natCast_nonneg
    (column_width (line_at s.tc_lines s.ensure_cursor_visible.tc_cursor_y))
  unfold cursor_valid
  rw [ensure_lines]
  omega

/-- After the pass the state is valid. -/
theorem ensure_valid (s : textinput_curses) (hne : s.tc_lines ≠ []) :
    s.ensure_cursor_visible.valid :=
  ⟨hne, ensure_cursor_valid s hne⟩

/-- The pass leaves a cursor alone that already addresses a position of the document. -/
theorem ensure_cursor_of_valid (s : textinput_curses) (hv : s.valid) :
    s.ensure_cursor_visible.tc_cursor_y = s.tc_cursor_y
      ∧ s.ensure_cursor_visible.tc_cursor_x = s.tc_cursor_x := by
  obtain ⟨hne, ⟨hy0, hy1⟩, hx0, hx1⟩ := hv
  have hy := ensure_cursor_y_eq s hne
  have hy2 : s.ensure_cursor_visible.tc_cursor_y = s.tc_cursor_y := by omega
  have hx := ensure_cursor_x_eq s
  rw [hy2] at hx
  exact ⟨hy2, by omega⟩

/-- With a viewport of at least one row, the pass leaves the cursor row inside the
viewport. -/
theorem ensure_top_bounds (s : textinput_curses) (hne : s.tc_lines ≠ [])
    (hh : 1 ≤ s.get_visible_dimensions.dr_height) :
    s.ensure_cursor_visible.tc_top ≤ s.ensure_cursor_visible.tc_cursor_y
      ∧ s.ensure_cursor_visible.tc_cursor_y
          < s.ensure_cursor_visible.tc_top + s.get_visible_dimensions.dr_height := by
  have hlen : 0 < s.tc_lines.length := List.length_pos.mpr hne
  have hy := ensure_cursor_y_eq s hne
  rw [ensure_top_eq]
  simp only [scroll_top, to_size_t]
  generalize s.ensure_cursor_visible.tc_cursor_y = y at *
  generalize s.get_visible_dimensions.dr_height = h at *
  constructor <;> split_ifs <;> omega

/-- A second pass computes the same `tc_top`. -/
theorem scroll_top_idem (y top h n : Int) (hy : 0 ≤ y) (hyn : y < n) :
    scroll_top y (scroll_top y top h n) h n = scroll_top y top h n := by
  have key : ∀ t : Int, t = scroll_top y top h n → scroll_top y t h n = t := by
    intro t ht
    have h1 : (1 ≤ h → t ≤ y ∧ y < t + h ∧ (t + h ≤ n ∨ (n ≤ h ∧ t = 0)))
        ∧ (h ≤ 0 → t = y - h + 1) := by
      rw [ht]; simp only [scroll_top, to_size_t]
      constructor
      · intro hh; split_ifs <;> omega
      · intro hh; split_ifs <;> omega
    simp only [scroll_top, to_size_t]
    rcases le_or_lt 1 h with hh | hh
    · obtain ⟨a, b, c⟩ := h1.1 hh
      split_ifs <;> omega
    · have := h1.2 (by omega)
      split_ifs <;> omega
  exact key _ rfl

/-- A second pass computes the same `tc_left`. -/
theorem scroll_left_idem (x left w : Int) :
    scroll_left x (scroll_left x left w) w = scroll_left x left w := by
  simp only [scroll_left]
  split_ifs <;> omega

/-! ## C1 -/

/-- C1: for every non-empty document, every viewport height of at least one row and every
starting cursor and viewport, after `ensure_cursor_visible` the cursor row is a row of the
document (`0 <= row < line_count`) and lies in the viewport (`top <= row < top + height`),
and the cursor column lies between 0 and the column width of the cursor's line. -/
theorem C1_ensure_cursor_visible_bounds (s : textinput_curses) (hne : s.tc_lines ≠ [])
    (hh : 1 ≤ s.get_visible_dimensions.dr_height) :
    (0 ≤ s.ensure_cursor_visible.tc_cursor_y
      ∧ s.ensure_cursor_visible.tc_cursor_y
          < (s.ensure_cursor_visible.tc_lines.length : Int))
    ∧ (s.ensure_cursor_visible.tc_top ≤ s.ensure_cursor_visible.tc_cursor_y
      ∧ s.ensure_cursor_visible.tc_cursor_y
          < s.ensure_cursor_visible.tc_top
              + s.ensure_cursor_visible.get_visible_dimensions.dr_height)
    ∧ (0 ≤ s.ensure_cursor_visible.tc_cursor_x
      ∧ s.ensure_cursor_visible.tc_cursor_x
          ≤ (column_width
              (line_at s.ensure_cursor_visible.tc_lines
                s.ensure_cursor_visible.tc_cursor_y) : Int)) := by
  obtain ⟨hy, hx0, hx1⟩ := ensure_cursor_valid s hne
  exact ⟨hy, ensure_top_bounds s hne hh, hx0, hx1⟩

/-- C1 at a concrete state: a two-line document with the cursor far outside it. -/
theorem C1_ensure_cursor_visible_bounds_witness :
    (sample [hello, abc] 40 (-7)).tc_lines ≠ []
      ∧ 1 ≤ (sample [hello, abc] 40 (-7)).get_visible_dimensions.dr_height
      ∧ (sample [hello, abc] 40 (-7)).ensure_cursor_visible.tc_cursor_y = 0
      ∧ (sample [hello, abc] 40 (-7)).ensure_cursor_visible.tc_cursor_x = 5
      ∧ (0 ≤ (sample [hello, abc] 40 (-7)).ensure_cursor_visible.tc_cursor_y
        ∧ (sample [hello, abc] 40 (-7)).ensure_cursor_visible.tc_cursor_y
            < ((sample [hello, abc] 40 (-7)).ensure_cursor_visible.tc_lines.length : Int)) :=
  ⟨by decide, by decide, by decide, by decide,
    (C1_ensure_cursor_visible_bounds (sample [hello, abc] 40 (-7))
      (by decide) (by decide)).1⟩

/-! ## C8 -/

/-- C8, the claim as stated fails: in a viewport of five columns the pass leaves the cursor
at column 4 with `tc_left = 0`, so `column < left + width - 1` does not hold; and in a
viewport of zero columns it leaves `tc_left` one past the cursor column, so
`left <= column` does not hold. -/
theorem C8_horizontal_strict_bound_fails :
    ¬ (({ sample [hello] 4 0 with vc_width := 5 }).ensure_cursor_visible.tc_left
          ≤ ({ sample [hello] 4 0 with vc_width := 5 }).ensure_cursor_visible.tc_cursor_x
        ∧ ({ sample [hello] 4 0 with vc_width := 5 }).ensure_cursor_visible.tc_cursor_x
          < ({ sample [hello] 4 0 with vc_width := 5 }).ensure_cursor_visible.tc_left
            + ({ sample [hello] 4 0 with vc_width := 5 }).get_visible_dimensions.dr_width - 1)
    ∧ ({ sample [hello] 4 0 with vc_width := 5 }).get_visible_dimensions.dr_width = 5
    ∧ ({ sample [hello] 4 0 with vc_width := 5 }).ensure_cursor_visible.tc_cursor_x = 4
    ∧ ({ sample [hello] 4 0 with vc_width := 5 }).ensure_cursor_visible.tc_left = 0
    ∧ ({ sample [hello] 3 0 with vc_width := 0 }).get_visible_dimensions.dr_width = 0
    ∧ ({ sample [hello] 3 0 with vc_width := 0 }).ensure_cursor_visible.tc_cursor_x = 3
    ∧ ({ sample [hello] 3 0 with vc_width := 0 }).ensure_cursor_visible.tc_left = 4 := by
  decide

/-- C8, amended: for every document, every viewport width of at least one column and every
starting cursor and viewport, after `ensure_cursor_visible` the cursor column lies in the
viewport, `left <= column <= left + width - 1`; the last visible column is allowed. -/
theorem C8_horizontal_viewport (s : textinput_curses)
    (hw : 1 ≤ s.get_visible_dimensions.dr_width) :
    s.ensure_cursor_visible.tc_left ≤ s.ensure_cursor_visible.tc_cursor_x
      ∧ s.ensure_cursor_visible.tc_cursor_x
          ≤ s.ensure_cursor_visible.tc_left
              + s.ensure_cursor_visible.get_visible_dimensions.dr_width - 1 := by
  rw [ensure_left_eq, ensure_dims]
  simp only [scroll_left]
  generalize s.ensure_cursor_visible.tc_cursor_x = x at *
  generalize s.get_visible_dimensions.dr_width = w at *
  constructor <;> split_ifs <;> omega

/-- C8 amended, at a concrete state: a viewport of five columns and the cursor at the end of
a ten-column line. -/
theorem C8_horizontal_viewport_witness :
    1 ≤ ({ sample [hello ++ hello] 10 0 with vc_width := 5 }).get_visible_dimensions.dr_width
      ∧ ({ sample [hello ++ hello] 10 0 with vc_width := 5 }).ensure_cursor_visible.tc_left = 6
      ∧ (({ sample [hello ++ hello] 10 0 with vc_width := 5 }).ensure_cursor_visible.tc_left
            ≤ ({ sample [hello ++ hello] 10 0 with
                  vc_width := 5 }).ensure_cursor_visible.tc_cursor_x
          ∧ ({ sample [hello ++ hello] 10 0 with
                  vc_width := 5 }).ensure_cursor_visible.tc_cursor_x
            ≤ ({ sample [hello ++ hello] 10 0 with vc_width := 5 }).ensure_cursor_visible.tc_left
              + ({ sample [hello ++ hello] 10 0 with
                  vc_width := 5 }).ensure_cursor_visible.get_visible_dimensions.dr_width - 1) :=
  ⟨by decide, by decide,
    C8_horizontal_viewport ({ sample [hello ++ hello] 10 0 with vc_width := 5 }) (by decide)⟩

/-! ## C9 -/

/-- C9: `ensure_cursor_visible` is idempotent: for every non-empty document, all viewport
dimensions and every starting cursor and viewport, a second pass changes nothing; the whole
state, and so the cursor row and column and the viewport top and left, is the one the first
pass produced. -/
theorem C9_ensure_cursor_visible_idempotent (s : textinput_curses) (hne : s.tc_lines ≠ []) :
    s.ensure_cursor_visible.ensure_cursor_visible = s.ensure_cursor_visible := by
  have hv := ensure_valid s hne
  obtain ⟨hy, hx⟩ := ensure_cursor_of_valid _ hv
  obtain ⟨⟨hy0, hy1⟩, -, -⟩ := hv.2
  have hl : s.ensure_cursor_visible.ensure_cursor_visible.tc_left
      = s.ensure_cursor_visible.tc_left := by
    rw [ensure_left_eq s.ensure_cursor_visible, hx, ensure_dims, ensure_left_eq s]
    exact scroll_left_idem _ _ _
  have ht : s.ensure_cursor_visible.ensure_cursor_visible.tc_top
      = s.ensure_cursor_visible.tc_top := by
    rw [ensure_top_eq s.ensure_cursor_visible, hy, ensure_dims, ensure_lines, ensure_top_eq s]
    exact scroll_top_idem _ _ _ _ hy0 hy1
  ext1
  all_goals first | rfl | assumption

/-- C9 at a concrete state: a cursor far outside a two-line document. -/
theorem C9_ensure_cursor_visible_idempotent_witness :
    (sample [hello, abc] 40 9).tc_lines ≠ []
      ∧ (sample [hello, abc] 40 9).ensure_cursor_visible.ensure_cursor_visible
          = (sample [hello, abc] 40 9).ensure_cursor_visible :=
  ⟨by decide, C9_ensure_cursor_visible_idempotent (sample [hello, abc] 40 9) (by decide)⟩

/-! ## Columns and byte offsets -/

theorem utf8_char_size_pos (b : Nat) : 1 ≤ utf8_char_size b := by
  unfold utf8_char_size; split_ifs <;> omega

theorem utf8_char_size_le (b : Nat) : utf8_char_size b ≤ 4 := by
  unfold utf8_char_size; split_ifs <;> omega

theorem byte_index_from_le (k : Nat) (s : std_string) (c : Nat) :
    byte_index_from k s c ≤ s.length := by
  induction s generalizing k c with
  | nil => simp [byte_index_from]
  | cons b rest ih =>
    cases k with
    | zero =>
      cases c with
      | zero => simp [byte_index_from]
      | succ c => simp only [byte_index_from, List.length_cons]; have := ih (utf8_char_size b - 1) c; omega
    | succ k => simp only [byte_index_from, List.length_cons]; have := ih k c; omega

theorem width_from_take (k : Nat) (s : std_string) (c : Nat) :
    width_from k (s.take (byte_index_from k s c)) = min c (width_from k s) := by
  induction s generalizing k c with
  | nil => simp [byte_index_from, width_from]
  | cons b rest ih =>
    cases k with
    | zero =>
      cases c with
      | zero => simp [byte_index_from, width_from]
      | succ c =>
        have h := ih (utf8_char_size b - 1) c
        simp only [byte_index_from, width_from, Nat.add_comm 1, List.take_succ_cons, h]
        omega
    | succ k =>
      have h := ih k c
      simp only [byte_index_from, width_from, Nat.add_comm 1, List.take_succ_cons, h]

theorem width_from_append_le (k : Nat) (s t : std_string) :
    width_from k s ≤ width_from k (s ++ t) := by
  induction s generalizing k with
  | nil => simp [width_from]
  | cons b rest ih =>
    cases k with
    | zero =>
      simp only [List.cons_append, width_from, List.append_eq]
      have := ih (utf8_char_size b - 1); omega
    | succ k => simp only [List.cons_append, width_from, List.append_eq]; exact ih k

theorem width_from_drop (k : Nat) (s : std_string) (c : Nat) :
    width_from k s = min c (width_from k s) + width_from 0 (s.drop (byte_index_from k s c)) := by
  induction s generalizing k c with
  | nil => simp [byte_index_from, width_from]
  | cons b rest ih =>
    cases k with
    | zero =>
      cases c with
      | zero => simp [byte_index_from, width_from]
      | succ c =>
        have h := ih (utf8_char_size b - 1) c
        simp only [byte_index_from, width_from, Nat.add_comm 1, List.drop_succ_cons]
        omega
    | succ k =>
      have h := ih k c
      simp only [byte_index_from, width_from, Nat.add_comm 1, List.drop_succ_cons]
      exact h

theorem byte_index_from_full (k : Nat) (s : std_string) (c : Nat)
    (h : width_from k s ≤ c) : byte_index_from k s c = s.length := by
  induction s generalizing k c with
  | nil => simp [byte_index_from]
  | cons b rest ih =>
    cases k with
    | zero =>
      cases c with
      | zero => simp [width_from] at h
      | succ c =>
        simp only [width_from] at h
        simp only [byte_index_from, List.length_cons]
        rw [ih (utf8_char_size b - 1) c (by omega)]; omega
    | succ k =>
      simp only [width_from] at h
      simp only [byte_index_from, List.length_cons]
      rw [ih k c h]; omega

theorem byte_index_from_zero_le (k : Nat) (s : std_string) : byte_index_from k s 0 ≤ k := by
  induction s generalizing k with
  | nil => simp [byte_index_from]
  | cons b rest ih =>
    cases k with
    | zero => simp [byte_index_from]
    | succ k => simp only [byte_index_from]; have := ih k; omega

theorem byte_index_from_succ (k : Nat) (s : std_string) (c : Nat) :
    byte_index_from k s c ≤ byte_index_from k s (c + 1)
      ∧ byte_index_from k s (c + 1) ≤ byte_index_from k s c + 4 := by
  induction s generalizing k c with
  | nil => simp [byte_index_from]
  | cons b rest ih =>
    cases k with
    | zero =>
      cases c with
      | zero =>
        simp only [byte_index_from]
        have := byte_index_from_zero_le (utf8_char_size b - 1) rest
        have := utf8_char_size_le b
        omega
      | succ c =>
        simp only [byte_index_from]
        have := ih (utf8_char_size b - 1) c
        omega
    | succ k => simp only [byte_index_from]; have := ih k c; omega

/-! ## Joining and splitting the content -/

theorem split_from_line (cur l rest : std_string) (h : NL ∉ l) :
    split_from cur (l ++ NL :: rest) = (cur ++ l) :: split_from [] rest := by
  induction l generalizing cur with
  | nil => simp [split_from]
  | cons b l ih =>
    have hb : b ≠ NL := fun e => h (by simp [e])
    have hl : NL ∉ l := fun e => h (by simp [e])
    simp only [List.cons_append, split_from, if_neg hb, List.append_eq]
    rw [ih _ hl]; simp

theorem split_join (ls : List std_string) (h : ∀ l ∈ ls, NL ∉ l) :
    split_lines (join_lines ls) = ls := by
  induction ls with
  | nil => simp [split_lines, join_lines, split_from]
  | cons l ls ih =>
    have h1 : NL ∉ l := h l (by simp)
    have h2 : ∀ l ∈ ls, NL ∉ l := fun l hl => h l (by simp [hl])
    have := ih h2
    unfold split_lines at *
    simp only [join_lines]
    rw [split_from_line _ _ _ h1, this]; simp

theorem split_from_ne_nil (cur content : std_string) (h : NL ∈ content) :
    split_from cur content ≠ [] := by
  induction content generalizing cur with
  | nil => simp at h
  | cons b rest ih =>
    simp only [split_from]
    split_ifs with hb
    · simp
    · have : NL ∈ rest := by
        rcases List.mem_cons.mp h with e | e
        · exact absurd e.symm hb
        · exact e
      exact ih _ this

theorem join_lines_mem (ls : List std_string) (h : ls ≠ []) : NL ∈ join_lines ls := by
  cases ls with
  | nil => exact absurd rfl h
  | cons l ls => simp [join_lines]

theorem split_from_clean (cur content : std_string) (h : NL ∉ cur) :
    ∀ l ∈ split_from cur content, NL ∉ l := by
  induction content generalizing cur with
  | nil =>
    simp only [split_from]
    split_ifs <;> simp [h]
  | cons b rest ih =>
    simp only [split_from]
    split_ifs with hb
    · intro l hl
      rcases List.mem_cons.mp hl with e | e
      · rw [e]; exact h
      · exact ih [] (by simp) l e
    · apply ih
      simp only [List.mem_append, List.mem_singleton, not_or]
      exact ⟨h, fun e => hb e.symm⟩

/-! ## Rows of the document -/

theorem to_column_of_nonneg (x : Int) (h : 0 ≤ x) : to_column x = x.toNat := by
  simp [to_column, to_size_t, h]

theorem to_size_t_of_nonneg (x : Int) (h : 0 ≤ x) : to_size_t x = x := by
  simp [to_size_t, h]

theorem length_set_line (ls : List std_string) (r : Int) (v : std_string) :
    (set_line ls r v).length = ls.length := by
  unfold set_line; split_ifs <;> simp

theorem length_insert_line (ls : List std_string) (r : Int) (v : std_string) :
    (insert_line ls r v).length = ls.length + 1 := by
  simp only [insert_line, List.length_append, List.length_cons, List.length_take,
    List.length_drop]
  omega

theorem length_erase_line (ls : List std_string) (r : Int) (h : r.toNat < ls.length) :
    (erase_line ls r).length + 1 = ls.length := by
  simp only [erase_line, List.length_append, List.length_take, List.length_drop]
  omega

theorem ne_nil_of_length_pos {α : Type} (l : List α) (h : 0 < l.length) : l ≠ [] :=
  List.length_pos.mp h

/-! ## Firing callbacks and updating the lines -/

@[simp] theorem fire_tc_lines (s : textinput_curses) (b : Bool) (cb : callback) :
    (s.fire b cb).tc_lines = s.tc_lines := by cases b <;> rfl

@[simp] theorem fire_tc_cursor_x (s : textinput_curses) (b : Bool) (cb : callback) :
    (s.fire b cb).tc_cursor_x = s.tc_cursor_x := by cases b <;> rfl

@[simp] theorem fire_tc_cursor_y (s : textinput_curses) (b : Bool) (cb : callback) :
    (s.fire b cb).tc_cursor_y = s.tc_cursor_y := by cases b <;> rfl

@[simp] theorem fire_tc_clipboard (s : textinput_curses) (b : Bool) (cb : callback) :
    (s.fire b cb).tc_clipboard = s.tc_clipboard := by cases b <;> rfl

@[simp] theorem fire_tc_popup (s : textinput_curses) (b : Bool) (cb : callback) :
    (s.fire b cb).tc_popup = s.tc_popup := by cases b <;> rfl

theorem fire_tc_fired (s : textinput_curses) (b : Bool) (cb : callback) :
    (s.fire b cb).tc_fired = if b = true then s.tc_fired ++ [cb] else s.tc_fired := by
  cases b <;> rfl

/-- Validity only depends on the document and the cursor. -/
theorem valid_congr (s t : textinput_curses) (hl : t.tc_lines = s.tc_lines)
    (hx : t.tc_cursor_x = s.tc_cursor_x) (hy : t.tc_cursor_y = s.tc_cursor_y)
    (hv : s.valid) : t.valid := by
  unfold valid cursor_valid at *
  rw [hl, hx, hy]; exact hv

theorem update_lines_ne_nil (s : textinput_curses) (hne : s.tc_lines ≠ []) :
    s.update_lines.tc_lines ≠ [] := by
  simp only [update_lines, fire_tc_lines, ensure_lines, get_content, split_lines]
  exact split_from_ne_nil _ _ (join_lines_mem _ hne)

theorem update_lines_valid (s : textinput_curses) (hne : s.tc_lines ≠ []) :
    s.update_lines.valid := by
  have h1 : split_lines s.get_content ≠ [] :=
    split_from_ne_nil _ _ (join_lines_mem _ hne)
  have h2 := ensure_valid { s with tc_lines := split_lines s.get_content } h1
  refine valid_congr _ _ ?_ ?_ ?_ h2
  · simp [update_lines]
  · simp [update_lines]
  · simp [update_lines]

/-- On a document whose lines hold no line terminator, `update_lines` is the clamping pass
followed by hiding the popup and firing the on-change callback. -/
theorem update_lines_eq (s : textinput_curses) (hc : lines_clean s.tc_lines) :
    s.update_lines
      = fire { s.ensure_cursor_visible with
                tc_popup := { s.ensure_cursor_visible.tc_popup with visible := false } }
          s.tc_on_change callback.on_change := by
  have h : ({ s with tc_lines := split_lines s.get_content } : textinput_curses) = s := by
    rw [get_content, split_join _ hc]
  simp only [update_lines, h]
  rfl

/-! ## Validity is preserved -/

theorem hide_popup_valid (s : textinput_curses) (hv : s.valid) : s.hide_popup.valid :=
  valid_congr s _ rfl rfl rfl hv

theorem fire_valid (s : textinput_curses) (b : Bool) (cb : callback) (hv : s.valid) :
    (s.fire b cb).valid :=
  valid_congr s _ (by simp) (by simp) (by simp) hv

theorem key_esc_valid (s : textinput_curses) (hv : s.valid) : s.key_esc.2.valid := by
  unfold key_esc; split_ifs
  · exact hide_popup_valid _ hv
  · exact fire_valid _ _ _ hv

theorem key_enter_valid (s : textinput_curses) (hv : s.valid) : s.key_enter.2.valid := by
  unfold key_enter; split_ifs
  · exact hide_popup_valid _ (fire_valid _ _ _ hv)
  · exact update_lines_valid _ (ne_nil_of_length_pos _ (by simp [length_insert_line]))

theorem key_tab_valid (s : textinput_curses) (hv : s.valid) : s.key_tab.2.valid := by
  unfold key_tab; split_ifs
  · exact hide_popup_valid _ (fire_valid _ _ _ hv)
  · exact hv

theorem key_home_valid (s : textinput_curses) (hv : s.valid) : s.key_home.2.valid :=
  ensure_valid _ hv.1

theorem key_end_valid (s : textinput_curses) (hv : s.valid) : s.key_end.2.valid :=
  ensure_valid _ hv.1

theorem key_pgup_valid (s : textinput_curses) (hv : s.valid) : s.key_pgup.2.valid := by
  unfold key_pgup; simp only []; split_ifs
  · exact ensure_valid _ hv.1
  · exact ensure_valid _ hv.1
  · exact ensure_valid _ hv.1
  · exact hv

theorem key_pgdown_valid (s : textinput_curses) (hv : s.valid) : s.key_pgdown.2.valid := by
  unfold key_pgdown; simp only []; split_ifs
  · exact ensure_valid _ hv.1
  · exact ensure_valid _ hv.1
  · exact hv

theorem key_del_valid (s : textinput_curses) (hv : s.valid) : s.key_del.2.valid := by
  have hlen : 0 < s.tc_lines.length := List.length_pos.mpr hv.1
  obtain ⟨⟨hy0, hy1⟩, -, -⟩ := hv.2
  unfold key_del; simp only []; split_ifs with h1 h2
  · refine update_lines_valid _ (ne_nil_of_length_pos _ ?_)
    rw [to_size_t_of_nonneg _ (by omega)] at h2
    have := length_erase_line (set_line s.tc_lines s.tc_cursor_y
      (line_at s.tc_lines s.tc_cursor_y ++ line_at s.tc_lines (s.tc_cursor_y + 1)))
      (s.tc_cursor_y + 1) (by rw [length_set_line]; omega)
    rw [length_set_line] at this
    show 0 < (erase_line _ _).length
    omega
  · exact hv
  · exact update_lines_valid _ (ne_nil_of_length_pos _ (by simp [length_set_line, hlen]))

theorem key_backspace_valid (s : textinput_curses) (hv : s.valid) :
    s.key_backspace.2.valid := by
  have hlen : 0 < s.tc_lines.length := List.length_pos.mpr hv.1
  obtain ⟨⟨hy0, hy1⟩, -, -⟩ := hv.2
  unfold key_backspace; simp only []; split_ifs with h1 h2
  · exact update_lines_valid _ (ne_nil_of_length_pos _ (by simp [length_set_line, hlen]))
  · refine ensure_valid _ (ne_nil_of_length_pos _ ?_)
    have := length_erase_line (set_line s.tc_lines (s.tc_cursor_y - 1)
      (line_at s.tc_lines (s.tc_cursor_y - 1) ++ line_at s.tc_lines s.tc_cursor_y))
      s.tc_cursor_y (by rw [length_set_line]; omega)
    rw [length_set_line] at this
    show 0 < (erase_line _ _).length
    omega
  · exact hv

theorem key_up_valid (s : textinput_curses) (ch : ncinput) (hv : s.valid) :
    (s.key_up ch).2.valid := by
  unfold key_up; split_ifs
  · exact valid_congr s _ rfl rfl rfl hv
  · exact ensure_valid _ hv.1
  · exact hv

theorem key_down_valid (s : textinput_curses) (ch : ncinput) (hv : s.valid) :
    (s.key_down ch).2.valid := by
  unfold key_down; split_ifs
  · exact valid_congr s _ rfl rfl rfl hv
  · exact ensure_valid _ hv.1
  · exact hv

theorem key_left_valid (s : textinput_curses) (hv : s.valid) : s.key_left.2.valid := by
  unfold key_left; split_ifs
  · exact ensure_valid _ hv.1
  · exact ensure_valid _ hv.1
  · exact hv

theorem key_right_valid (s : textinput_curses) (hv : s.valid) : s.key_right.2.valid := by
  unfold key_right; simp only []; split_ifs
  · exact ensure_valid _ hv.1
  · exact ensure_valid _ hv.1
  · exact hv

theorem key_default_valid (s : textinput_curses) (ch : ncinput) (hv : s.valid) :
    (s.key_default ch).2.valid := by
  have hlen : 0 < s.tc_lines.length := List.length_pos.mpr hv.1
  exact update_lines_valid _ (ne_nil_of_length_pos _ (by simp [length_set_line, hlen]))

/-- A property of both branches of a conditional holds of the conditional. -/
theorem ite_cases {α : Type} (P : α → Prop) (c : Prop) [Decidable c] (a b : α)
    (ha : P a) (hb : P b) : P (if c then a else b) := by
  by_cases h : c
  · rw [if_pos h]; exact ha
  · rw [if_neg h]; exact hb

/-- A property of every case of the last `switch` of `handle_key` holds of its result. -/
theorem handle_named_key_cases (P : Bool × textinput_curses → Prop) (s : textinput_curses)
    (ch : ncinput) (chid : Nat) (h_esc : P s.key_esc) (h_enter : P s.key_enter)
    (h_tab : P s.key_tab) (h_home : P s.key_home) (h_end : P s.key_end)
    (h_pgup : P s.key_pgup) (h_pgdown : P s.key_pgdown) (h_del : P s.key_del)
    (h_backspace : P s.key_backspace) (h_up : P (s.key_up ch)) (h_down : P (s.key_down ch))
    (h_left : P s.key_left) (h_right : P s.key_right) (h_default : P (s.key_default ch)) :
    P (s.handle_named_key ch chid) := by
  rw [handle_named_key]
  exact ite_cases P _ _ _ h_esc (ite_cases P _ _ _ h_enter (ite_cases P _ _ _ h_tab
    (ite_cases P _ _ _ h_home (ite_cases P _ _ _ h_end (ite_cases P _ _ _ h_pgup
    (ite_cases P _ _ _ h_pgdown (ite_cases P _ _ _ h_del (ite_cases P _ _ _ h_backspace
    (ite_cases P _ _ _ h_up (ite_cases P _ _ _ h_down (ite_cases P _ _ _ h_left
    (ite_cases P _ _ _ h_right h_default))))))))))))

/-- A property of every case of the control `switch` of `handle_key` holds of its result. -/
theorem handle_ctrl_key_cases (P : Bool × textinput_curses → Prop) (s : textinput_curses)
    (ch : ncinput) (h_a : P s.ctrl_a) (h_b : P (s.handle_named_key ch NCKEY_LEFT))
    (h_e : P s.ctrl_e) (h_f : P (s.handle_named_key ch NCKEY_RIGHT)) (h_k : P s.ctrl_k)
    (h_u : P s.ctrl_u) (h_y : P s.ctrl_y) (h_other : P (false, s)) :
    P (s.handle_ctrl_key ch) := by
  rw [handle_ctrl_key]
  exact ite_cases P _ _ _ h_a (ite_cases P _ _ _ h_b (ite_cases P _ _ _ h_e
    (ite_cases P _ _ _ h_f (ite_cases P _ _ _ h_k (ite_cases P _ _ _ h_u
    (ite_cases P _ _ _ h_y h_other))))))

/-- A property of every path through `handle_key` holds of its result. -/
theorem handle_key_cases (P : Bool × textinput_curses → Prop) (ws : word_search)
    (s : textinput_curses) (ch : ncinput) (h_alt_f : P (true, s))
    (h_alt_left : P (alt_left ws s)) (h_alt_right : P (alt_right ws s))
    (h_ctrl : P (s.handle_ctrl_key ch)) (h_named : P (s.handle_named_key ch ch.id)) :
    P (handle_key ws s ch) := by
  rw [handle_key]
  exact ite_cases P _ _ _ h_alt_f (ite_cases P _ _ _ h_alt_left
    (ite_cases P _ _ _ h_alt_right (ite_cases P _ _ _ h_ctrl h_named)))

theorem handle_named_key_valid (s : textinput_curses) (ch : ncinput) (chid : Nat)
    (hv : s.valid) : (s.handle_named_key ch chid).2.valid :=
  handle_named_key_cases (fun r => r.2.valid) s ch chid (key_esc_valid s hv)
    (key_enter_valid s hv) (key_tab_valid s hv) (key_home_valid s hv) (key_end_valid s hv)
    (key_pgup_valid s hv) (key_pgdown_valid s hv) (key_del_valid s hv)
    (key_backspace_valid s hv) (key_up_valid s ch hv) (key_down_valid s ch hv)
    (key_left_valid s hv) (key_right_valid s hv) (key_default_valid s ch hv)

theorem ctrl_y_valid (s : textinput_curses) (hv : s.valid) : s.ctrl_y.2.valid := by
  have hlen : 0 < s.tc_lines.length := List.length_pos.mpr hv.1
  unfold ctrl_y; split_ifs
  · exact update_lines_valid _ (ne_nil_of_length_pos _ (by simp [length_set_line, hlen]))
  · exact hv

theorem handle_ctrl_key_valid (s : textinput_curses) (ch : ncinput) (hv : s.valid) :
    (s.handle_ctrl_key ch).2.valid := by
  have hlen : 0 < s.tc_lines.length := List.length_pos.mpr hv.1
  refine handle_ctrl_key_cases (fun r => r.2.valid) s ch ?_ ?_ ?_ ?_ ?_ ?_ ?_ ?_
  · exact ensure_valid _ hv.1
  · exact handle_named_key_valid s ch _ hv
  · exact ensure_valid _ hv.1
  · exact handle_named_key_valid s ch _ hv
  · exact update_lines_valid _ (ne_nil_of_length_pos _ (by simp [length_set_line, hlen]))
  · exact update_lines_valid _ (ne_nil_of_length_pos _ (by simp [length_set_line, hlen]))
  · exact ctrl_y_valid s hv
  · exact hv

theorem alt_left_valid (ws : word_search) (s : textinput_curses) (hv : s.valid) :
    (alt_left ws s).2.valid := by
  unfold alt_left; simp only []; split
  · exact ensure_valid _ hv.1
  · exact ensure_valid _ hv.1

theorem alt_right_valid (ws : word_search) (s : textinput_curses) (hv : s.valid) :
    (alt_right ws s).2.valid := by
  unfold alt_right; simp only []; split
  · exact ensure_valid _ hv.1
  · exact ensure_valid _ hv.1

theorem handle_key_valid (ws : word_search) (s : textinput_curses) (ch : ncinput)
    (hv : s.valid) : (handle_key ws s ch).2.valid :=
  handle_key_cases (fun r => r.2.valid) ws s ch hv (alt_left_valid ws s hv)
    (alt_right_valid ws s hv) (handle_ctrl_key_valid s ch hv)
    (handle_named_key_valid s ch _ hv)

theorem handle_mouse_valid (s : textinput_curses) (me : mouse_event) (hv : s.valid) :
    (s.handle_mouse me).2.valid := by
  have key : ∀ t : textinput_curses, t.valid →
      (if me.me_button = mouse_button_t.BUTTON_SCROLL_UP then
        if t.tc_cursor_y > 0 then
          ensure_cursor_visible { t with tc_cursor_y := t.tc_cursor_y - 1 }
        else t
      else if me.me_button = mouse_button_t.BUTTON_SCROLL_DOWN then
        if to_size_t (t.tc_cursor_y + 1) < (t.tc_lines.length : Int) then
          ensure_cursor_visible { t with tc_cursor_y := t.tc_cursor_y + 1 }
        else t
      else t).valid := by
    intro t ht
    split_ifs
    · exact ensure_valid _ ht.1
    · exact ht
    · exact ensure_valid _ ht.1
    · exact ht
    · exact ht
  unfold handle_mouse
  simp only []
  apply key
  split_ifs
  · exact ensure_valid _ hv.1
  · exact ensure_valid _ hv.1
  · exact hv

/-! ## C2 -/

/-- C2: state validity is an invariant of the engine: from a non-empty document with a cursor
inside it (`0 <= row < line_count`, `0 <= column <= column_width(line[row])`), after
`handle_key` on any key chord (any modifiers, popup visible or not, any word search) and after
`handle_mouse` on any mouse event, the document is still non-empty and the cursor still
satisfies both bounds. -/
theorem C2_validity_invariant (s : textinput_curses) (hv : s.valid) :
    (∀ (ws : word_search) (ch : ncinput), (handle_key ws s ch).2.valid)
      ∧ (∀ me : mouse_event, (s.handle_mouse me).2.valid) :=
  ⟨fun ws ch => handle_key_valid ws s ch hv, fun me => handle_mouse_valid s me hv⟩

/-- C2 at a concrete state: the cursor at the end of the last line of a two-line document. -/
theorem C2_validity_invariant_witness :
    (sample [hello, abc] 3 1).valid
      ∧ (handle_key no_words (sample [hello, abc] 3 1) (plain_key NCKEY_ENTER)).2.valid
      ∧ ((sample [hello, abc] 3 1).handle_mouse
          { me_button := mouse_button_t.BUTTON_SCROLL_UP
            me_state := mouse_button_state_t.BUTTON_STATE_PRESSED
            me_x := 0
            me_y := 0 }).2.valid :=
  ⟨by decide,
    (C2_validity_invariant (sample [hello, abc] 3 1) (by decide)).1 no_words
      (plain_key NCKEY_ENTER),
    (C2_validity_invariant (sample [hello, abc] 3 1) (by decide)).2 _⟩

/-! ## Which case a chord reaches -/

theorem handle_key_enter (ws : word_search) (s : textinput_curses) (ch : ncinput)
    (hid : ch.id = NCKEY_ENTER) (hc : ch.ctrl = false) :
    handle_key ws s ch = s.key_enter := by
  simp [handle_key, handle_named_key, hid, hc, NCKEY_ENTER, NCKEY_LEFT, NCKEY_RIGHT, NCKEY_ESC,
    KEY_CTRL_RBRACKET]

theorem handle_key_backspace (ws : word_search) (s : textinput_curses) (ch : ncinput)
    (hid : ch.id = NCKEY_BACKSPACE) (hc : ch.ctrl = false) :
    handle_key ws s ch = s.key_backspace := by
  simp [handle_key, handle_named_key, hid, hc, NCKEY_ENTER, NCKEY_LEFT, NCKEY_RIGHT, NCKEY_ESC,
    KEY_CTRL_RBRACKET, NCKEY_BACKSPACE, NCKEY_TAB, NCKEY_HOME, NCKEY_END, NCKEY_PGUP,
    NCKEY_PGDOWN, NCKEY_DEL]

theorem handle_key_del (ws : word_search) (s : textinput_curses) (ch : ncinput)
    (hid : ch.id = NCKEY_DEL) (hc : ch.ctrl = false) :
    handle_key ws s ch = s.key_del := by
  simp [handle_key, handle_named_key, hid, hc, NCKEY_ENTER, NCKEY_LEFT, NCKEY_RIGHT, NCKEY_ESC,
    KEY_CTRL_RBRACKET, NCKEY_BACKSPACE, NCKEY_TAB, NCKEY_HOME, NCKEY_END, NCKEY_PGUP,
    NCKEY_PGDOWN, NCKEY_DEL]

theorem handle_key_ctrl_k (ws : word_search) (s : textinput_curses) (ch : ncinput)
    (hid : ch.id = 107 ∨ ch.id = 75) (hc : ch.ctrl = true) :
    handle_key ws s ch = s.ctrl_k := by
  rcases hid with hid | hid <;>
  simp [handle_key, handle_ctrl_key, hid, hc, NCKEY_LEFT, NCKEY_RIGHT]

theorem handle_key_ctrl_y (ws : word_search) (s : textinput_curses) (ch : ncinput)
    (hid : ch.id = 121 ∨ ch.id = 89) (hc : ch.ctrl = true) :
    handle_key ws s ch = s.ctrl_y := by
  rcases hid with hid | hid <;>
  simp [handle_key, handle_ctrl_key, hid, hc, NCKEY_LEFT, NCKEY_RIGHT]

/-! ## A document around a row -/

theorem toNat_succ (n : Nat) : ((n : Int) + 1).toNat = n + 1 := by omega

theorem take_row (A B : List std_string) (L : std_string) :
    (A ++ L :: B).take A.length = A := by simp

theorem drop_row (A B : List std_string) (L : std_string) :
    (A ++ L :: B).drop (A.length + 1) = B := by
  induction A with
  | nil => simp
  | cons a A ih => simp [ih]

theorem drop_row_zero (A B : List std_string) (L : std_string) :
    (A ++ L :: B).drop A.length = L :: B := by
  induction A with
  | nil => simp
  | cons a A ih => simp [ih]

theorem getD_row (A B : List std_string) (L : std_string) :
    (A ++ L :: B).getD A.length [] = L := by
  induction A with
  | nil => simp
  | cons a A ih =>
    simp only [List.cons_append, List.length_cons, List.getD_cons_succ]
    exact ih

theorem take_row_succ (A B : List std_string) (L : std_string) :
    (A ++ L :: B).take (A.length + 1) = A ++ [L] := by
  induction A with
  | nil => simp
  | cons a A ih =>
    simp only [List.cons_append, List.length_cons, List.take_succ_cons, ih]

theorem set_row (A B : List std_string) (L v : std_string) :
    (A ++ L :: B).set A.length v = A ++ v :: B := by
  induction A with
  | nil => simp
  | cons a A ih => simp [ih]

theorem line_at_row (A B : List std_string) (L : std_string) :
    line_at (A ++ L :: B) (A.length : Int) = L := by
  unfold line_at
  rw [if_pos (Int.natCast_nonneg _), Int.toNat_ofNat, getD_row]

theorem line_at_row_succ (A B : List std_string) (L M : std_string) :
    line_at (A ++ L :: M :: B) ((A.length : Int) + 1) = M := by
  have h := line_at_row (A ++ [L]) B M
  simpa using h

theorem set_line_row (A B : List std_string) (L v : std_string) :
    set_line (A ++ L :: B) (A.length : Int) v = A ++ v :: B := by
  unfold set_line
  rw [if_pos (Int.natCast_nonneg _), Int.toNat_ofNat, set_row]

theorem insert_line_row_succ (A B : List std_string) (L w : std_string) :
    insert_line (A ++ L :: B) ((A.length : Int) + 1) w = A ++ L :: w :: B := by
  simp only [insert_line, toNat_succ, drop_row, take_row_succ, List.append_assoc,
    List.singleton_append]

theorem erase_line_row (A B : List std_string) (L : std_string) :
    erase_line (A ++ L :: B) (A.length : Int) = A ++ B := by
  unfold erase_line
  rw [Int.toNat_ofNat, take_row, drop_row]

theorem erase_line_row_succ (A B : List std_string) (L M : std_string) :
    erase_line (A ++ L :: M :: B) ((A.length : Int) + 1) = A ++ L :: B := by
  have h := erase_line_row (A ++ [L]) B M
  simpa using h

/-- A valid row splits the document into the rows before it, the row, and the rows after. -/
theorem take_getD_drop (ls : List std_string) (i : Nat) (hi : i < ls.length) :
    ls = ls.take i ++ ls.getD i [] :: ls.drop (i + 1) := by
  induction ls generalizing i with
  | nil => simp at hi
  | cons a ls ih =>
    cases i with
    | zero => simp
    | succ i =>
      have := ih i (by simpa using hi)
      simp only [List.take_succ_cons, List.drop_succ_cons, List.cons_append, List.getD_cons_succ]
      rw [← this]

/-- A valid row splits the document into the rows before it, the row, and the rows after. -/
theorem row_split (ls : List std_string) (y : Int) (h0 : 0 ≤ y) (h1 : y < (ls.length : Int)) :
    ∃ (A B : List std_string) (L : std_string),
      ls = A ++ L :: B ∧ y = (A.length : Int) ∧ A = ls.take y.toNat
        ∧ B = ls.drop (y.toNat + 1) ∧ L = line_at ls y := by
  obtain ⟨i, rfl⟩ := Int.eq_ofNat_of_zero_le h0
  have hi : i < ls.length := by omega
  refine ⟨ls.take i, ls.drop (i + 1), ls.getD i [], ?_, ?_, ?_, ?_, ?_⟩
  · simpa using take_getD_drop ls i hi
  · simp; omega
  · simp
  · simp
  · simp [line_at]

/-! ## Documents without line terminators -/

theorem lines_clean_append (A B : List std_string) :
    lines_clean (A ++ B) ↔ lines_clean A ∧ lines_clean B := by
  unfold lines_clean
  simp only [List.mem_append]
  constructor
  · intro h; exact ⟨fun l hl => h l (Or.inl hl), fun l hl => h l (Or.inr hl)⟩
  · rintro ⟨h1, h2⟩ l (hl | hl)
    · exact h1 l hl
    · exact h2 l hl

theorem lines_clean_cons (L : std_string) (B : List std_string) :
    lines_clean (L :: B) ↔ NL ∉ L ∧ lines_clean B := by
  unfold lines_clean
  simp

theorem not_mem_take (L : std_string) (n : Nat) (h : NL ∉ L) : NL ∉ L.take n :=
  fun e => h (List.mem_of_mem_take e)

theorem not_mem_drop (L : std_string) (n : Nat) (h : NL ∉ L) : NL ∉ L.drop n :=
  fun e => h (List.mem_of_mem_drop e)

/-- After `update_lines` on a document without line terminators: the document is unchanged,
the cursor is the clamped one, the clipboard is unchanged, the popup is hidden and the
on-change callback has fired if it is set. -/
theorem update_lines_fields (s : textinput_curses) (hc : lines_clean s.tc_lines) :
    s.update_lines.tc_lines = s.tc_lines
      ∧ s.update_lines.tc_cursor_x = s.ensure_cursor_visible.tc_cursor_x
      ∧ s.update_lines.tc_cursor_y = s.ensure_cursor_visible.tc_cursor_y
      ∧ s.update_lines.tc_clipboard = s.tc_clipboard
      ∧ s.update_lines.tc_popup.visible = false
      ∧ s.update_lines.tc_fired
          = (if s.tc_on_change = true then s.tc_fired ++ [callback.on_change]
              else s.tc_fired) := by
  rw [update_lines_eq s hc]
  refine ⟨by simp [ensure_lines], by simp, by simp, ?_, by simp, ?_⟩
  · simp only [fire_tc_clipboard]; rfl
  · rw [fire_tc_fired]; rfl

/-- After `update_lines` on a valid state without line terminators the cursor has not
moved. -/
theorem update_lines_cursor (s : textinput_curses) (hv : s.valid)
    (hc : lines_clean s.tc_lines) :
    s.update_lines.tc_cursor_x = s.tc_cursor_x ∧ s.update_lines.tc_cursor_y = s.tc_cursor_y := by
  obtain ⟨-, hx, hy, -⟩ := update_lines_fields s hc
  obtain ⟨hy2, hx2⟩ := ensure_cursor_of_valid s hv
  exact ⟨hx.trans hx2, hy.trans hy2⟩

/-! ## C4 -/

/-- C4: in a valid state with the popup hidden and the cursor at (r, c), Enter replaces line r
by its text before the byte offset of column c, inserts the text from that offset to the end
as a new line at row r+1 and leaves every other line unchanged (the line count grows by
exactly one, and old line r is new line r followed by new line r+1); the cursor ends at
(r+1, 0).  The lines of the document hold no line terminator, as in every document the
widget builds. -/
theorem C4_enter_splits_line (ws : word_search) (s : textinput_curses) (ch : ncinput)
    (hv : s.valid) (hclean : lines_clean s.tc_lines) (hp : s.tc_popup.visible = false)
    (hid : ch.id = NCKEY_ENTER) (hctrl : ch.ctrl = false) :
    (handle_key ws s ch).2.tc_lines
        = s.tc_lines.take s.tc_cursor_y.toNat
            ++ s.cursor_line.take s.cursor_byte_index
              :: s.cursor_line.drop s.cursor_byte_index
              :: s.tc_lines.drop (s.tc_cursor_y.toNat + 1)
      ∧ (handle_key ws s ch).2.tc_lines.length = s.tc_lines.length + 1
      ∧ (line_at (handle_key ws s ch).2.tc_lines s.tc_cursor_y
            = s.cursor_line.take s.cursor_byte_index
          ∧ line_at (handle_key ws s ch).2.tc_lines (s.tc_cursor_y + 1)
            = s.cursor_line.drop s.cursor_byte_index
          ∧ s.cursor_line
            = line_at (handle_key ws s ch).2.tc_lines s.tc_cursor_y
              ++ line_at (handle_key ws s ch).2.tc_lines (s.tc_cursor_y + 1))
      ∧ (handle_key ws s ch).2.tc_cursor_y = s.tc_cursor_y + 1
      ∧ (handle_key ws s ch).2.tc_cursor_x = 0 := by
  obtain ⟨hne, ⟨hy0, hy1⟩, hx0, hx1⟩ := hv
  obtain ⟨A, B, L, hls, hy, hA, hB, hL⟩ := row_split s.tc_lines s.tc_cursor_y hy0 hy1
  have hcl : lines_clean (A ++ L :: B) := hls ▸ hclean
  rw [lines_clean_append, lines_clean_cons] at hcl
  obtain ⟨hcA, hcL, hcB⟩ := hcl
  rw [handle_key_enter ws s ch hid hctrl]
  unfold key_enter
  rw [if_neg (by simp [hp])]
  simp only []
  have hnew : insert_line (set_line s.tc_lines s.tc_cursor_y
        (erase (line_at s.tc_lines s.tc_cursor_y)
          (column_to_byte_index (line_at s.tc_lines s.tc_cursor_y) (to_column s.tc_cursor_x))))
        (s.tc_cursor_y + 1)
        (subline (line_at s.tc_lines s.tc_cursor_y)
          (column_to_byte_index (line_at s.tc_lines s.tc_cursor_y) (to_column s.tc_cursor_x)))
      = A ++ L.take (column_to_byte_index L (to_column s.tc_cursor_x))
          :: L.drop (column_to_byte_index L (to_column s.tc_cursor_x)) :: B := by
    rw [← hL, hls, hy, set_line_row, insert_line_row_succ]; rfl
  rw [hnew]
  generalize hs1 : ({ s with
      tc_cursor_x := 0
      tc_cursor_y := s.tc_cursor_y + 1
      tc_lines := A ++ L.take (column_to_byte_index L (to_column s.tc_cursor_x))
          :: L.drop (column_to_byte_index L (to_column s.tc_cursor_x)) :: B } :
        textinput_curses) = s1
  have h1l : s1.tc_lines = A ++ L.take (column_to_byte_index L (to_column s.tc_cursor_x))
          :: L.drop (column_to_byte_index L (to_column s.tc_cursor_x)) :: B := by rw [← hs1]
  have h1x : s1.tc_cursor_x = 0 := by rw [← hs1]
  have h1y : s1.tc_cursor_y = s.tc_cursor_y + 1 := by rw [← hs1]
  have hc1 : lines_clean s1.tc_lines := by
    rw [h1l, lines_clean_append, lines_clean_cons, lines_clean_cons]
    exact ⟨hcA, not_mem_take _ _ hcL, not_mem_drop _ _ hcL, hcB⟩
  have hv1 : s1.valid := by
    refine ⟨by rw [h1l]; simp, ⟨by omega, ?_⟩, by omega, by rw [h1x]; omega⟩
    rw [h1l, h1y, hy]; simp
  obtain ⟨hl, -, -, -, -, -⟩ := update_lines_fields s1 hc1
  obtain ⟨hx, hy2⟩ := update_lines_cursor s1 hv1 hc1
  have hcur : s.cursor_line = L := hL.symm
  have hoff : s.cursor_byte_index = column_to_byte_index L (to_column s.tc_cursor_x) := by
    unfold cursor_byte_index; rw [hcur]
  show s1.update_lines.tc_lines = _ ∧ s1.update_lines.tc_lines.length = _
    ∧ (line_at s1.update_lines.tc_lines _ = _ ∧ line_at s1.update_lines.tc_lines _ = _
      ∧ _ = line_at s1.update_lines.tc_lines _ ++ line_at s1.update_lines.tc_lines _)
    ∧ s1.update_lines.tc_cursor_y = _ ∧ s1.update_lines.tc_cursor_x = _
  rw [hl, h1l, hx, hy2, h1x, h1y, hcur, hoff, ← hA, ← hB]
  generalize column_to_byte_index L (to_column s.tc_cursor_x) = off
  have e1 : line_at (A ++ L.take off :: L.drop off :: B) s.tc_cursor_y = L.take off := by
    rw [hy, line_at_row]
  have e2 : line_at (A ++ L.take off :: L.drop off :: B) (s.tc_cursor_y + 1) = L.drop off := by
    rw [hy, line_at_row_succ]
  refine ⟨rfl, ?_, ⟨e1, e2, ?_⟩, rfl, rfl⟩
  · rw [hls]; simp; omega
  · rw [e1, e2, List.take_append_drop]

/-- C4 at the state of the spec: Enter at (0, 3) on "hello" gives "hel", "lo" and the cursor
at (1, 0). -/
theorem C4_enter_splits_line_witness :
    (sample [hello] 3 0).valid
      ∧ lines_clean (sample [hello] 3 0).tc_lines
      ∧ (handle_key no_words (sample [hello] 3 0) (plain_key NCKEY_ENTER)).2.tc_lines
          = [[104, 101, 108], [108, 111]]
      ∧ (handle_key no_words (sample [hello] 3 0) (plain_key NCKEY_ENTER)).2.tc_cursor_y = 1
      ∧ (handle_key no_words (sample [hello] 3 0) (plain_key NCKEY_ENTER)).2.tc_cursor_x = 0
      ∧ (handle_key no_words (sample [hello] 3 0) (plain_key NCKEY_ENTER)).2.tc_lines.length
          = (sample [hello] 3 0).tc_lines.length + 1 :=
  ⟨by decide, by decide, by decide, by decide, by decide,
    (C4_enter_splits_line no_words (sample [hello] 3 0) (plain_key NCKEY_ENTER) (by decide)
      (by decide) rfl rfl rfl).2.1⟩

/-- A valid row that is not the first splits the document around the row and the one before
it. -/
theorem row_split_prev (ls : List std_string) (y : Int) (h0 : 0 < y)
    (h1 : y < (ls.length : Int)) :
    ∃ (A B : List std_string) (P L : std_string),
      ls = A ++ P :: L :: B ∧ y = (A.length : Int) + 1 ∧ A = ls.take (y.toNat - 1)
        ∧ B = ls.drop (y.toNat + 1) ∧ P = line_at ls (y - 1) ∧ L = line_at ls y := by
  obtain ⟨A, B1, P, hls, hy, hA, hB1, hP⟩ := row_split ls (y - 1) (by omega) (by omega)
  have hlen : A.length + 1 < ls.length := by omega
  cases B1 with
  | nil => rw [hls] at hlen; simp at hlen
  | cons L B =>
    refine ⟨A, B, P, L, hls, by omega, ?_, ?_, hP, ?_⟩
    · rw [hA]; congr 1; omega
    · have h2 : y.toNat + 1 = (A ++ [P]).length + 1 := by simp; omega
      rw [h2, hls]
      have := drop_row (A ++ [P]) B L
      simpa using this.symm
    · have h2 : y = (A.length : Int) + 1 := by omega
      rw [h2, hls, line_at_row_succ]

theorem column_width_append_le (a b : std_string) :
    column_width a ≤ column_width (a ++ b) := width_from_append_le 0 a b

/-! ## C5 -/

/-- C5: in a valid state with the cursor at (r, 0) and r > 0, Backspace replaces line r-1 by
old line r-1 followed by old line r and removes row r (the line count decreases by exactly
one, every other line is unchanged); the cursor ends at row r-1, at the column width old
line r-1 had before the merge.  Backspace at (0, 0) changes nothing. -/
theorem C5_backspace_joins_lines (ws : word_search) (s : textinput_curses) (ch : ncinput)
    (hv : s.valid) (hid : ch.id = NCKEY_BACKSPACE) (hctrl : ch.ctrl = false)
    (hx : s.tc_cursor_x = 0) :
    (0 < s.tc_cursor_y →
      (handle_key ws s ch).2.tc_lines
          = s.tc_lines.take (s.tc_cursor_y.toNat - 1)
              ++ (line_at s.tc_lines (s.tc_cursor_y - 1) ++ line_at s.tc_lines s.tc_cursor_y)
                :: s.tc_lines.drop (s.tc_cursor_y.toNat + 1)
        ∧ (handle_key ws s ch).2.tc_lines.length + 1 = s.tc_lines.length
        ∧ line_at (handle_key ws s ch).2.tc_lines (s.tc_cursor_y - 1)
            = line_at s.tc_lines (s.tc_cursor_y - 1) ++ line_at s.tc_lines s.tc_cursor_y
        ∧ (handle_key ws s ch).2.tc_cursor_y = s.tc_cursor_y - 1
        ∧ (handle_key ws s ch).2.tc_cursor_x
            = (column_width (line_at s.tc_lines (s.tc_cursor_y - 1)) : Int))
      ∧ (s.tc_cursor_y = 0 → handle_key ws s ch = (true, s)) := by
  obtain ⟨hne, ⟨hy0, hy1⟩, hx0, hx1⟩ := hv
  rw [handle_key_backspace ws s ch hid hctrl]
  unfold key_backspace
  rw [if_neg (by omega)]
  constructor
  · intro hpos
    rw [if_pos hpos]
    simp only []
    obtain ⟨A, B, P, L, hls, hy, hA, hB, hP, hL⟩ := row_split_prev s.tc_lines s.tc_cursor_y hpos hy1
    have hnew : erase_line (set_line s.tc_lines (s.tc_cursor_y - 1)
          (line_at s.tc_lines (s.tc_cursor_y - 1) ++ line_at s.tc_lines s.tc_cursor_y))
          s.tc_cursor_y = A ++ (P ++ L) :: B := by
      rw [← hP, ← hL, hls, hy, add_sub_cancel_right, set_line_row, erase_line_row_succ]
    rw [hnew, ← hP, ← hL, ← hA, ← hB]
    generalize hs1 : ({ s with
        tc_lines := A ++ (P ++ L) :: B
        tc_cursor_x := (column_width P : Int)
        tc_cursor_y := s.tc_cursor_y - 1 } : textinput_curses) = s1
    have h1l : s1.tc_lines = A ++ (P ++ L) :: B := by rw [← hs1]
    have h1x : s1.tc_cursor_x = (column_width P : Int) := by rw [← hs1]
    have h1y : s1.tc_cursor_y = s.tc_cursor_y - 1 := by rw [← hs1]
    have hline : line_at (A ++ (P ++ L) :: B) (s.tc_cursor_y - 1) = P ++ L := by
      rw [hy, add_sub_cancel_right, line_at_row]
    have hv1 : s1.valid := by
      refine ⟨by rw [h1l]; simp, ⟨by omega, ?_⟩, by rw [h1x]; omega, ?_⟩
      · rw [h1l, h1y, hy]; simp
      · rw [h1x, h1l, h1y, hline]
        exact_mod_cast column_width_append_le P L
    obtain ⟨hy2, hx2⟩ := ensure_cursor_of_valid s1 hv1
    show s1.ensure_cursor_visible.tc_lines = _ ∧ s1.ensure_cursor_visible.tc_lines.length + 1 = _
      ∧ line_at s1.ensure_cursor_visible.tc_lines _ = _
      ∧ s1.ensure_cursor_visible.tc_cursor_y = _ ∧ s1.ensure_cursor_visible.tc_cursor_x = _
    rw [ensure_lines, h1l, hy2, hx2, h1x, h1y]
    refine ⟨rfl, ?_, hline, rfl, rfl⟩
    rw [hls]; simp; omega
  · intro hzero
    rw [if_neg (by omega)]

/-- C5 at the state of the spec: Backspace at (2, 0) where line 1 has width 5 and line 2 is
"abc"; and Backspace at the origin. -/
theorem C5_backspace_joins_lines_witness :
    (sample [abc, hello, abc] 0 2).valid
      ∧ (handle_key no_words (sample [abc, hello, abc] 0 2)
          (plain_key NCKEY_BACKSPACE)).2.tc_lines = [abc, hello ++ abc]
      ∧ (handle_key no_words (sample [abc, hello, abc] 0 2)
          (plain_key NCKEY_BACKSPACE)).2.tc_cursor_y = 1
      ∧ (handle_key no_words (sample [abc, hello, abc] 0 2)
          (plain_key NCKEY_BACKSPACE)).2.tc_cursor_x = 5
      ∧ (handle_key no_words (sample [abc, hello, abc] 0 2)
          (plain_key NCKEY_BACKSPACE)).2.tc_lines.length + 1
          = (sample [abc, hello, abc] 0 2).tc_lines.length
      ∧ handle_key no_words (sample [hello] 0 0) (plain_key NCKEY_BACKSPACE)
          = (true, sample [hello] 0 0) :=
  ⟨by decide, by decide, by decide, by decide,
    ((C5_backspace_joins_lines no_words (sample [abc, hello, abc] 0 2)
      (plain_key NCKEY_BACKSPACE) (by decide) rfl rfl rfl).1 (by decide)).2.1,
    by decide⟩

/-! ## Columns at the cursor -/

theorem column_width_take (L : std_string) (c : Nat) :
    column_width (L.take (column_to_byte_index L c)) = min c (column_width L) :=
  width_from_take 0 L c

theorem column_width_drop (L : std_string) (c : Nat) :
    column_width L
      = min c (column_width L) + column_width (L.drop (column_to_byte_index L c)) :=
  width_from_drop 0 L c

theorem column_to_byte_index_full (L : std_string) (c : Nat) (h : column_width L ≤ c) :
    column_to_byte_index L c = L.length :=
  byte_index_from_full 0 L c h

theorem column_to_byte_index_le (L : std_string) (c : Nat) :
    column_to_byte_index L c ≤ L.length :=
  byte_index_from_le 0 L c

/-- The state after Ctrl-K. -/
theorem ctrl_k_fields (s : textinput_curses) (hv : s.valid) (hclean : lines_clean s.tc_lines) :
    s.ctrl_k.2.tc_clipboard = s.cursor_line.drop s.cursor_byte_index
      ∧ s.ctrl_k.2.tc_lines
          = s.tc_lines.take s.tc_cursor_y.toNat
              ++ s.cursor_line.take s.cursor_byte_index
                :: s.tc_lines.drop (s.tc_cursor_y.toNat + 1)
      ∧ s.ctrl_k.2.tc_cursor_y = s.tc_cursor_y
      ∧ s.ctrl_k.2.tc_cursor_x = s.tc_cursor_x := by
  obtain ⟨hne, ⟨hy0, hy1⟩, hx0, hx1⟩ := hv
  obtain ⟨A, B, L, hls, hy, hA, hB, hL⟩ := row_split s.tc_lines s.tc_cursor_y hy0 hy1
  have hcl : lines_clean (A ++ L :: B) := hls ▸ hclean
  rw [lines_clean_append, lines_clean_cons] at hcl
  obtain ⟨hcA, hcL, hcB⟩ := hcl
  unfold ctrl_k
  simp only []
  have hcur : s.cursor_line = L := hL.symm
  have hoff : s.cursor_byte_index = column_to_byte_index L (to_column s.tc_cursor_x) := by
    unfold cursor_byte_index; rw [hcur]
  have hnew : set_line s.tc_lines s.tc_cursor_y
        (erase (line_at s.tc_lines s.tc_cursor_y)
          (column_to_byte_index (line_at s.tc_lines s.tc_cursor_y) (to_column s.tc_cursor_x)))
      = A ++ L.take (column_to_byte_index L (to_column s.tc_cursor_x)) :: B := by
    rw [← hL, hls, hy, set_line_row]; rfl
  rw [hnew, ← hL, hcur, hoff, ← hA, ← hB]
  generalize hs1 : ({ s with
      tc_clipboard := subline L (column_to_byte_index L (to_column s.tc_cursor_x))
      tc_lines := A ++ L.take (column_to_byte_index L (to_column s.tc_cursor_x)) :: B } :
        textinput_curses) = s1
  have h1l : s1.tc_lines = A ++ L.take (column_to_byte_index L (to_column s.tc_cursor_x)) :: B := by
    rw [← hs1]
  have h1x : s1.tc_cursor_x = s.tc_cursor_x := by rw [← hs1]
  have h1y : s1.tc_cursor_y = s.tc_cursor_y := by rw [← hs1]
  have h1c : s1.tc_clipboard = L.drop (column_to_byte_index L (to_column s.tc_cursor_x)) := by
    rw [← hs1]; rfl
  have hc1 : lines_clean s1.tc_lines := by
    rw [h1l, lines_clean_append, lines_clean_cons]
    exact ⟨hcA, not_mem_take _ _ hcL, hcB⟩
  have hv1 : s1.valid := by
    refine ⟨by rw [h1l]; simp, ⟨by omega, ?_⟩, by omega, ?_⟩
    · rw [h1l, h1y, hy]; simp
    · rw [h1l, h1y, h1x, hy, line_at_row, column_width_take, to_column_of_nonneg _ hx0]
      rw [← hL] at hx1
      omega
  obtain ⟨hl, -, -, hclip, -, -⟩ := update_lines_fields s1 hc1
  obtain ⟨hx, hy2⟩ := update_lines_cursor s1 hv1 hc1
  show s1.update_lines.tc_clipboard = _ ∧ s1.update_lines.tc_lines = _
    ∧ s1.update_lines.tc_cursor_y = _ ∧ s1.update_lines.tc_cursor_x = _
  rw [hl, hclip, hx, hy2, h1l, h1x, h1y, h1c]
  exact ⟨rfl, rfl, rfl, rfl⟩


/-- Ctrl-Y in the state Ctrl-K leaves: the line is `L` cut at the cursor, and the clipboard
holds the rest of `L`. -/
theorem ctrl_y_after_kill (t : textinput_curses) (A B : List std_string) (L : std_string)
    (c : Nat) (hl : t.tc_lines = A ++ L.take (column_to_byte_index L c) :: B)
    (hy : t.tc_cursor_y = (A.length : Int)) (hx : t.tc_cursor_x = (c : Int))
    (hc : c ≤ column_width L) (hclip : t.tc_clipboard = L.drop (column_to_byte_index L c))
    (hcA : lines_clean A) (hcL : NL ∉ L) (hcB : lines_clean B) :
    t.ctrl_y.2.tc_lines = A ++ L :: B
      ∧ t.ctrl_y.2.tc_cursor_y = (A.length : Int)
      ∧ t.ctrl_y.2.tc_cursor_x = (c : Int) + (column_width t.tc_clipboard : Int)
      ∧ t.ctrl_y.2.tc_clipboard = t.tc_clipboard := by
  have hwpre : column_width (L.take (column_to_byte_index L c)) = c := by
    rw [column_width_take]; omega
  have hwsum := column_width_drop L c
  rw [Nat.min_eq_left hc] at hwsum
  unfold ctrl_y
  by_cases hempty : t.tc_clipboard = []
  · rw [if_neg (by simp [hempty])]
    have hd : L.drop (column_to_byte_index L c) = [] := by rw [← hclip, hempty]
    have htake : L.take (column_to_byte_index L c) = L := by
      have := List.take_append_drop (column_to_byte_index L c) L
      rw [hd, List.append_nil] at this
      exact this
    refine ⟨by rw [hl, htake], hy, ?_, rfl⟩
    show t.tc_cursor_x = _
    rw [hx, hempty]; simp [column_width, width_from]
  · rw [if_pos hempty]
    simp only []
    have hline : line_at t.tc_lines t.tc_cursor_y = L.take (column_to_byte_index L c) := by
      rw [hl, hy, line_at_row]
    have hidx : column_to_byte_index (L.take (column_to_byte_index L c)) (to_column t.tc_cursor_x)
        = (L.take (column_to_byte_index L c)).length := by
      apply column_to_byte_index_full
      rw [hwpre, hx, to_column_of_nonneg _ (Int.natCast_nonneg _), Int.toNat_ofNat]
    have hnew : set_line t.tc_lines t.tc_cursor_y
          (insert (line_at t.tc_lines t.tc_cursor_y)
            (column_to_byte_index (line_at t.tc_lines t.tc_cursor_y) (to_column t.tc_cursor_x))
            t.tc_clipboard) = A ++ L :: B := by
      rw [hline, hidx, hl, hy, set_line_row, hclip]
      unfold insert
      rw [List.take_length, List.drop_length, List.append_nil, List.take_append_drop]
    rw [hnew]
    generalize hs1 : ({ t with
        tc_lines := A ++ L :: B
        tc_cursor_x := t.tc_cursor_x + (column_width t.tc_clipboard : Int) } :
          textinput_curses) = s1
    have h1l : s1.tc_lines = A ++ L :: B := by rw [← hs1]
    have h1x : s1.tc_cursor_x = t.tc_cursor_x + (column_width t.tc_clipboard : Int) := by
      rw [← hs1]
    have h1y : s1.tc_cursor_y = t.tc_cursor_y := by rw [← hs1]
    have h1c : s1.tc_clipboard = t.tc_clipboard := by rw [← hs1]
    have hc1 : lines_clean s1.tc_lines := by
      rw [h1l, lines_clean_append, lines_clean_cons]
      exact ⟨hcA, hcL, hcB⟩
    have hv1 : s1.valid := by
      refine ⟨by rw [h1l]; simp, ⟨by omega, ?_⟩, by omega, ?_⟩
      · rw [h1l, h1y, hy]; simp
      · rw [h1l, h1y, h1x, hy, line_at_row, hx, hclip]
        omega
    obtain ⟨hl2, -, -, hclip2, -, -⟩ := update_lines_fields s1 hc1
    obtain ⟨hx2, hy2⟩ := update_lines_cursor s1 hv1 hc1
    show s1.update_lines.tc_lines = _ ∧ s1.update_lines.tc_cursor_y = _
      ∧ s1.update_lines.tc_cursor_x = _ ∧ s1.update_lines.tc_clipboard = _
    rw [hl2, hclip2, hx2, hy2, h1l, h1x, h1y, h1c, hx, hy]
    exact ⟨rfl, rfl, rfl, rfl⟩

/-! ## C6 -/

/-- C6: in a valid state with the cursor at (r, c), Ctrl-K sets the clipboard to the text of
line r from the byte offset of column c to the end, truncates line r to the text before that
offset (every other line unchanged) and leaves the cursor at (r, c); a Ctrl-Y issued
immediately afterwards restores the document, line r included, and leaves the cursor at
column c + column_width(killed text) of row r.  The lines of the document hold no line
terminator, as in every document the widget builds. -/
theorem C6_kill_then_yank (ws : word_search) (s : textinput_curses) (chk chy : ncinput)
    (hv : s.valid) (hclean : lines_clean s.tc_lines)
    (hk : chk.id = 107 ∨ chk.id = 75) (hkc : chk.ctrl = true)
    (hyk : chy.id = 121 ∨ chy.id = 89) (hyc : chy.ctrl = true) :
    ((handle_key ws s chk).2.tc_clipboard = s.cursor_line.drop s.cursor_byte_index
      ∧ (handle_key ws s chk).2.tc_lines
          = s.tc_lines.take s.tc_cursor_y.toNat
              ++ s.cursor_line.take s.cursor_byte_index
                :: s.tc_lines.drop (s.tc_cursor_y.toNat + 1)
      ∧ (handle_key ws s chk).2.tc_cursor_y = s.tc_cursor_y
      ∧ (handle_key ws s chk).2.tc_cursor_x = s.tc_cursor_x)
    ∧ ((handle_key ws (handle_key ws s chk).2 chy).2.tc_lines = s.tc_lines
      ∧ line_at (handle_key ws (handle_key ws s chk).2 chy).2.tc_lines s.tc_cursor_y
          = s.cursor_line
      ∧ (handle_key ws (handle_key ws s chk).2 chy).2.tc_cursor_y = s.tc_cursor_y
      ∧ (handle_key ws (handle_key ws s chk).2 chy).2.tc_cursor_x
          = s.tc_cursor_x + (column_width (s.cursor_line.drop s.cursor_byte_index) : Int)) := by
  have hkf := ctrl_k_fields s hv hclean
  obtain ⟨hne, ⟨hy0, hy1⟩, hx0, hx1⟩ := hv
  obtain ⟨A, B, L, hls, hy, hA, hB, hL⟩ := row_split s.tc_lines s.tc_cursor_y hy0 hy1
  have hcl : lines_clean (A ++ L :: B) := hls ▸ hclean
  rw [lines_clean_append, lines_clean_cons] at hcl
  obtain ⟨hcA, hcL, hcB⟩ := hcl
  obtain ⟨c, hc⟩ := Int.eq_ofNat_of_zero_le hx0
  have hcur : s.cursor_line = L := hL.symm
  have hoff : s.cursor_byte_index = column_to_byte_index L c := by
    unfold cursor_byte_index
    rw [hcur, hc, to_column_of_nonneg _ (Int.natCast_nonneg _), Int.toNat_ofNat]
  have hcw : c ≤ column_width L := by
    rw [← hL, hc] at hx1; exact_mod_cast hx1
  rw [handle_key_ctrl_k ws s chk hk hkc, handle_key_ctrl_y ws _ chy hyk hyc]
  refine ⟨hkf, ?_⟩
  obtain ⟨k1, k2, k3, k4⟩ := hkf
  rw [hcur, hoff, ← hA, ← hB] at k2
  rw [hcur, hoff] at k1
  have := ctrl_y_after_kill s.ctrl_k.2 A B L c k2 (k3.trans hy) (k4.trans hc) hcw k1
    hcA hcL hcB
  obtain ⟨y1, y2, y3, -⟩ := this
  rw [y1, y2, y3, k1, hcur, hoff, hls, hy, hc, line_at_row]
  exact ⟨rfl, rfl, rfl, rfl⟩

/-- C6 at the state of the spec: Ctrl-K at (0, 2) on "hello" gives the clipboard "llo", the
line "he" and column 2; Ctrl-Y then gives "hello" and column 5. -/
theorem C6_kill_then_yank_witness :
    (sample [hello] 2 0).valid
      ∧ lines_clean (sample [hello] 2 0).tc_lines
      ∧ (handle_key no_words (sample [hello] 2 0) (ctrl_key 107)).2.tc_clipboard
          = [108, 108, 111]
      ∧ (handle_key no_words (sample [hello] 2 0) (ctrl_key 107)).2.tc_lines = [[104, 101]]
      ∧ (handle_key no_words (sample [hello] 2 0) (ctrl_key 107)).2.tc_cursor_x = 2
      ∧ (handle_key no_words (handle_key no_words (sample [hello] 2 0) (ctrl_key 107)).2
          (ctrl_key 121)).2.tc_cursor_x = 5
      ∧ (handle_key no_words (handle_key no_words (sample [hello] 2 0) (ctrl_key 107)).2
          (ctrl_key 121)).2.tc_lines = (sample [hello] 2 0).tc_lines :=
  ⟨by decide, by decide, by decide, by decide, by decide, by decide,
    (C6_kill_then_yank no_words (sample [hello] 2 0) (ctrl_key 107) (ctrl_key 121) (by decide)
      (by decide) (Or.inl rfl) rfl (Or.inl rfl) rfl).2.1⟩

theorem size_t_sub_of_le (i j : Nat) (h1 : i ≤ j) (h2 : j ≤ i + 4) :
    size_t_sub j i = j - i := by
  unfold size_t_sub
  omega

theorem column_to_byte_index_succ (L : std_string) (c : Nat) :
    column_to_byte_index L c ≤ column_to_byte_index L (c + 1)
      ∧ column_to_byte_index L (c + 1) ≤ column_to_byte_index L c + 4 :=
  byte_index_from_succ 0 L c

/-- A valid row that is not the last splits the document around the row and the next one. -/
theorem row_split_next (ls : List std_string) (y : Int) (h0 : 0 ≤ y)
    (h1 : y + 1 < (ls.length : Int)) :
    ∃ (A B : List std_string) (L M : std_string),
      ls = A ++ L :: M :: B ∧ y = (A.length : Int) ∧ A = ls.take y.toNat
        ∧ B = ls.drop (y.toNat + 2) ∧ L = line_at ls y ∧ M = line_at ls (y + 1) := by
  obtain ⟨A, B, L, M, hls, hy, hA, hB, hL, hM⟩ :=
    row_split_prev ls (y + 1) (by omega) h1
  refine ⟨A, B, L, M, hls, by omega, ?_, ?_, ?_, hM⟩
  · rw [hA]; congr 1; omega
  · rw [hB]; congr 1; omega
  · rw [hL]; congr 1; omega

/-! ## C7 -/

/-- C7: in a valid state with the cursor at (r, c), forward-delete never moves the cursor.
If c is the column width of line r and row r+1 exists, line r becomes old line r followed by
old line r+1 and row r+1 is removed (the line count decreases by one); if c is the width and
r is the last row, the state is unchanged; otherwise exactly the bytes between the byte
offsets of column c and column c+1 are removed from line r and the line count is unchanged.
The lines of the document hold no line terminator, as in every document the widget builds. -/
theorem C7_forward_delete (ws : word_search) (s : textinput_curses) (ch : ncinput)
    (hv : s.valid) (hclean : lines_clean s.tc_lines)
    (hid : ch.id = NCKEY_DEL) (hctrl : ch.ctrl = false) :
    ((handle_key ws s ch).2.tc_cursor_y = s.tc_cursor_y
      ∧ (handle_key ws s ch).2.tc_cursor_x = s.tc_cursor_x)
    ∧ (s.tc_cursor_x = (column_width s.cursor_line : Int) →
        s.tc_cursor_y + 1 < (s.tc_lines.length : Int) →
        (handle_key ws s ch).2.tc_lines
            = s.tc_lines.take s.tc_cursor_y.toNat
                ++ (s.cursor_line ++ line_at s.tc_lines (s.tc_cursor_y + 1))
                  :: s.tc_lines.drop (s.tc_cursor_y.toNat + 2)
          ∧ (handle_key ws s ch).2.tc_lines.length + 1 = s.tc_lines.length)
    ∧ (s.tc_cursor_x = (column_width s.cursor_line : Int) →
        s.tc_cursor_y + 1 = (s.tc_lines.length : Int) →
        (handle_key ws s ch).2 = s)
    ∧ (s.tc_cursor_x ≠ (column_width s.cursor_line : Int) →
        (handle_key ws s ch).2.tc_lines
            = s.tc_lines.take s.tc_cursor_y.toNat
                ++ (s.cursor_line.take s.cursor_byte_index
                    ++ s.cursor_line.drop
                        (column_to_byte_index s.cursor_line (to_column (s.tc_cursor_x + 1))))
                  :: s.tc_lines.drop (s.tc_cursor_y.toNat + 1)
          ∧ s.cursor_byte_index
              ≤ column_to_byte_index s.cursor_line (to_column (s.tc_cursor_x + 1))
          ∧ (handle_key ws s ch).2.tc_lines.length = s.tc_lines.length) := by
  have hv0 := hv
  obtain ⟨hne, ⟨hy0, hy1⟩, hx0, hx1⟩ := hv
  rw [handle_key_del ws s ch hid hctrl]
  have hxs : to_size_t s.tc_cursor_x = s.tc_cursor_x := to_size_t_of_nonneg _ hx0
  have hys : to_size_t (s.tc_cursor_y + 1) = s.tc_cursor_y + 1 :=
    to_size_t_of_nonneg _ (by omega)
  by_cases hend : s.tc_cursor_x = (column_width s.cursor_line : Int)
  · by_cases hlast : s.tc_cursor_y + 1 < (s.tc_lines.length : Int)
    · -- merge with the next row
      have hres : s.key_del = (false, update_lines { s with
          tc_lines := erase_line (set_line s.tc_lines s.tc_cursor_y
            (line_at s.tc_lines s.tc_cursor_y ++ line_at s.tc_lines (s.tc_cursor_y + 1)))
            (s.tc_cursor_y + 1) }) := by
        unfold key_del
        simp only []
        rw [if_pos (by rw [hxs]; exact hend), if_pos (by rw [hys]; exact hlast)]
      rw [hres]
      obtain ⟨A, B, L, M, hls, hy, hA, hB, hL, hM⟩ :=
        row_split_next s.tc_lines s.tc_cursor_y hy0 hlast
      have hcl : lines_clean (A ++ L :: M :: B) := hls ▸ hclean
      rw [lines_clean_append, lines_clean_cons, lines_clean_cons] at hcl
      obtain ⟨hcA, hcL, hcM, hcB⟩ := hcl
      have hnew : erase_line (set_line s.tc_lines s.tc_cursor_y
            (line_at s.tc_lines s.tc_cursor_y ++ line_at s.tc_lines (s.tc_cursor_y + 1)))
            (s.tc_cursor_y + 1) = A ++ (L ++ M) :: B := by
        rw [← hL, ← hM, hls, hy, set_line_row, erase_line_row_succ]
      rw [hnew]
      generalize hs1 : ({ s with tc_lines := A ++ (L ++ M) :: B } : textinput_curses) = s1
      have h1l : s1.tc_lines = A ++ (L ++ M) :: B := by rw [← hs1]
      have h1x : s1.tc_cursor_x = s.tc_cursor_x := by rw [← hs1]
      have h1y : s1.tc_cursor_y = s.tc_cursor_y := by rw [← hs1]
      have hc1 : lines_clean s1.tc_lines := by
        rw [h1l, lines_clean_append, lines_clean_cons]
        refine ⟨hcA, ?_, hcB⟩
        simp only [List.mem_append, not_or]
        exact ⟨hcL, hcM⟩
      have hv1 : s1.valid := by
        refine ⟨by rw [h1l]; simp, ⟨by omega, ?_⟩, by omega, ?_⟩
        · rw [h1l, h1y, hy]; simp
        · rw [h1l, h1y, h1x, hy, line_at_row]
          have := column_width_append_le L M
          rw [← hL] at hx1
          omega
      obtain ⟨hl, -, -, -, -, -⟩ := update_lines_fields s1 hc1
      obtain ⟨hx, hy2⟩ := update_lines_cursor s1 hv1 hc1
      have hcur : s.cursor_line = L := hL.symm
      refine ⟨⟨hy2.trans h1y, hx.trans h1x⟩, ?_, ?_, ?_⟩
      · intro _ _
        show s1.update_lines.tc_lines = _ ∧ s1.update_lines.tc_lines.length + 1 = _
        rw [hl, h1l, hcur, ← hM, ← hA, ← hB]
        refine ⟨rfl, ?_⟩
        rw [hls]; simp; omega
      · intro _ h; omega
      · intro h; exact absurd hend h
    · -- the end of the last row
      have hres : s.key_del = (false, s) := by
        unfold key_del
        simp only []
        rw [if_pos (by rw [hxs]; exact hend), if_neg (by rw [hys]; exact hlast)]
      rw [hres]
      refine ⟨⟨rfl, rfl⟩, ?_, ?_, ?_⟩
      · intro _ h; exact absurd h hlast
      · intro _ _; rfl
      · intro h; exact absurd hend h
  · -- inside the line
    have hres : s.key_del = (false, update_lines { s with
        tc_lines := set_line s.tc_lines s.tc_cursor_y
          (erase_len (line_at s.tc_lines s.tc_cursor_y)
            (column_to_byte_index (line_at s.tc_lines s.tc_cursor_y) (to_column s.tc_cursor_x))
            (size_t_sub
              (column_to_byte_index (line_at s.tc_lines s.tc_cursor_y)
                (to_column (s.tc_cursor_x + 1)))
              (column_to_byte_index (line_at s.tc_lines s.tc_cursor_y)
                (to_column s.tc_cursor_x)))) }) := by
      unfold key_del
      simp only []
      rw [if_neg (by rw [hxs]; exact hend)]
    rw [hres]
    obtain ⟨A, B, L, hls, hy, hA, hB, hL⟩ := row_split s.tc_lines s.tc_cursor_y hy0 hy1
    have hcl : lines_clean (A ++ L :: B) := hls ▸ hclean
    rw [lines_clean_append, lines_clean_cons] at hcl
    obtain ⟨hcA, hcL, hcB⟩ := hcl
    obtain ⟨c, hc⟩ := Int.eq_ofNat_of_zero_le hx0
    have hcur : s.cursor_line = L := hL.symm
    have hc0 : to_column s.tc_cursor_x = c := by
      rw [hc, to_column_of_nonneg _ (Int.natCast_nonneg _), Int.toNat_ofNat]
    have hc1 : to_column (s.tc_cursor_x + 1) = c + 1 := by
      rw [hc, to_column_of_nonneg _ (by omega), toNat_succ]
    have hoff : s.cursor_byte_index = column_to_byte_index L c := by
      unfold cursor_byte_index; rw [hcur, hc0]
    obtain ⟨hij, hji⟩ := column_to_byte_index_succ L c
    have hnew : set_line s.tc_lines s.tc_cursor_y
          (erase_len (line_at s.tc_lines s.tc_cursor_y)
            (column_to_byte_index (line_at s.tc_lines s.tc_cursor_y) (to_column s.tc_cursor_x))
            (size_t_sub
              (column_to_byte_index (line_at s.tc_lines s.tc_cursor_y)
                (to_column (s.tc_cursor_x + 1)))
              (column_to_byte_index (line_at s.tc_lines s.tc_cursor_y)
                (to_column s.tc_cursor_x))))
        = A ++ (L.take (column_to_byte_index L c) ++ L.drop (column_to_byte_index L (c + 1)))
            :: B := by
      rw [← hL, hc0, hc1, size_t_sub_of_le _ _ hij hji, hls, hy, set_line_row]
      unfold erase_len
      rw [Nat.add_sub_cancel' hij]
    rw [hnew]
    generalize hs1 : ({ s with
        tc_lines := A ++ (L.take (column_to_byte_index L c)
          ++ L.drop (column_to_byte_index L (c + 1))) :: B } : textinput_curses) = s1
    have h1l : s1.tc_lines = A ++ (L.take (column_to_byte_index L c)
          ++ L.drop (column_to_byte_index L (c + 1))) :: B := by rw [← hs1]
    have h1x : s1.tc_cursor_x = s.tc_cursor_x := by rw [← hs1]
    have h1y : s1.tc_cursor_y = s.tc_cursor_y := by rw [← hs1]
    have hcl1 : lines_clean s1.tc_lines := by
      rw [h1l, lines_clean_append, lines_clean_cons]
      refine ⟨hcA, ?_, hcB⟩
      simp only [List.mem_append, not_or]
      exact ⟨not_mem_take _ _ hcL, not_mem_drop _ _ hcL⟩
    have hv1 : s1.valid := by
      refine ⟨by rw [h1l]; simp, ⟨by omega, ?_⟩, by omega, ?_⟩
      · rw [h1l, h1y, hy]; simp
      · rw [h1l, h1y, h1x, hy, line_at_row]
        have h1 := column_width_append_le (L.take (column_to_byte_index L c))
          (L.drop (column_to_byte_index L (c + 1)))
        rw [column_width_take] at h1
        rw [← hL] at hx1
        omega
    obtain ⟨hl, -, -, -, -, -⟩ := update_lines_fields s1 hcl1
    obtain ⟨hx, hy2⟩ := update_lines_cursor s1 hv1 hcl1
    refine ⟨⟨hy2.trans h1y, hx.trans h1x⟩, ?_, ?_, ?_⟩
    · intro h; exact absurd h hend
    · intro h; exact absurd h hend
    · intro _
      show s1.update_lines.tc_lines = _ ∧ _ ∧ s1.update_lines.tc_lines.length = _
      rw [hl, h1l, hcur, hoff, hc1, ← hA, ← hB]
      refine ⟨rfl, hij, ?_⟩
      rw [hls]; simp

/-- C7 at concrete states: forward-delete at the end of "hello" followed by "abc", inside
"hello", and at the end of the last line. -/
theorem C7_forward_delete_witness :
    (sample [hello, abc] 5 0).valid
      ∧ lines_clean (sample [hello, abc] 5 0).tc_lines
      ∧ (handle_key no_words (sample [hello, abc] 5 0) (plain_key NCKEY_DEL)).2.tc_lines
          = [hello ++ abc]
      ∧ (handle_key no_words (sample [hello] 1 0) (plain_key NCKEY_DEL)).2.tc_lines
          = [[104, 108, 108, 111]]
      ∧ (handle_key no_words (sample [hello] 5 0) (plain_key NCKEY_DEL)).2 = sample [hello] 5 0
      ∧ ((handle_key no_words (sample [hello, abc] 5 0) (plain_key NCKEY_DEL)).2.tc_cursor_y
            = (sample [hello, abc] 5 0).tc_cursor_y
          ∧ (handle_key no_words (sample [hello, abc] 5 0) (plain_key NCKEY_DEL)).2.tc_cursor_x
            = (sample [hello, abc] 5 0).tc_cursor_x) :=
  ⟨by decide, by decide, by decide, by decide, by decide,
    (C7_forward_delete no_words (sample [hello, abc] 5 0) (plain_key NCKEY_DEL) (by decide)
      (by decide) rfl rfl).1⟩

/-! ## Navigation leaves the content alone -/

theorem ensure_preserves (s : textinput_curses) :
    content_preserved s s.ensure_cursor_visible := ⟨rfl, rfl, rfl, rfl⟩

theorem key_home_preserves (s : textinput_curses) : content_preserved s s.key_home.2 :=
  ⟨rfl, rfl, rfl, rfl⟩

theorem key_end_preserves (s : textinput_curses) : content_preserved s s.key_end.2 :=
  ⟨rfl, rfl, rfl, rfl⟩

theorem key_pgup_preserves (s : textinput_curses) : content_preserved s s.key_pgup.2 := by
  unfold key_pgup; simp only []; split_ifs <;> exact ⟨rfl, rfl, rfl, rfl⟩

theorem key_pgdown_preserves (s : textinput_curses) : content_preserved s s.key_pgdown.2 := by
  unfold key_pgdown; simp only []; split_ifs <;> exact ⟨rfl, rfl, rfl, rfl⟩

theorem key_left_preserves (s : textinput_curses) : content_preserved s s.key_left.2 := by
  unfold key_left; split_ifs <;> exact ⟨rfl, rfl, rfl, rfl⟩

theorem key_right_preserves (s : textinput_curses) : content_preserved s s.key_right.2 := by
  unfold key_right; simp only []; split_ifs <;> exact ⟨rfl, rfl, rfl, rfl⟩

theorem key_up_preserves (s : textinput_curses) (ch : ncinput)
    (hp : s.tc_popup.visible = false) : content_preserved s (s.key_up ch).2 := by
  unfold key_up; rw [if_neg (by simp [hp])]; split_ifs <;> exact ⟨rfl, rfl, rfl, rfl⟩

theorem key_down_preserves (s : textinput_curses) (ch : ncinput)
    (hp : s.tc_popup.visible = false) : content_preserved s (s.key_down ch).2 := by
  unfold key_down; rw [if_neg (by simp [hp])]; split_ifs <;> exact ⟨rfl, rfl, rfl, rfl⟩

theorem ctrl_a_preserves (s : textinput_curses) : content_preserved s s.ctrl_a.2 :=
  ⟨rfl, rfl, rfl, rfl⟩

theorem ctrl_e_preserves (s : textinput_curses) : content_preserved s s.ctrl_e.2 :=
  ⟨rfl, rfl, rfl, rfl⟩

theorem alt_left_preserves (ws : word_search) (s : textinput_curses) :
    content_preserved s (alt_left ws s).2 := by
  unfold alt_left; simp only []; split <;> exact ⟨rfl, rfl, rfl, rfl⟩

theorem alt_right_preserves (ws : word_search) (s : textinput_curses) :
    content_preserved s (alt_right ws s).2 := by
  unfold alt_right; simp only []; split <;> exact ⟨rfl, rfl, rfl, rfl⟩

/-- A property of each branch of a conditional, under the branch's condition, holds of the
conditional. -/
theorem ite_guarded {α : Type} (P : α → Prop) (c : Prop) [Decidable c] (a b : α)
    (ha : c → P a) (hb : ¬c → P b) : P (if c then a else b) := by
  by_cases h : c
  · rw [if_pos h]; exact ha h
  · rw [if_neg h]; exact hb h

/-- The navigation part of the last `switch`: the arrow, home, end and page keys (up and down
with the popup hidden) preserve the content. -/
theorem handle_named_key_preserves (s : textinput_curses) (ch : ncinput) (chid : Nat)
    (h : chid = NCKEY_LEFT ∨ chid = NCKEY_RIGHT ∨ chid = NCKEY_HOME ∨ chid = NCKEY_END
      ∨ chid = NCKEY_PGUP ∨ chid = NCKEY_PGDOWN
      ∨ ((chid = NCKEY_UP ∨ chid = NCKEY_DOWN) ∧ s.tc_popup.visible = false)) :
    content_preserved s (s.handle_named_key ch chid).2 := by
  rw [handle_named_key]
  simp only [NCKEY_LEFT, NCKEY_RIGHT, NCKEY_HOME, NCKEY_END, NCKEY_PGUP, NCKEY_PGDOWN,
    NCKEY_UP, NCKEY_DOWN, NCKEY_ESC, KEY_CTRL_RBRACKET, NCKEY_ENTER, NCKEY_TAB, NCKEY_DEL,
    NCKEY_BACKSPACE] at h ⊢
  have hp : chid = 1115002 ∨ chid = 1115004 → s.tc_popup.visible = false := by
    intro hc
    rcases h with h | h | h | h | h | h | ⟨-, hp⟩
    all_goals first | exact hp | omega
  refine ite_guarded (fun r : Bool × textinput_curses => content_preserved s r.2) _ _ _ (fun c => ?_) (fun c1 => ?_)
  · omega
  refine ite_guarded (fun r : Bool × textinput_curses => content_preserved s r.2) _ _ _ (fun c => ?_) (fun c2 => ?_)
  · omega
  refine ite_guarded (fun r : Bool × textinput_curses => content_preserved s r.2) _ _ _ (fun c => ?_) (fun c3 => ?_)
  · omega
  refine ite_guarded (fun r : Bool × textinput_curses => content_preserved s r.2) _ _ _ (fun _ => ?_) (fun c4 => ?_)
  · exact key_home_preserves s
  refine ite_guarded (fun r : Bool × textinput_curses => content_preserved s r.2) _ _ _ (fun _ => ?_) (fun c5 => ?_)
  · exact key_end_preserves s
  refine ite_guarded (fun r : Bool × textinput_curses => content_preserved s r.2) _ _ _ (fun _ => ?_) (fun c6 => ?_)
  · exact key_pgup_preserves s
  refine ite_guarded (fun r : Bool × textinput_curses => content_preserved s r.2) _ _ _ (fun _ => ?_) (fun c7 => ?_)
  · exact key_pgdown_preserves s
  refine ite_guarded (fun r : Bool × textinput_curses => content_preserved s r.2) _ _ _ (fun c => ?_) (fun c8 => ?_)
  · omega
  refine ite_guarded (fun r : Bool × textinput_curses => content_preserved s r.2) _ _ _ (fun c => ?_) (fun c9 => ?_)
  · omega
  refine ite_guarded (fun r : Bool × textinput_curses => content_preserved s r.2) _ _ _ (fun c => ?_) (fun c10 => ?_)
  · exact key_up_preserves s ch (hp (Or.inl c))
  refine ite_guarded (fun r : Bool × textinput_curses => content_preserved s r.2) _ _ _ (fun c => ?_) (fun c11 => ?_)
  · exact key_down_preserves s ch (hp (Or.inr c))
  refine ite_guarded (fun r : Bool × textinput_curses => content_preserved s r.2) _ _ _ (fun _ => ?_) (fun c12 => ?_)
  · exact key_left_preserves s
  refine ite_guarded (fun r : Bool × textinput_curses => content_preserved s r.2) _ _ _ (fun _ => ?_) (fun c13 => ?_)
  · exact key_right_preserves s
  · omega

/-! ## C10 -/

/-- C10: navigation keys are read-only on content: in every state, `handle_key` on Left,
Right, Home, End, Page-Up, Page-Down (with any modifiers, so also Alt-Left and Alt-Right), on
Ctrl-A, Ctrl-E, Ctrl-B, Ctrl-F, and on Up or Down while the popup is hidden, leaves every
line's text, the line count and the clipboard unchanged, does not change the popup (its
visibility included), and fires no callback. -/
theorem C10_navigation_preserves_content (ws : word_search) (s : textinput_curses)
    (ch : ncinput) (hnav : is_navigation s ch) :
    content_preserved s (handle_key ws s ch).2 := by
  rw [handle_key]
  unfold is_navigation at hnav
  have hnamed : ∀ chid : Nat, (chid = 1115005 ∨ chid = 1115003 ∨ chid = 1115011
      ∨ chid = 1115012 ∨ chid = 1115010 ∨ chid = 1115009
      ∨ ((chid = 1115002 ∨ chid = 1115004) ∧ s.tc_popup.visible = false)) →
      content_preserved s (s.handle_named_key ch chid).2 := by
    intro chid h
    apply handle_named_key_preserves
    simp only [NCKEY_LEFT, NCKEY_RIGHT, NCKEY_HOME, NCKEY_END, NCKEY_PGUP, NCKEY_PGDOWN,
      NCKEY_UP, NCKEY_DOWN]
    exact h
  simp only [NCKEY_LEFT, NCKEY_RIGHT, NCKEY_HOME, NCKEY_END, NCKEY_PGUP, NCKEY_PGDOWN,
    NCKEY_UP, NCKEY_DOWN] at hnav ⊢
  refine ite_guarded (fun r : Bool × textinput_curses => content_preserved s r.2) _ _ _
    (fun _ => ⟨rfl, rfl, rfl, rfl⟩) (fun _ => ?_)
  refine ite_guarded (fun r : Bool × textinput_curses => content_preserved s r.2) _ _ _
    (fun _ => alt_left_preserves ws s) (fun _ => ?_)
  refine ite_guarded (fun r : Bool × textinput_curses => content_preserved s r.2) _ _ _
    (fun _ => alt_right_preserves ws s) (fun _ => ?_)
  refine ite_guarded (fun r : Bool × textinput_curses => content_preserved s r.2) _ _ _
    (fun hc => ?_) (fun hc => ?_)
  · -- the control chords
    rw [handle_ctrl_key]
    have hid : ch.id = 1115005 ∨ ch.id = 1115003 ∨ ch.id = 1115011
        ∨ ch.id = 1115012 ∨ ch.id = 1115010 ∨ ch.id = 1115009 ∨ ch.id = 1115002
        ∨ ch.id = 1115004 ∨ ch.id = 97 ∨ ch.id = 65 ∨ ch.id = 101 ∨ ch.id = 69
        ∨ ch.id = 98 ∨ ch.id = 66 ∨ ch.id = 102 ∨ ch.id = 70 := by
      rcases hnav with h | ⟨-, h⟩ | ⟨h, -⟩ <;> omega
    refine ite_guarded (fun r : Bool × textinput_curses => content_preserved s r.2) _ _ _
      (fun _ => ctrl_a_preserves s) (fun _ => ?_)
    refine ite_guarded (fun r : Bool × textinput_curses => content_preserved s r.2) _ _ _
      (fun _ => hnamed _ (Or.inl rfl)) (fun _ => ?_)
    refine ite_guarded (fun r : Bool × textinput_curses => content_preserved s r.2) _ _ _
      (fun _ => ctrl_e_preserves s) (fun _ => ?_)
    refine ite_guarded (fun r : Bool × textinput_curses => content_preserved s r.2) _ _ _
      (fun _ => hnamed _ (Or.inr (Or.inl rfl))) (fun _ => ?_)
    refine ite_guarded (fun r : Bool × textinput_curses => content_preserved s r.2) _ _ _
      (fun c => ?_) (fun _ => ?_)
    · omega
    refine ite_guarded (fun r : Bool × textinput_curses => content_preserved s r.2) _ _ _
      (fun c => ?_) (fun _ => ?_)
    · omega
    refine ite_guarded (fun r : Bool × textinput_curses => content_preserved s r.2) _ _ _
      (fun c => ?_) (fun _ => ⟨rfl, rfl, rfl, rfl⟩)
    · omega
  · -- the named keys
    apply hnamed
    rcases hnav with h | ⟨h, -⟩ | ⟨h, hp⟩
    · omega
    · exact absurd h hc
    · exact Or.inr (Or.inr (Or.inr (Or.inr (Or.inr (Or.inr ⟨h, hp⟩)))))

/-- C10 at a concrete state: Ctrl-E in the middle of a line, with text in the clipboard. -/
theorem C10_navigation_preserves_content_witness :
    is_navigation ({ sample [hello, abc] 2 0 with tc_clipboard := abc }) (ctrl_key 101)
      ∧ (handle_key no_words ({ sample [hello, abc] 2 0 with tc_clipboard := abc })
          (ctrl_key 101)).2.tc_cursor_x = 5
      ∧ content_preserved ({ sample [hello, abc] 2 0 with tc_clipboard := abc })
          (handle_key no_words ({ sample [hello, abc] 2 0 with tc_clipboard := abc })
            (ctrl_key 101)).2 :=
  ⟨by decide, by decide,
    C10_navigation_preserves_content no_words
      ({ sample [hello, abc] 2 0 with tc_clipboard := abc }) (ctrl_key 101) (by decide)⟩

/-! ## C3 -/

theorem update_lines_popup (s : textinput_curses) :
    s.update_lines.tc_popup.visible = false := by
  simp [update_lines]

theorem update_lines_fired (s : textinput_curses) (h : s.tc_on_change = true) :
    s.update_lines.tc_fired = s.tc_fired ++ [callback.on_change] := by
  have h2 : s.update_lines.tc_fired
      = (if s.tc_on_change = true then s.tc_fired ++ [callback.on_change] else s.tc_fired) := by
    unfold update_lines
    simp only []
    rw [fire_tc_fired]
    rfl
  rw [h2, if_pos h]

/-- What `update_lines` does besides clamping: the popup ends hidden and, when the on-change
callback is set, it has fired once. -/
theorem update_lines_reports (s s1 : textinput_curses) (hf : s1.tc_fired = s.tc_fired)
    (hc : s1.tc_on_change = s.tc_on_change) : change_reported s s1.update_lines :=
  ⟨update_lines_popup s1, fun h => by rw [update_lines_fired s1 (hc.trans h), hf]⟩

/-- Every path of the last `switch` either leaves the lines alone, or hides the popup and
fires the on-change callback, or is the line join of Backspace. -/
theorem handle_named_key_reports (s : textinput_curses) (ch : ncinput) (chid : Nat) :
    (s.handle_named_key ch chid).2.tc_lines = s.tc_lines
      ∨ change_reported s (s.handle_named_key ch chid).2
      ∨ (s.handle_named_key ch chid = s.key_backspace ∧ s.tc_cursor_x ≤ 0
          ∧ 0 < s.tc_cursor_y) := by
  refine handle_named_key_cases
    (fun r : Bool × textinput_curses => r.2.tc_lines = s.tc_lines ∨ change_reported s r.2
      ∨ (r = s.key_backspace ∧ s.tc_cursor_x ≤ 0 ∧ 0 < s.tc_cursor_y)) s ch chid
    ?_ ?_ ?_ ?_ ?_ ?_ ?_ ?_ ?_ ?_ ?_ ?_ ?_ ?_
  · unfold key_esc; split_ifs
    · exact Or.inl rfl
    · exact Or.inl (fire_tc_lines _ _ _)
  · unfold key_enter; split_ifs
    · exact Or.inl (fire_tc_lines _ _ _)
    · exact Or.inr (Or.inl (update_lines_reports s _ rfl rfl))
  · unfold key_tab; split_ifs
    · exact Or.inl (fire_tc_lines _ _ _)
    · exact Or.inl rfl
  · exact Or.inl rfl
  · exact Or.inl rfl
  · exact Or.inl (key_pgup_preserves s).1
  · exact Or.inl (key_pgdown_preserves s).1
  · unfold key_del; simp only []; split_ifs
    · exact Or.inr (Or.inl (update_lines_reports s _ rfl rfl))
    · exact Or.inl rfl
    · exact Or.inr (Or.inl (update_lines_reports s _ rfl rfl))
  · by_cases hx : s.tc_cursor_x > 0
    · refine Or.inr (Or.inl ?_)
      unfold key_backspace; rw [if_pos hx]
      exact update_lines_reports s _ rfl rfl
    · by_cases hy : s.tc_cursor_y > 0
      · exact Or.inr (Or.inr ⟨rfl, by omega, hy⟩)
      · refine Or.inl ?_
        unfold key_backspace; rw [if_neg hx, if_neg hy]
  · unfold key_up; split_ifs <;> exact Or.inl rfl
  · unfold key_down; split_ifs <;> exact Or.inl rfl
  · exact Or.inl (key_left_preserves s).1
  · exact Or.inl (key_right_preserves s).1
  · exact Or.inr (Or.inl (update_lines_reports s _ rfl rfl))

/-- Every path of `handle_key` either leaves the lines alone, or hides the popup and fires
the on-change callback (when one is set), or is the line join of Backspace at column 0 of a
row below the first. -/
theorem handle_key_reports (ws : word_search) (s : textinput_curses) (ch : ncinput) :
    (handle_key ws s ch).2.tc_lines = s.tc_lines
      ∨ change_reported s (handle_key ws s ch).2
      ∨ (handle_key ws s ch = s.key_backspace ∧ s.tc_cursor_x ≤ 0 ∧ 0 < s.tc_cursor_y) := by
  refine handle_key_cases
    (fun r : Bool × textinput_curses => r.2.tc_lines = s.tc_lines ∨ change_reported s r.2
      ∨ (r = s.key_backspace ∧ s.tc_cursor_x ≤ 0 ∧ 0 < s.tc_cursor_y)) ws s ch
    (Or.inl rfl) (Or.inl (alt_left_preserves ws s).1) (Or.inl (alt_right_preserves ws s).1)
    ?_ (handle_named_key_reports s ch ch.id)
  refine handle_ctrl_key_cases
    (fun r : Bool × textinput_curses => r.2.tc_lines = s.tc_lines ∨ change_reported s r.2
      ∨ (r = s.key_backspace ∧ s.tc_cursor_x ≤ 0 ∧ 0 < s.tc_cursor_y)) s ch
    (Or.inl rfl) (handle_named_key_reports s ch _) (Or.inl rfl)
    (handle_named_key_reports s ch _) ?_ ?_ ?_ (Or.inl rfl)
  · exact Or.inr (Or.inl (update_lines_reports s _ rfl rfl))
  · exact Or.inr (Or.inl (update_lines_reports s _ rfl rfl))
  · unfold ctrl_y; split_ifs
    · exact Or.inr (Or.inl (update_lines_reports s _ rfl rfl))
    · exact Or.inl rfl

/-- C3, the code at the failing input: with the popup showing and the on-change callback set,
Backspace at (1, 0) of the document "hello", "abc" joins the two lines, so the content
changes, yet the popup is still visible afterwards and no callback has fired; forward-delete
at (0, 5) of the same document makes the same change, hides the popup and fires the
on-change callback. -/
theorem C3_backspace_join_skips_update_lines :
    (show_popup (sample [hello, abc] 0 1)).valid
      ∧ (show_popup (sample [hello, abc] 0 1)).tc_on_change = true
      ∧ (handle_key no_words (show_popup (sample [hello, abc] 0 1))
          (plain_key NCKEY_BACKSPACE)).2.tc_lines = [hello ++ abc]
      ∧ (handle_key no_words (show_popup (sample [hello, abc] 0 1))
          (plain_key NCKEY_BACKSPACE)).2.tc_lines
          ≠ (show_popup (sample [hello, abc] 0 1)).tc_lines
      ∧ (handle_key no_words (show_popup (sample [hello, abc] 0 1))
          (plain_key NCKEY_BACKSPACE)).2.tc_popup.visible = true
      ∧ (handle_key no_words (show_popup (sample [hello, abc] 0 1))
          (plain_key NCKEY_BACKSPACE)).2.tc_fired = []
      ∧ (handle_key no_words (show_popup (sample [hello, abc] 5 0))
          (plain_key NCKEY_DEL)).2.tc_lines = [hello ++ abc]
      ∧ (handle_key no_words (show_popup (sample [hello, abc] 5 0))
          (plain_key NCKEY_DEL)).2.tc_popup.visible = false
      ∧ (handle_key no_words (show_popup (sample [hello, abc] 5 0))
          (plain_key NCKEY_DEL)).2.tc_fired = [callback.on_change] := by
  decide

/-! ## Lines never hold a line terminator -/

theorem getD_clean (ls : List std_string) (n : Nat) (hc : lines_clean ls) :
    NL ∉ ls.getD n [] := by
  induction ls generalizing n with
  | nil => simp
  | cons a ls ih =>
    rw [lines_clean_cons] at hc
    cases n with
    | zero => simpa using hc.1
    | succ n => simpa using ih n hc.2

theorem line_at_clean (ls : List std_string) (r : Int) (hc : lines_clean ls) :
    NL ∉ line_at ls r := by
  unfold line_at
  split_ifs
  · exact getD_clean ls _ hc
  · simp

theorem lines_clean_set_line (ls : List std_string) (r : Int) (v : std_string)
    (hc : lines_clean ls) (hv : NL ∉ v) : lines_clean (set_line ls r v) := by
  unfold set_line
  split_ifs
  · intro l hl
    rcases List.mem_or_eq_of_mem_set hl with h | h
    · exact hc l h
    · rw [h]; exact hv
  · exact hc

theorem lines_clean_erase_line (ls : List std_string) (r : Int) (hc : lines_clean ls) :
    lines_clean (erase_line ls r) := by
  unfold erase_line
  rw [lines_clean_append]
  exact ⟨fun l hl => hc l (List.mem_of_mem_take hl), fun l hl => hc l (List.mem_of_mem_drop hl)⟩

theorem update_lines_clean (s : textinput_curses) : lines_clean s.update_lines.tc_lines := by
  have h : s.update_lines.tc_lines = split_lines s.get_content := by
    simp [update_lines, ensure_lines]
  rw [h]
  exact split_from_clean [] _ (by simp)

theorem key_backspace_clean (s : textinput_curses) (hc : lines_clean s.tc_lines) :
    lines_clean s.key_backspace.2.tc_lines := by
  unfold key_backspace
  split_ifs
  · exact update_lines_clean _
  · refine lines_clean_erase_line _ _ (lines_clean_set_line _ _ _ hc ?_)
    simp only [List.mem_append, not_or]
    exact ⟨line_at_clean _ _ hc, line_at_clean _ _ hc⟩
  · exact hc

theorem same_lines_clean (s t : textinput_curses) (h : t.tc_lines = s.tc_lines)
    (hc : lines_clean s.tc_lines) : lines_clean t.tc_lines := by
  rw [h]; exact hc

theorem handle_named_key_clean (s : textinput_curses) (ch : ncinput) (chid : Nat)
    (hc : lines_clean s.tc_lines) : lines_clean (s.handle_named_key ch chid).2.tc_lines := by
  refine handle_named_key_cases
    (fun r : Bool × textinput_curses => lines_clean r.2.tc_lines) s ch chid
    ?_ ?_ ?_ ?_ ?_ ?_ ?_ ?_ ?_ ?_ ?_ ?_ ?_ ?_
  · unfold key_esc; split_ifs
    · exact hc
    · exact same_lines_clean s _ (fire_tc_lines _ _ _) hc
  · unfold key_enter; split_ifs
    · exact same_lines_clean s _ (fire_tc_lines _ _ _) hc
    · exact update_lines_clean _
  · unfold key_tab; split_ifs
    · exact same_lines_clean s _ (fire_tc_lines _ _ _) hc
    · exact hc
  · exact hc
  · exact hc
  · exact same_lines_clean s _ (key_pgup_preserves s).1 hc
  · exact same_lines_clean s _ (key_pgdown_preserves s).1 hc
  · unfold key_del; simp only []; split_ifs
    · exact update_lines_clean _
    · exact hc
    · exact update_lines_clean _
  · exact key_backspace_clean s hc
  · unfold key_up; split_ifs <;> exact hc
  · unfold key_down; split_ifs <;> exact hc
  · exact same_lines_clean s _ (key_left_preserves s).1 hc
  · exact same_lines_clean s _ (key_right_preserves s).1 hc
  · exact update_lines_clean _

/-- The lines of the document never hold a line terminator: `handle_key` keeps it so. -/
theorem handle_key_lines_clean (ws : word_search) (s : textinput_curses) (ch : ncinput)
    (hc : lines_clean s.tc_lines) : lines_clean (handle_key ws s ch).2.tc_lines := by
  refine handle_key_cases (fun r : Bool × textinput_curses => lines_clean r.2.tc_lines)
    ws s ch hc (same_lines_clean s _ (alt_left_preserves ws s).1 hc)
    (same_lines_clean s _ (alt_right_preserves ws s).1 hc) ?_
    (handle_named_key_clean s ch _ hc)
  refine handle_ctrl_key_cases (fun r : Bool × textinput_curses => lines_clean r.2.tc_lines)
    s ch hc (handle_named_key_clean s ch _ hc) hc (handle_named_key_clean s ch _ hc)
    (update_lines_clean _) (update_lines_clean _) ?_ hc
  unfold ctrl_y; split_ifs
  · exact update_lines_clean _
  · exact hc

/-- The mouse never touches the lines. -/
theorem handle_mouse_lines (s : textinput_curses) (me : mouse_event) :
    (s.handle_mouse me).2.tc_lines = s.tc_lines := by
  unfold handle_mouse
  simp only []
  split_ifs <;> rfl

/-- The document `set_content` builds is valid and its lines hold no line terminator; both
properties are kept by `handle_key` and `handle_mouse`, so every state the widget reaches
has them. -/
theorem set_content_valid_clean (s : textinput_curses) (al : std_string) :
    (s.set_content al).valid ∧ lines_clean (s.set_content al).tc_lines := by
  unfold set_content
  by_cases h : split_lines al = []
  · simp only [h, if_true]
    refine ⟨⟨by simp, ⟨le_refl _, by simp⟩, le_refl _, Int.natCast_nonneg _⟩, ?_⟩
    intro l hl
    simp only [List.mem_singleton] at hl
    rw [hl]; simp
  · simp only [h, if_false]
    refine ⟨⟨h, ⟨le_refl _, ?_⟩, le_refl _, Int.natCast_nonneg _⟩, ?_⟩
    · have := List.length_pos.mpr h
      show (0 : Int) < ((split_lines al).length : Int)
      omega
    · exact split_from_clean [] _ (by simp)

/-! ## Escape and the popup keys -/

theorem handle_key_esc (ws : word_search) (s : textinput_curses) (ch : ncinput)
    (hid : ch.id = NCKEY_ESC) (hc : ch.ctrl = false) :
    handle_key ws s ch = s.key_esc := by
  simp [handle_key, handle_named_key, hid, hc, NCKEY_LEFT, NCKEY_RIGHT, NCKEY_ESC]

theorem handle_key_tab (ws : word_search) (s : textinput_curses) (ch : ncinput)
    (hid : ch.id = NCKEY_TAB) (hc : ch.ctrl = false) :
    handle_key ws s ch = s.key_tab := by
  simp [handle_key, handle_named_key, hid, hc, NCKEY_ENTER, NCKEY_LEFT, NCKEY_RIGHT, NCKEY_ESC,
    KEY_CTRL_RBRACKET, NCKEY_TAB]

theorem handle_key_up (ws : word_search) (s : textinput_curses) (ch : ncinput)
    (hid : ch.id = NCKEY_UP) (hc : ch.ctrl = false) :
    handle_key ws s ch = s.key_up ch := by
  simp [handle_key, handle_named_key, hid, hc, NCKEY_ENTER, NCKEY_LEFT, NCKEY_RIGHT, NCKEY_ESC,
    KEY_CTRL_RBRACKET, NCKEY_BACKSPACE, NCKEY_TAB, NCKEY_HOME, NCKEY_END, NCKEY_PGUP,
    NCKEY_PGDOWN, NCKEY_DEL, NCKEY_UP]

theorem handle_key_down (ws : word_search) (s : textinput_curses) (ch : ncinput)
    (hid : ch.id = NCKEY_DOWN) (hc : ch.ctrl = false) :
    handle_key ws s ch = s.key_down ch := by
  simp [handle_key, handle_named_key, hid, hc, NCKEY_ENTER, NCKEY_LEFT, NCKEY_RIGHT, NCKEY_ESC,
    KEY_CTRL_RBRACKET, NCKEY_BACKSPACE, NCKEY_TAB, NCKEY_HOME, NCKEY_END, NCKEY_PGUP,
    NCKEY_PGDOWN, NCKEY_DEL, NCKEY_UP, NCKEY_DOWN]

theorem handle_key_pgup (ws : word_search) (s : textinput_curses) (ch : ncinput)
    (hid : ch.id = NCKEY_PGUP) (hc : ch.ctrl = false) :
    handle_key ws s ch = s.key_pgup := by
  simp [handle_key, handle_named_key, hid, hc, NCKEY_ENTER, NCKEY_LEFT, NCKEY_RIGHT, NCKEY_ESC,
    KEY_CTRL_RBRACKET, NCKEY_TAB, NCKEY_HOME, NCKEY_END, NCKEY_PGUP]

theorem handle_key_pgdown (ws : word_search) (s : textinput_curses) (ch : ncinput)
    (hid : ch.id = NCKEY_PGDOWN) (hc : ch.ctrl = false) :
    handle_key ws s ch = s.key_pgdown := by
  simp [handle_key, handle_named_key, hid, hc, NCKEY_ENTER, NCKEY_LEFT, NCKEY_RIGHT, NCKEY_ESC,
    KEY_CTRL_RBRACKET, NCKEY_TAB, NCKEY_HOME, NCKEY_END, NCKEY_PGUP, NCKEY_PGDOWN]

theorem handle_key_ctrl_u (ws : word_search) (s : textinput_curses) (ch : ncinput)
    (hid : ch.id = 117 ∨ ch.id = 85) (hc : ch.ctrl = true) :
    handle_key ws s ch = s.ctrl_u := by
  rcases hid with hid | hid <;>
  simp [handle_key, handle_ctrl_key, hid, hc, NCKEY_LEFT, NCKEY_RIGHT]

/-! ## C11 -/

/-- C11: in every state, Escape (without the control modifier) is handled (`handle_key`
returns true) and leaves the document, the cursor, the viewport and the clipboard unchanged.
If the popup is visible it hides the popup and fires no callback, the on-abort callback in
particular; if the popup is hidden it fires the on-abort callback exactly when one is set,
and the popup stays hidden. -/
theorem C11_escape (ws : word_search) (s : textinput_curses) (ch : ncinput)
    (hid : ch.id = NCKEY_ESC) (hctrl : ch.ctrl = false) :
    (handle_key ws s ch).1 = true
      ∧ ((handle_key ws s ch).2.tc_lines = s.tc_lines
        ∧ (handle_key ws s ch).2.tc_cursor_x = s.tc_cursor_x
        ∧ (handle_key ws s ch).2.tc_cursor_y = s.tc_cursor_y
        ∧ (handle_key ws s ch).2.tc_top = s.tc_top
        ∧ (handle_key ws s ch).2.tc_left = s.tc_left
        ∧ (handle_key ws s ch).2.tc_clipboard = s.tc_clipboard)
      ∧ (s.tc_popup.visible = true →
          (handle_key ws s ch).2.tc_popup.visible = false
            ∧ (handle_key ws s ch).2.tc_fired = s.tc_fired)
      ∧ (s.tc_popup.visible = false →
          (handle_key ws s ch).2.tc_popup.visible = false
            ∧ (handle_key ws s ch).2.tc_fired
                = (if s.tc_on_abort = true then s.tc_fired ++ [callback.on_abort]
                    else s.tc_fired)) := by
  rw [handle_key_esc ws s ch hid hctrl]
  unfold key_esc
  by_cases hp : s.tc_popup.visible = true
  · rw [if_pos hp]
    exact ⟨rfl, ⟨rfl, rfl, rfl, rfl, rfl, rfl⟩, fun _ => ⟨rfl, rfl⟩,
      fun h => absurd hp (by rw [h]; decide)⟩
  · rw [if_neg hp]
    have hp2 : s.tc_popup.visible = false := by
      cases h : s.tc_popup.visible
      · rfl
      · exact absurd h hp
    refine ⟨rfl, ?_, fun h => absurd h hp, fun _ => ?_⟩
    · cases s.tc_on_abort <;> exact ⟨rfl, rfl, rfl, rfl, rfl, rfl⟩
    · exact ⟨by rw [fire_tc_popup]; exact hp2, fire_tc_fired _ _ _⟩

/-- C11 at concrete states: Escape with the popup showing, and with the popup hidden. -/
theorem C11_escape_witness :
    (plain_key NCKEY_ESC).id = NCKEY_ESC
      ∧ (handle_key no_words (show_popup (sample [hello] 2 0)) (plain_key NCKEY_ESC)).2.tc_fired
          = []
      ∧ (handle_key no_words (sample [hello] 2 0) (plain_key NCKEY_ESC)).2.tc_fired
          = [callback.on_abort]
      ∧ (handle_key no_words (sample [hello] 2 0) (plain_key NCKEY_ESC)).1 = true :=
  ⟨rfl, by decide, by decide,
    (C11_escape no_words (sample [hello] 2 0) (plain_key NCKEY_ESC) rfl rfl).1⟩

/-! ## C12 -/

/-- Accepting the completion: what Enter and Tab do while the popup is visible. -/
theorem accept_completion_fields (s : textinput_curses) :
    ((s.fire s.tc_on_completion callback.on_completion).hide_popup.tc_fired
        = (if s.tc_on_completion = true then s.tc_fired ++ [callback.on_completion]
            else s.tc_fired)
      ∧ (s.fire s.tc_on_completion callback.on_completion).hide_popup.tc_popup.visible = false)
    ∧ (s.fire s.tc_on_completion callback.on_completion).hide_popup.tc_lines = s.tc_lines
    ∧ (s.fire s.tc_on_completion callback.on_completion).hide_popup.tc_cursor_x = s.tc_cursor_x
    ∧ (s.fire s.tc_on_completion callback.on_completion).hide_popup.tc_cursor_y
        = s.tc_cursor_y := by
  cases s.tc_on_completion <;> exact ⟨⟨rfl, rfl⟩, rfl, rfl, rfl⟩

/-- C12: in every state in which the popup is visible, Enter and Tab (without the control
modifier) each fire the on-completion callback exactly once when it is set (and nothing
otherwise), hide the popup and leave the document and the cursor alone (Enter does not split
the line); Up and Down are handed to the popup's own key handling, fire nothing, and leave the
cursor row and column and the document unchanged. -/
theorem C12_popup_overrides (ws : word_search) (s : textinput_curses)
    (hp : s.tc_popup.visible = true) :
    (∀ ch : ncinput, ch.id = NCKEY_ENTER ∨ ch.id = NCKEY_TAB → ch.ctrl = false →
        ((handle_key ws s ch).2.tc_fired
            = (if s.tc_on_completion = true then s.tc_fired ++ [callback.on_completion]
                else s.tc_fired)
          ∧ (handle_key ws s ch).2.tc_popup.visible = false)
        ∧ (handle_key ws s ch).2.tc_lines = s.tc_lines
        ∧ (handle_key ws s ch).2.tc_cursor_x = s.tc_cursor_x
        ∧ (handle_key ws s ch).2.tc_cursor_y = s.tc_cursor_y)
    ∧ (∀ ch : ncinput, ch.id = NCKEY_UP ∨ ch.id = NCKEY_DOWN → ch.ctrl = false →
        ((handle_key ws s ch).2.tc_popup = s.tc_popup.handle_key ch
          ∧ (handle_key ws s ch).2.tc_fired = s.tc_fired)
        ∧ (handle_key ws s ch).2.tc_lines = s.tc_lines
        ∧ (handle_key ws s ch).2.tc_cursor_x = s.tc_cursor_x
        ∧ (handle_key ws s ch).2.tc_cursor_y = s.tc_cursor_y) := by
  constructor
  · intro ch hid hctrl
    rcases hid with hid | hid
    · rw [handle_key_enter ws s ch hid hctrl]
      unfold key_enter
      rw [if_pos hp]
      exact accept_completion_fields s
    · rw [handle_key_tab ws s ch hid hctrl]
      unfold key_tab
      rw [if_pos hp]
      exact accept_completion_fields s
  · intro ch hid hctrl
    rcases hid with hid | hid
    · rw [handle_key_up ws s ch hid hctrl]
      unfold key_up
      rw [if_pos hp]
      exact ⟨⟨rfl, rfl⟩, rfl, rfl, rfl⟩
    · rw [handle_key_down ws s ch hid hctrl]
      unfold key_down
      rw [if_pos hp]
      exact ⟨⟨rfl, rfl⟩, rfl, rfl, rfl⟩

/-- C12 at a concrete state: Enter with the popup showing over "hello" fires the
on-completion callback once and does not split the line. -/
theorem C12_popup_overrides_witness :
    (show_popup (sample [hello] 3 0)).tc_popup.visible = true
      ∧ (handle_key no_words (show_popup (sample [hello] 3 0))
          (plain_key NCKEY_ENTER)).2.tc_fired = [callback.on_completion]
      ∧ (handle_key no_words (show_popup (sample [hello] 3 0))
          (plain_key NCKEY_UP)).2.tc_popup.keys = [NCKEY_UP]
      ∧ (handle_key no_words (show_popup (sample [hello] 3 0))
          (plain_key NCKEY_ENTER)).2.tc_lines = (show_popup (sample [hello] 3 0)).tc_lines :=
  ⟨by decide, by decide, by decide,
    ((C12_popup_overrides no_words (show_popup (sample [hello] 3 0)) (by decide)).1
      (plain_key NCKEY_ENTER) (Or.inl rfl) rfl).2.1⟩

/-! ## C13 -/

/-- Every path of the last `switch` that reports the key as not handled either leaves the
state alone or is the forward-delete case or the tab case with the popup visible. -/
theorem handle_named_key_not_handled (s : textinput_curses) (ch : ncinput) (chid : Nat)
    (h : (s.handle_named_key ch chid).1 = false) :
    (s.handle_named_key ch chid).2 = s
      ∨ s.handle_named_key ch chid = s.key_del
      ∨ (s.handle_named_key ch chid = s.key_tab ∧ s.tc_popup.visible = true) := by
  revert h
  refine handle_named_key_cases
    (fun r : Bool × textinput_curses => r.1 = false →
      (r.2 = s ∨ r = s.key_del ∨ (r = s.key_tab ∧ s.tc_popup.visible = true))) s ch chid
    ?_ ?_ ?_ ?_ ?_ ?_ ?_ ?_ ?_ ?_ ?_ ?_ ?_ ?_
  · unfold key_esc; split_ifs <;> intro h <;> cases h
  · unfold key_enter; split_ifs <;> intro h <;> cases h
  · intro _
    by_cases hp : s.tc_popup.visible = true
    · exact Or.inr (Or.inr ⟨rfl, hp⟩)
    · refine Or.inl ?_
      unfold key_tab; rw [if_neg hp]
  · intro h; cases h
  · intro h; cases h
  · unfold key_pgup; simp only []; split_ifs <;> intro h <;> cases h
  · unfold key_pgdown; simp only []; split_ifs <;> intro h <;> cases h
  · intro _; exact Or.inr (Or.inl rfl)
  · unfold key_backspace; split_ifs <;> intro h <;> cases h
  · unfold key_up; split_ifs <;> intro h <;> cases h
  · unfold key_down; split_ifs <;> intro h <;> cases h
  · unfold key_left; split_ifs <;> intro h <;> cases h
  · unfold key_right; simp only []; split_ifs <;> intro h <;> cases h
  · intro h; cases h

/-- Every path of `handle_key` that reports the key as not handled either leaves the state
alone, or is the forward-delete case, or is the tab case with the popup visible. -/
theorem handle_key_not_handled (ws : word_search) (s : textinput_curses) (ch : ncinput)
    (h : (handle_key ws s ch).1 = false) :
    (handle_key ws s ch).2 = s
      ∨ handle_key ws s ch = s.key_del
      ∨ (handle_key ws s ch = s.key_tab ∧ s.tc_popup.visible = true) := by
  revert h
  refine handle_key_cases
    (fun r : Bool × textinput_curses => r.1 = false →
      (r.2 = s ∨ r = s.key_del ∨ (r = s.key_tab ∧ s.tc_popup.visible = true))) ws s ch
    (fun h => by cases h) ?_ ?_ ?_ (handle_named_key_not_handled s ch ch.id)
  · unfold alt_left; simp only []; split <;> intro h <;> cases h
  · unfold alt_right; simp only []; split <;> intro h <;> cases h
  · refine handle_ctrl_key_cases
      (fun r : Bool × textinput_curses => r.1 = false →
        (r.2 = s ∨ r = s.key_del ∨ (r = s.key_tab ∧ s.tc_popup.visible = true))) s ch
      (fun h => by cases h) (handle_named_key_not_handled s ch _) (fun h => by cases h)
      (handle_named_key_not_handled s ch _) (fun h => by cases h) (fun h => by cases h) ?_
      (fun _ => Or.inl rfl)
    unfold ctrl_y; split_ifs <;> intro h <;> cases h

/-- C13, the code at the failing input: forward-delete at (0, 0) of "hello" removes the first
character and fires the on-change callback, and Tab with the popup showing fires the
on-completion callback and hides the popup, yet both calls return false ("not handled");
Backspace at (0, 1) and Enter with the popup showing, which do the same work, return true. -/
theorem C13_delete_and_tab_report_not_handled :
    (sample [hello] 0 0).valid
      ∧ (handle_key no_words (sample [hello] 0 0) (plain_key NCKEY_DEL)).1 = false
      ∧ (handle_key no_words (sample [hello] 0 0) (plain_key NCKEY_DEL)).2.tc_lines
          = [[101, 108, 108, 111]]
      ∧ (handle_key no_words (sample [hello] 0 0) (plain_key NCKEY_DEL)).2.tc_fired
          = [callback.on_change]
      ∧ (handle_key no_words (show_popup (sample [hello] 0 0)) (plain_key NCKEY_TAB)).1 = false
      ∧ (handle_key no_words (show_popup (sample [hello] 0 0)) (plain_key NCKEY_TAB)).2.tc_fired
          = [callback.on_completion]
      ∧ (handle_key no_words (show_popup (sample [hello] 0 0))
          (plain_key NCKEY_TAB)).2.tc_popup.visible = false
      ∧ (handle_key no_words (sample [hello] 1 0) (plain_key NCKEY_BACKSPACE)).1 = true
      ∧ (handle_key no_words (sample [hello] 1 0) (plain_key NCKEY_BACKSPACE)).2.tc_lines
          = [[101, 108, 108, 111]]
      ∧ (handle_key no_words (show_popup (sample [hello] 0 0)) (plain_key NCKEY_ENTER)).1
          = true := by
  decide

/-! ## C14 -/

/-- After the clamping pass on a non-empty document with a viewport of at least one row, the
cursor row lies in the viewport. -/
theorem ensure_row_in_view (s : textinput_curses) (hne : s.tc_lines ≠ [])
    (hh : 1 ≤ s.get_visible_dimensions.dr_height) : s.ensure_cursor_visible.row_in_view :=
  ensure_top_bounds s hne hh

/-- C14, the claim as stated fails: at the last row Page-Down, and at row 0 Page-Up, return
without the visibility pass, so a viewport that did not hold the cursor row before the key
(here after the widget shrank to one row, and after `tc_top` was moved) does not hold it
afterwards either. -/
theorem C14_page_key_without_pass :
    (({ sample [hello, abc, hello] 0 2 with tc_height := 1 } : textinput_curses).valid
      ∧ ({ sample [hello, abc, hello] 0 2 with
            tc_height := 1 } : textinput_curses).get_visible_dimensions.dr_height = 1
      ∧ (handle_key no_words { sample [hello, abc, hello] 0 2 with tc_height := 1 }
          (plain_key NCKEY_PGDOWN)).2.tc_cursor_y = 2
      ∧ (handle_key no_words { sample [hello, abc, hello] 0 2 with tc_height := 1 }
          (plain_key NCKEY_PGDOWN)).2.tc_top = 0
      ∧ ¬ (handle_key no_words { sample [hello, abc, hello] 0 2 with tc_height := 1 }
          (plain_key NCKEY_PGDOWN)).2.row_in_view)
    ∧ (({ sample [hello, abc, hello] 0 0 with tc_top := 2 } : textinput_curses).valid
      ∧ 1 ≤ ({ sample [hello, abc, hello] 0 0 with
            tc_top := 2 } : textinput_curses).get_visible_dimensions.dr_height
      ∧ ¬ (handle_key no_words { sample [hello, abc, hello] 0 0 with tc_top := 2 }
          (plain_key NCKEY_PGUP)).2.row_in_view) := by
  decide

/-- C14, amended: in a valid state with a viewport height h of at least one row and the cursor
at row r of a document of n lines, Page-Down leaves the cursor row at min(r + h, n - 1) and
Page-Up leaves it at max(r - h, 0); the resulting viewport holds the cursor row,
`top <= row < top + h`, whenever the key moved the cursor (r < n - 1 for Page-Down, r > 0 for
Page-Up) or the viewport held the cursor row before the key. -/
theorem C14_page_keys (ws : word_search) (s : textinput_curses) (ch : ncinput)
    (hv : s.valid) (hh : 1 ≤ s.get_visible_dimensions.dr_height) (hctrl : ch.ctrl = false) :
    (ch.id = NCKEY_PGDOWN →
        (handle_key ws s ch).2.tc_cursor_y
            = min (s.tc_cursor_y + s.get_visible_dimensions.dr_height)
                ((s.tc_lines.length : Int) - 1)
          ∧ (s.tc_cursor_y < (s.tc_lines.length : Int) - 1 ∨ s.row_in_view →
              (handle_key ws s ch).2.row_in_view))
    ∧ (ch.id = NCKEY_PGUP →
        (handle_key ws s ch).2.tc_cursor_y
            = max (s.tc_cursor_y - s.get_visible_dimensions.dr_height) 0
          ∧ (0 < s.tc_cursor_y ∨ s.row_in_view → (handle_key ws s ch).2.row_in_view)) := by
  obtain ⟨hne, ⟨hy0, hy1⟩, -, -⟩ := hv
  have hlen : 0 < s.tc_lines.length := List.length_pos.mpr hne
  constructor
  · intro hid
    rw [handle_key_pgdown ws s ch hid hctrl]
    unfold key_pgdown
    simp only []
    rw [to_size_t_of_nonneg _ hy0, to_size_t_of_nonneg ((s.tc_lines.length : Int) - 1) (by omega),
      to_size_t_of_nonneg (s.tc_cursor_y + s.get_visible_dimensions.dr_height) (by omega)]
    by_cases h1 : s.tc_cursor_y < (s.tc_lines.length : Int) - 1
    · rw [if_pos h1]
      by_cases h2 : s.tc_cursor_y + s.get_visible_dimensions.dr_height < (s.tc_lines.length : Int)
      · rw [if_pos h2]
        refine ⟨?_, fun _ => ensure_row_in_view _ hne hh⟩
        have := ensure_cursor_y_eq { s with
          tc_top := s.tc_top + s.get_visible_dimensions.dr_height
          tc_cursor_y := s.tc_cursor_y + s.get_visible_dimensions.dr_height } hne
        simp only [] at this ⊢
        rw [this]
        simp only [max_def, min_def]
        split_ifs <;> omega
      · rw [if_neg h2]
        refine ⟨?_, fun _ => ensure_row_in_view _ hne hh⟩
        have := ensure_cursor_y_eq { s with tc_cursor_y := (s.tc_lines.length : Int) - 1 } hne
        simp only [] at this ⊢
        rw [this]
        simp only [max_def, min_def]
        split_ifs <;> omega
    · rw [if_neg h1]
      refine ⟨?_, fun h => ?_⟩
      · show s.tc_cursor_y = _
        simp only [min_def]
        split_ifs <;> omega
      · rcases h with h | h
        · exact absurd h h1
        · exact h
  · intro hid
    rw [handle_key_pgup ws s ch hid hctrl]
    unfold key_pgup
    simp only []
    by_cases h1 : s.tc_cursor_y > 0
    · rw [if_pos h1]
      by_cases h2 : s.tc_cursor_y < s.get_visible_dimensions.dr_height
      · rw [if_pos h2]
        refine ⟨?_, fun _ => ensure_row_in_view _ hne hh⟩
        have := ensure_cursor_y_eq { s with tc_cursor_y := 0 } hne
        simp only [] at this ⊢
        rw [this]
        simp only [max_def, min_def]
        split_ifs <;> omega
      · rw [if_neg h2]
        refine ⟨?_, fun _ => ensure_row_in_view _ hne hh⟩
        have := ensure_cursor_y_eq { s with
          tc_top := if s.tc_top < s.get_visible_dimensions.dr_height then 0
            else s.tc_top - s.get_visible_dimensions.dr_height
          tc_cursor_y := s.tc_cursor_y - s.get_visible_dimensions.dr_height } hne
        simp only [] at this ⊢
        rw [this]
        simp only [max_def, min_def]
        split_ifs <;> omega
    · rw [if_neg h1]
      refine ⟨?_, fun h => ?_⟩
      · show s.tc_cursor_y = _
        simp only [max_def]
        split_ifs <;> omega
      · rcases h with h | h
        · exact absurd h h1
        · exact h

/-- C14 amended, at a concrete state: Page-Down from row 1 of seven lines in a viewport of
five rows. -/
theorem C14_page_keys_witness :
    (sample [hello, abc, hello, abc, hello, abc, hello] 0 1).valid
      ∧ 1 ≤ (sample [hello, abc, hello, abc, hello, abc, hello]
          0 1).get_visible_dimensions.dr_height
      ∧ (handle_key no_words (sample [hello, abc, hello, abc, hello, abc, hello] 0 1)
          (plain_key NCKEY_PGDOWN)).2.tc_cursor_y = 6
      ∧ (handle_key no_words (sample [hello, abc, hello, abc, hello, abc, hello] 0 1)
          (plain_key NCKEY_PGDOWN)).2.tc_top = 2
      ∧ (handle_key no_words (sample [hello, abc, hello, abc, hello, abc, hello] 0 1)
          (plain_key NCKEY_PGDOWN)).2.row_in_view :=
  ⟨by decide, by decide, by decide, by decide,
    ((C14_page_keys no_words (sample [hello, abc, hello, abc, hello, abc, hello] 0 1)
      (plain_key NCKEY_PGDOWN) (by decide) (by decide) rfl).1 rfl).2 (Or.inl (by decide))⟩

/-! ## C15 -/

theorem update_lines_clipboard (s : textinput_curses) :
    s.update_lines.tc_clipboard = s.tc_clipboard := by
  simp [update_lines]
  rfl

/-- Ctrl-Y never changes the clipboard. -/
theorem ctrl_y_clipboard (s : textinput_curses) : s.ctrl_y.2.tc_clipboard = s.tc_clipboard := by
  unfold ctrl_y
  split_ifs
  · exact update_lines_clipboard _
  · rfl

/-- The state after Ctrl-U. -/
theorem ctrl_u_fields (s : textinput_curses) (hv : s.valid) (hclean : lines_clean s.tc_lines) :
    s.ctrl_u.2.tc_clipboard = s.cursor_line.take s.cursor_byte_index
      ∧ s.ctrl_u.2.tc_lines
          = s.tc_lines.take s.tc_cursor_y.toNat
              ++ s.cursor_line.drop s.cursor_byte_index
                :: s.tc_lines.drop (s.tc_cursor_y.toNat + 1)
      ∧ s.ctrl_u.2.tc_cursor_y = s.tc_cursor_y
      ∧ s.ctrl_u.2.tc_cursor_x = 0 := by
  obtain ⟨hne, ⟨hy0, hy1⟩, hx0, hx1⟩ := hv
  obtain ⟨A, B, L, hls, hy, hA, hB, hL⟩ := row_split s.tc_lines s.tc_cursor_y hy0 hy1
  have hcl : lines_clean (A ++ L :: B) := hls ▸ hclean
  rw [lines_clean_append, lines_clean_cons] at hcl
  obtain ⟨hcA, hcL, hcB⟩ := hcl
  unfold ctrl_u
  simp only []
  have hcur : s.cursor_line = L := hL.symm
  have hoff : s.cursor_byte_index = column_to_byte_index L (to_column s.tc_cursor_x) := by
    unfold cursor_byte_index; rw [hcur]
  have hnew : set_line s.tc_lines s.tc_cursor_y
        (erase_len (line_at s.tc_lines s.tc_cursor_y) 0
          (column_to_byte_index (line_at s.tc_lines s.tc_cursor_y) (to_column s.tc_cursor_x)))
      = A ++ L.drop (column_to_byte_index L (to_column s.tc_cursor_x)) :: B := by
    rw [← hL, hls, hy, set_line_row]
    simp [erase_len]
  rw [hnew, ← hL, hcur, hoff, ← hA, ← hB]
  generalize hs1 : ({ s with
      tc_clipboard := subline_len L 0 (column_to_byte_index L (to_column s.tc_cursor_x))
      tc_lines := A ++ L.drop (column_to_byte_index L (to_column s.tc_cursor_x)) :: B
      tc_cursor_x := 0 } : textinput_curses) = s1
  have h1l : s1.tc_lines = A ++ L.drop (column_to_byte_index L (to_column s.tc_cursor_x)) :: B := by
    rw [← hs1]
  have h1x : s1.tc_cursor_x = 0 := by rw [← hs1]
  have h1y : s1.tc_cursor_y = s.tc_cursor_y := by rw [← hs1]
  have h1c : s1.tc_clipboard = L.take (column_to_byte_index L (to_column s.tc_cursor_x)) := by
    rw [← hs1]; simp [subline_len]
  have hc1 : lines_clean s1.tc_lines := by
    rw [h1l, lines_clean_append, lines_clean_cons]
    exact ⟨hcA, not_mem_drop _ _ hcL, hcB⟩
  have hv1 : s1.valid := by
    refine ⟨by rw [h1l]; simp, ⟨by omega, ?_⟩, by omega, ?_⟩
    · rw [h1l, h1y, hy]; simp
    · rw [h1x]; exact Int.natCast_nonneg _
  obtain ⟨hl, -, -, hclip, -, -⟩ := update_lines_fields s1 hc1
  obtain ⟨hx, hy2⟩ := update_lines_cursor s1 hv1 hc1
  show s1.update_lines.tc_clipboard = _ ∧ s1.update_lines.tc_lines = _
    ∧ s1.update_lines.tc_cursor_y = _ ∧ s1.update_lines.tc_cursor_x = _
  rw [hl, hclip, hx, hy2, h1l, h1x, h1y, h1c]
  exact ⟨rfl, rfl, rfl, rfl⟩

/-- C15: the clipboard is overwritten, never appended to, by the kills and is read-only for
the yank: in every valid state, whatever the clipboard held before, after Ctrl-K the clipboard
is exactly the text removed from the cursor to the end of the line (line r keeps the text
before the cursor); after Ctrl-U it is exactly the text removed from the start of the line to
the cursor, line r becomes the remaining suffix and the cursor column becomes 0; and Ctrl-Y
leaves the clipboard unchanged.  The lines of the document hold no line terminator, as in
every document the widget builds. -/
theorem C15_clipboard (ws : word_search) (s : textinput_curses) (chk chu chy : ncinput)
    (hv : s.valid) (hclean : lines_clean s.tc_lines)
    (hk : chk.id = 107 ∨ chk.id = 75) (hkc : chk.ctrl = true)
    (hu : chu.id = 117 ∨ chu.id = 85) (huc : chu.ctrl = true)
    (hyk : chy.id = 121 ∨ chy.id = 89) (hyc : chy.ctrl = true) :
    ((handle_key ws s chk).2.tc_clipboard = s.cursor_line.drop s.cursor_byte_index
      ∧ line_at (handle_key ws s chk).2.tc_lines s.tc_cursor_y
          = s.cursor_line.take s.cursor_byte_index)
    ∧ ((handle_key ws s chu).2.tc_clipboard = s.cursor_line.take s.cursor_byte_index
      ∧ line_at (handle_key ws s chu).2.tc_lines s.tc_cursor_y
          = s.cursor_line.drop s.cursor_byte_index
      ∧ (handle_key ws s chu).2.tc_lines
          = s.tc_lines.take s.tc_cursor_y.toNat
              ++ s.cursor_line.drop s.cursor_byte_index
                :: s.tc_lines.drop (s.tc_cursor_y.toNat + 1)
      ∧ (handle_key ws s chu).2.tc_cursor_y = s.tc_cursor_y
      ∧ (handle_key ws s chu).2.tc_cursor_x = 0)
    ∧ (handle_key ws s chy).2.tc_clipboard = s.tc_clipboard := by
  rw [handle_key_ctrl_k ws s chk hk hkc, handle_key_ctrl_u ws s chu hu huc,
    handle_key_ctrl_y ws s chy hyk hyc]
  obtain ⟨k1, k2, -, -⟩ := ctrl_k_fields s hv hclean
  obtain ⟨u1, u2, u3, u4⟩ := ctrl_u_fields s hv hclean
  obtain ⟨hne, ⟨hy0, hy1⟩, -, -⟩ := hv
  obtain ⟨A, B, L, hls, hy, hA, hB, hL⟩ := row_split s.tc_lines s.tc_cursor_y hy0 hy1
  refine ⟨⟨k1, ?_⟩, ⟨u1, ?_, u2, u3, u4⟩, ctrl_y_clipboard s⟩
  · rw [k2, ← hA, ← hB, hy, line_at_row]
  · rw [u2, ← hA, ← hB, hy, line_at_row]

/-- C15 at a concrete state: with "abc" in the clipboard, Ctrl-K and Ctrl-U at (0, 2) of
"hello" leave "llo" and "he" in it, and Ctrl-Y leaves "abc". -/
theorem C15_clipboard_witness :
    ({ sample [hello] 2 0 with tc_clipboard := abc } : textinput_curses).valid
      ∧ lines_clean ({ sample [hello] 2 0 with tc_clipboard := abc } : textinput_curses).tc_lines
      ∧ (handle_key no_words { sample [hello] 2 0 with tc_clipboard := abc }
          (ctrl_key 107)).2.tc_clipboard = [108, 108, 111]
      ∧ (handle_key no_words { sample [hello] 2 0 with tc_clipboard := abc }
          (ctrl_key 117)).2.tc_clipboard = [104, 101]
      ∧ (handle_key no_words { sample [hello] 2 0 with tc_clipboard := abc }
          (ctrl_key 117)).2.tc_lines = [[108, 108, 111]]
      ∧ (handle_key no_words { sample [hello] 2 0 with tc_clipboard := abc }
          (ctrl_key 121)).2.tc_lines = [[104, 101, 97, 98, 99, 108, 108, 111]]
      ∧ (handle_key no_words { sample [hello] 2 0 with tc_clipboard := abc }
          (ctrl_key 121)).2.tc_clipboard
          = ({ sample [hello] 2 0 with tc_clipboard := abc } : textinput_curses).tc_clipboard :=
  ⟨by decide, by decide, by decide, by decide, by decide, by decide,
    (C15_clipboard no_words { sample [hello] 2 0 with tc_clipboard := abc } (ctrl_key 107)
      (ctrl_key 117) (ctrl_key 121) (by decide) (by decide) (Or.inl rfl) rfl (Or.inl rfl) rfl
      (Or.inl rfl) rfl).2.2⟩

/-! ## The completion popup -/

theorem itertools_max_spec (l : List Nat) (h : l ≠ []) :
    ∃ m, itertools_max l = some m ∧ m ∈ l ∧ ∀ a ∈ l, a ≤ m := by
  induction l with
  | nil => exact absurd rfl h
  | cons a rest ih =>
    cases rest with
    | nil => exact ⟨a, by simp [itertools_max], by simp, by simp⟩
    | cons b rest2 =>
      obtain ⟨m, hm, hmem, hle⟩ := ih (by simp)
      refine ⟨max a m, by rw [itertools_max, hm], ?_, ?_⟩
      · rcases le_total a m with hc | hc
        · rw [max_eq_right hc]; exact List.mem_cons_of_mem _ hmem
        · rw [max_eq_left hc]; exact List.mem_cons_self _ _
      · intro c hc
        rcases List.mem_cons.mp hc with e | e
        · rw [e]; exact le_max_left _ _
        · exact le_trans (hle c e) (le_max_right _ _)

theorem to_unsigned_of_nonneg (x : Int) (h : 0 ≤ x) : to_unsigned x = x := by
  simp [to_unsigned, h]

/-- The popup after `open_popup_for_completion` on a non-empty candidate list, in terms of
the largest candidate width `m`. -/
theorem open_popup_fields (s : textinput_curses) (left : Nat) (possibilities : List std_string)
    (m : Nat) (hne : possibilities ≠ [])
    (hm : itertools_max (possibilities.map column_width) = some m) :
    (s.open_popup_for_completion left possibilities).tc_popup
      = { s.tc_popup with
          rows := possibilities
          x := s.vc_x
            + (if ((left : Int)
                  + to_size_t (min ((m : Int) + 2) s.get_visible_dimensions.dr_width))
                    % 18446744073709551616 > to_size_t s.get_visible_dimensions.dr_width
                then to_size_t (s.get_visible_dimensions.dr_width
                  - min ((m : Int) + 2) s.get_visible_dimensions.dr_width)
                else (left : Int))
          y := s.vc_y
            + (if to_unsigned (s.vc_y + (s.tc_cursor_y - s.tc_top + 1)
                  + ((min s.tc_max_popup_height possibilities.length : Nat) : Int))
                    > (s.win_height : Int)
                then s.tc_cursor_y - s.tc_top
                  - ((min s.tc_max_popup_height possibilities.length : Nat) : Int)
                else s.tc_cursor_y - s.tc_top + 1)
          width := min ((m : Int) + 2) s.get_visible_dimensions.dr_width
          height := ((min s.tc_max_popup_height possibilities.length : Nat) : Int)
          visible := true
          selection := 0 } := by
  unfold open_popup_for_completion
  rw [if_neg hne]
  simp only [hm, Option.getD_some]
  rfl

/-! ## C16 -/

/-- C16: `open_popup_for_completion` with an empty candidate list changes nothing (the whole
state, so the popup's visibility, geometry and candidates, is unchanged).  With a non-empty
list and a viewport width W >= 0 it sets, for the largest candidate column width m, the popup
width to w = min(m + 2, W), the popup height to min(max popup height, candidate count), the
horizontal offset from the widget to the anchor column if anchor + w <= W and to W - w
otherwise (so the offset x satisfies 0 <= x and x + w <= W), the selection to index 0 and
visible to true, and it hands the candidates to the popup.  The anchor is a column, so
anchor + W does not overflow a `size_t`. -/
theorem C16_open_popup_geometry (s : textinput_curses) (left : Nat)
    (possibilities : List std_string) :
    s.open_popup_for_completion left [] = s
      ∧ (possibilities ≠ [] → 0 ≤ s.get_visible_dimensions.dr_width →
          (left : Int) + s.get_visible_dimensions.dr_width < 18446744073709551616 →
          ∃ m : Nat, (m ∈ possibilities.map column_width
              ∧ ∀ a ∈ possibilities.map column_width, a ≤ m)
            ∧ (s.open_popup_for_completion left possibilities).tc_popup.width
                = min ((m : Int) + 2) s.get_visible_dimensions.dr_width
            ∧ (s.open_popup_for_completion left possibilities).tc_popup.height
                = ((min s.tc_max_popup_height possibilities.length : Nat) : Int)
            ∧ (s.open_popup_for_completion left possibilities).tc_popup.x - s.vc_x
                = (if (left : Int) + min ((m : Int) + 2) s.get_visible_dimensions.dr_width
                      ≤ s.get_visible_dimensions.dr_width
                    then (left : Int)
                    else s.get_visible_dimensions.dr_width
                      - min ((m : Int) + 2) s.get_visible_dimensions.dr_width)
            ∧ (0 ≤ (s.open_popup_for_completion left possibilities).tc_popup.x - s.vc_x
              ∧ (s.open_popup_for_completion left possibilities).tc_popup.x - s.vc_x
                  + (s.open_popup_for_completion left possibilities).tc_popup.width
                ≤ s.get_visible_dimensions.dr_width)
            ∧ (s.open_popup_for_completion left possibilities).tc_popup.selection = 0
            ∧ (s.open_popup_for_completion left possibilities).tc_popup.visible = true
            ∧ (s.open_popup_for_completion left possibilities).tc_popup.rows
                = possibilities) := by
  refine ⟨by simp [open_popup_for_completion], fun hne hW hfit => ?_⟩
  obtain ⟨m, hm, hmem, hle⟩ :=
    itertools_max_spec (possibilities.map column_width) (by simpa using hne)
  refine ⟨m, ⟨hmem, hle⟩, ?_⟩
  rw [open_popup_fields s left possibilities m hne hm]
  simp only []
  generalize s.get_visible_dimensions.dr_width = W at *
  have hw0 : 0 ≤ min ((m : Int) + 2) W := le_min (by omega) hW
  have hwW : min ((m : Int) + 2) W ≤ W := min_le_right _ _
  generalize min ((m : Int) + 2) W = w at *
  rw [to_size_t_of_nonneg w hw0, to_size_t_of_nonneg W hW, to_size_t_of_nonneg (W - w) (by omega),
    Int.emod_eq_of_lt (by omega) (by omega)]
  refine ⟨trivial, trivial, ?_, ⟨?_, ?_⟩, trivial, trivial, trivial⟩
  · split_ifs <;> omega
  · split_ifs <;> omega
  · split_ifs <;> omega

/-- C16 at a concrete state: two candidates of widths 3 and 5 anchored at column 78 of a
viewport of 80 columns. -/
theorem C16_open_popup_geometry_witness :
    [abc, hello] ≠ []
      ∧ 0 ≤ (sample [hello] 2 0).get_visible_dimensions.dr_width
      ∧ ((sample [hello] 2 0).open_popup_for_completion 78 [abc, hello]).tc_popup.width = 7
      ∧ ((sample [hello] 2 0).open_popup_for_completion 78 [abc, hello]).tc_popup.x = 73
      ∧ ((sample [hello] 2 0).open_popup_for_completion 78 [abc, hello]).tc_popup.height = 2
      ∧ (sample [hello] 2 0).open_popup_for_completion 78 [] = sample [hello] 2 0 :=
  ⟨by decide, by decide, by decide, by decide, by decide,
    (C16_open_popup_geometry (sample [hello] 2 0) 78 [abc, hello]).1⟩

/-! ## C17 -/

/-- C17, the claim as stated fails: the widget shows five rows at the top of a window of 24
rows; with the cursor on row 4 and a popup of five rows the downward placement, offset 5,
ends at row 10, past the visible height 5 of the widget, yet the popup is placed at offset 5
and not at offset -1 above the cursor: the test is made against the full height of the
window. -/
theorem C17_popup_below_the_viewport :
    (sample [hello, hello, hello, hello, hello] 2 4).get_visible_dimensions.dr_height = 5
      ∧ (sample [hello, hello, hello, hello, hello] 2 4).get_visible_dimensions.dr_full_height
          = 24
      ∧ ((sample [hello, hello, hello, hello, hello] 2 4).open_popup_for_completion 2
          [abc, hello, abc, abc, abc, abc]).tc_popup.height = 5
      ∧ (sample [hello, hello, hello, hello, hello] 2 4).tc_cursor_y
          - (sample [hello, hello, hello, hello, hello] 2 4).tc_top + 1 + 5
          > (sample [hello, hello, hello, hello, hello] 2 4).get_visible_dimensions.dr_height
      ∧ ((sample [hello, hello, hello, hello, hello] 2 4).open_popup_for_completion 2
          [abc, hello, abc, abc, abc, abc]).tc_popup.y
          - (sample [hello, hello, hello, hello, hello] 2 4).vc_y = 5
      ∧ ((sample [hello, hello, hello, hello, hello] 2 4).open_popup_for_completion 2
          [abc, hello, abc, abc, abc, abc]).tc_popup.y
          - (sample [hello, hello, hello, hello, hello] 2 4).vc_y
        ≠ (sample [hello, hello, hello, hello, hello] 2 4).tc_cursor_y
          - (sample [hello, hello, hello, hello, hello] 2 4).tc_top - 5 := by
  decide

/-- C17, amended: for every non-empty candidate list, with p the popup height
min(max popup height, candidate count), `open_popup_for_completion` places the popup, relative
to the widget's top row, at vertical offset (cursor row - top + 1) when the bottom of that
downward placement in window rows, `vc_y` + offset + p taken as an unsigned value, does not
exceed the full height of the window, and at offset (cursor row - top - p) exactly when it
exceeds the full height of the window; when `vc_y` + offset + p is not negative the unsigned
value is the number itself. -/
theorem C17_popup_vertical_placement (s : textinput_curses) (left : Nat)
    (possibilities : List std_string) (hne : possibilities ≠ []) :
    (s.open_popup_for_completion left possibilities).tc_popup.y - s.vc_y
        = (if to_unsigned (s.vc_y + (s.tc_cursor_y - s.tc_top + 1)
              + ((min s.tc_max_popup_height possibilities.length : Nat) : Int))
                ≤ s.get_visible_dimensions.dr_full_height
            then s.tc_cursor_y - s.tc_top + 1
            else s.tc_cursor_y - s.tc_top
              - ((min s.tc_max_popup_height possibilities.length : Nat) : Int))
      ∧ (0 ≤ s.vc_y + (s.tc_cursor_y - s.tc_top + 1)
            + ((min s.tc_max_popup_height possibilities.length : Nat) : Int) →
          (s.vc_y + (s.tc_cursor_y - s.tc_top + 1)
              + ((min s.tc_max_popup_height possibilities.length : Nat) : Int)
                ≤ s.get_visible_dimensions.dr_full_height →
            (s.open_popup_for_completion left possibilities).tc_popup.y - s.vc_y
              = s.tc_cursor_y - s.tc_top + 1)
          ∧ (s.vc_y + (s.tc_cursor_y - s.tc_top + 1)
              + ((min s.tc_max_popup_height possibilities.length : Nat) : Int)
                > s.get_visible_dimensions.dr_full_height →
            (s.open_popup_for_completion left possibilities).tc_popup.y - s.vc_y
              = s.tc_cursor_y - s.tc_top
                - ((min s.tc_max_popup_height possibilities.length : Nat) : Int))) := by
  obtain ⟨m, hm, -, -⟩ :=
    itertools_max_spec (possibilities.map column_width) (by simpa using hne)
  rw [open_popup_fields s left possibilities m hne hm]
  simp only []
  have hfull : s.get_visible_dimensions.dr_full_height = (s.win_height : Int) := rfl
  rw [hfull]
  generalize ((min s.tc_max_popup_height possibilities.length : Nat) : Int) = p
  constructor
  · split_ifs <;> omega
  · intro h0
    rw [to_unsigned_of_nonneg _ h0]
    constructor
    · intro h; rw [if_neg (by omega)]; omega
    · intro h; rw [if_pos (by omega)]; omega

/-- C17 amended, at a concrete state: the widget sits in rows 19 to 23 of the window, so the
popup of five rows under the cursor row 4 would end past the window and is placed above the
cursor. -/
theorem C17_popup_vertical_placement_witness :
    [abc, hello, abc, abc, abc, abc] ≠ []
      ∧ (sample_low.open_popup_for_completion 2 [abc, hello, abc, abc, abc, abc]).tc_popup.y
          = 18
      ∧ (sample_low.open_popup_for_completion 2 [abc, hello, abc, abc, abc, abc]).tc_popup.y
            - sample_low.vc_y
          = (if to_unsigned (sample_low.vc_y + (sample_low.tc_cursor_y - sample_low.tc_top + 1)
                + ((min sample_low.tc_max_popup_height
                    [abc, hello, abc, abc, abc, abc].length : Nat) : Int))
                  ≤ sample_low.get_visible_dimensions.dr_full_height
              then sample_low.tc_cursor_y - sample_low.tc_top + 1
              else sample_low.tc_cursor_y - sample_low.tc_top
                - ((min sample_low.tc_max_popup_height
                    [abc, hello, abc, abc, abc, abc].length : Nat) : Int)) :=
  ⟨by decide, by decide,
    (C17_popup_vertical_placement sample_low 2 [abc, hello, abc, abc, abc, abc]
      (by decide)).1⟩

/-! ## C21 -/

/-- C21: for every non-empty document of n lines, every viewport height h of at least one row
and every starting state with `tc_top >= 0`, after `ensure_cursor_visible` the viewport shows
no rows past the end of the document unless the document is shorter than the viewport: if
n > h then top + h <= n, and if n <= h then top = 0. -/
theorem C21_no_rows_past_the_end (s : textinput_curses) (hne : s.tc_lines ≠ [])
    (hh : 1 ≤ s.get_visible_dimensions.dr_height) (htop : 0 ≤ s.tc_top) :
    ((s.tc_lines.length : Int) > s.get_visible_dimensions.dr_height →
        s.ensure_cursor_visible.tc_top + s.get_visible_dimensions.dr_height
          ≤ (s.tc_lines.length : Int))
      ∧ ((s.tc_lines.length : Int) ≤ s.get_visible_dimensions.dr_height →
        s.ensure_cursor_visible.tc_top = 0) := by
  have hlen : 0 < s.tc_lines.length := List.length_pos.mpr hne
  have hy := ensure_cursor_y_eq s hne
  rw [ensure_top_eq]
  simp only [scroll_top, to_size_t]
  generalize s.ensure_cursor_visible.tc_cursor_y = y at *
  generalize s.get_visible_dimensions.dr_height = h at *
  constructor
  · intro hn; split_ifs <;> omega
  · intro hn; split_ifs <;> omega

/-- C21 at concrete states: seven lines in a viewport of five rows scrolled too far down, and
two lines in the same viewport. -/
theorem C21_no_rows_past_the_end_witness :
    ({ sample [hello, abc, hello, abc, hello, abc, hello] 0 6 with
        tc_top := 6 } : textinput_curses).tc_lines ≠ []
      ∧ ({ sample [hello, abc, hello, abc, hello, abc, hello] 0 6 with
          tc_top := 6 } : textinput_curses).ensure_cursor_visible.tc_top = 2
      ∧ ({ sample [hello, abc] 0 1 with tc_top := 1 } : textinput_curses).ensure_cursor_visible.tc_top
          = 0
      ∧ ((({ sample [hello, abc, hello, abc, hello, abc, hello] 0 6 with
            tc_top := 6 } : textinput_curses).tc_lines.length : Int)
          > ({ sample [hello, abc, hello, abc, hello, abc, hello] 0 6 with
              tc_top := 6 } : textinput_curses).get_visible_dimensions.dr_height →
        ({ sample [hello, abc, hello, abc, hello, abc, hello] 0 6 with
            tc_top := 6 } : textinput_curses).ensure_cursor_visible.tc_top
          + ({ sample [hello, abc, hello, abc, hello, abc, hello] 0 6 with
              tc_top := 6 } : textinput_curses).get_visible_dimensions.dr_height
          ≤ (({ sample [hello, abc, hello, abc, hello, abc, hello] 0 6 with
              tc_top := 6 } : textinput_curses).tc_lines.length : Int)) :=
  ⟨by decide, by decide, by decide,
    (C21_no_rows_past_the_end
      { sample [hello, abc, hello, abc, hello, abc, hello] 0 6 with tc_top := 6 }
      (by decide) (by decide) (by decide)).1⟩

/-! ## C24 -/

/-- C24: the completion popup never covers the cursor's own row: for every non-empty
candidate list and every state, with rel = cursor row - top and the popup height
p = min(max popup height, candidate count), the popup opened by `open_popup_for_completion`
has height p and its first row, relative to the widget, is y = rel + 1 or y = rel - p, so rel
is not one of the rows y, ..., y + p - 1 it occupies. -/
theorem C24_popup_off_the_cursor_row (s : textinput_curses) (left : Nat)
    (possibilities : List std_string) (hne : possibilities ≠ []) :
    (s.open_popup_for_completion left possibilities).tc_popup.height
        = ((min s.tc_max_popup_height possibilities.length : Nat) : Int)
      ∧ ((s.open_popup_for_completion left possibilities).tc_popup.y - s.vc_y
            = (s.tc_cursor_y - s.tc_top) + 1
          ∨ (s.open_popup_for_completion left possibilities).tc_popup.y - s.vc_y
            = (s.tc_cursor_y - s.tc_top)
              - (s.open_popup_for_completion left possibilities).tc_popup.height)
      ∧ ¬ ((s.open_popup_for_completion left possibilities).tc_popup.y - s.vc_y
            ≤ s.tc_cursor_y - s.tc_top
          ∧ s.tc_cursor_y - s.tc_top
            < (s.open_popup_for_completion left possibilities).tc_popup.y - s.vc_y
              + (s.open_popup_for_completion left possibilities).tc_popup.height) := by
  obtain ⟨m, hm, -, -⟩ :=
    itertools_max_spec (possibilities.map column_width) (by simpa using hne)
  rw [open_popup_fields s left possibilities m hne hm]
  simp only []
  have hp : (0 : Int) ≤ ((min s.tc_max_popup_height possibilities.length : Nat) : Int) :=
    Int.natCast_nonneg _
  generalize ((min s.tc_max_popup_height possibilities.length : Nat) : Int) = p at *
  refine ⟨trivial, ?_, ?_⟩
  · split_ifs
    · right; omega
    · left; omega
  · split_ifs <;> omega

/-- C24 at concrete states: the popup under the cursor row, and the popup flipped above
it. -/
theorem C24_popup_off_the_cursor_row_witness :
    [abc, hello, abc, abc, abc, abc] ≠ []
      ∧ ((sample [hello] 2 0).open_popup_for_completion 2
          [abc, hello, abc, abc, abc, abc]).tc_popup.y = 1
      ∧ (sample_low.open_popup_for_completion 2 [abc, hello, abc, abc, abc, abc]).tc_popup.y
          - sample_low.vc_y = -1
      ∧ (sample_low.open_popup_for_completion 2 [abc, hello, abc, abc, abc, abc]).tc_popup.height
          = ((min sample_low.tc_max_popup_height
              [abc, hello, abc, abc, abc, abc].length : Nat) : Int) :=
  ⟨by decide, by decide, by decide,
    (C24_popup_off_the_cursor_row sample_low 2 [abc, hello, abc, abc, abc, abc]
      (by decide)).1⟩

/-! ## Enter and Backspace around a row -/

/-- Enter with the popup hidden, on the document `A ++ L :: B` with the cursor on `L`. -/
theorem key_enter_at (s : textinput_curses) (A B : List std_string) (L : std_string)
    (hls : s.tc_lines = A ++ L :: B) (hy : s.tc_cursor_y = (A.length : Int))
    (hcA : lines_clean A) (hcL : NL ∉ L) (hcB : lines_clean B)
    (hp : s.tc_popup.visible = false) :
    s.key_enter.2.tc_lines
        = A ++ L.take (column_to_byte_index L (to_column s.tc_cursor_x))
            :: L.drop (column_to_byte_index L (to_column s.tc_cursor_x)) :: B
      ∧ s.key_enter.2.tc_cursor_y = (A.length : Int) + 1
      ∧ s.key_enter.2.tc_cursor_x = 0 := by
  unfold key_enter
  rw [if_neg (by simp [hp])]
  simp only []
  have hnew : insert_line (set_line s.tc_lines s.tc_cursor_y
        (erase (line_at s.tc_lines s.tc_cursor_y)
          (column_to_byte_index (line_at s.tc_lines s.tc_cursor_y) (to_column s.tc_cursor_x))))
        (s.tc_cursor_y + 1)
        (subline (line_at s.tc_lines s.tc_cursor_y)
          (column_to_byte_index (line_at s.tc_lines s.tc_cursor_y) (to_column s.tc_cursor_x)))
      = A ++ L.take (column_to_byte_index L (to_column s.tc_cursor_x))
          :: L.drop (column_to_byte_index L (to_column s.tc_cursor_x)) :: B := by
    rw [hls, hy, line_at_row, set_line_row, insert_line_row_succ]; rfl
  rw [hnew]
  generalize hs1 : ({ s with
      tc_cursor_x := 0
      tc_cursor_y := s.tc_cursor_y + 1
      tc_lines := A ++ L.take (column_to_byte_index L (to_column s.tc_cursor_x))
          :: L.drop (column_to_byte_index L (to_column s.tc_cursor_x)) :: B } :
        textinput_curses) = s1
  have h1l : s1.tc_lines = A ++ L.take (column_to_byte_index L (to_column s.tc_cursor_x))
          :: L.drop (column_to_byte_index L (to_column s.tc_cursor_x)) :: B := by rw [← hs1]
  have h1x : s1.tc_cursor_x = 0 := by rw [← hs1]
  have h1y : s1.tc_cursor_y = s.tc_cursor_y + 1 := by rw [← hs1]
  have hc1 : lines_clean s1.tc_lines := by
    rw [h1l, lines_clean_append, lines_clean_cons, lines_clean_cons]
    exact ⟨hcA, not_mem_take _ _ hcL, not_mem_drop _ _ hcL, hcB⟩
  have hv1 : s1.valid := by
    refine ⟨by rw [h1l]; simp, ⟨by omega, ?_⟩, by omega, by rw [h1x]; omega⟩
    rw [h1l, h1y, hy]; simp
  obtain ⟨hl, -, -, -, -, -⟩ := update_lines_fields s1 hc1
  obtain ⟨hx, hy2⟩ := update_lines_cursor s1 hv1 hc1
  show s1.update_lines.tc_lines = _ ∧ s1.update_lines.tc_cursor_y = _
    ∧ s1.update_lines.tc_cursor_x = _
  rw [hl, hx, hy2, h1l, h1x, h1y, hy]
  exact ⟨rfl, rfl, rfl⟩

/-- Backspace at column 0 of the row `Q` of the document `A ++ P :: Q :: B`. -/
theorem key_backspace_join_at (t : textinput_curses) (A B : List std_string)
    (P Q : std_string) (hl : t.tc_lines = A ++ P :: Q :: B)
    (hy : t.tc_cursor_y = (A.length : Int) + 1) (hx : t.tc_cursor_x = 0) :
    t.key_backspace.2.tc_lines = A ++ (P ++ Q) :: B
      ∧ t.key_backspace.2.tc_cursor_y = (A.length : Int)
      ∧ t.key_backspace.2.tc_cursor_x = (column_width P : Int) := by
  unfold key_backspace
  rw [if_neg (by omega), if_pos (by omega)]
  simp only []
  have hnew : erase_line (set_line t.tc_lines (t.tc_cursor_y - 1)
        (line_at t.tc_lines (t.tc_cursor_y - 1) ++ line_at t.tc_lines t.tc_cursor_y))
        t.tc_cursor_y = A ++ (P ++ Q) :: B := by
    rw [hl, hy, add_sub_cancel_right, line_at_row, line_at_row_succ, set_line_row,
      erase_line_row_succ]
  have hprev : line_at t.tc_lines (t.tc_cursor_y - 1) = P := by
    rw [hl, hy, add_sub_cancel_right, line_at_row]
  rw [hnew, hprev]
  generalize hs1 : ({ t with
      tc_lines := A ++ (P ++ Q) :: B
      tc_cursor_x := (column_width P : Int)
      tc_cursor_y := t.tc_cursor_y - 1 } : textinput_curses) = s1
  have h1l : s1.tc_lines = A ++ (P ++ Q) :: B := by rw [← hs1]
  have h1x : s1.tc_cursor_x = (column_width P : Int) := by rw [← hs1]
  have h1y : s1.tc_cursor_y = t.tc_cursor_y - 1 := by rw [← hs1]
  have hline : line_at (A ++ (P ++ Q) :: B) (t.tc_cursor_y - 1) = P ++ Q := by
    rw [hy, add_sub_cancel_right, line_at_row]
  have hv1 : s1.valid := by
    refine ⟨by rw [h1l]; simp, ⟨by omega, ?_⟩, by rw [h1x]; omega, ?_⟩
    · rw [h1l, h1y, hy]; simp
    · rw [h1x, h1l, h1y, hline]
      exact_mod_cast column_width_append_le P Q
  obtain ⟨hy2, hx2⟩ := ensure_cursor_of_valid s1 hv1
  show s1.ensure_cursor_visible.tc_lines = _ ∧ s1.ensure_cursor_visible.tc_cursor_y = _
    ∧ s1.ensure_cursor_visible.tc_cursor_x = _
  rw [ensure_lines, h1l, hy2, hx2, h1x, h1y, hy]
  exact ⟨rfl, by omega, rfl⟩

/-! ## C23 -/

/-- C23: split and join are inverse: in a valid state with the popup hidden and the cursor at
(r, c), Enter followed immediately by Backspace restores the original sequence of line texts
and the original cursor position (r, c).  The lines of the document hold no line terminator,
as in every document the widget builds. -/
theorem C23_enter_then_backspace (ws : word_search) (s : textinput_curses)
    (che chb : ncinput) (hv : s.valid) (hclean : lines_clean s.tc_lines)
    (hp : s.tc_popup.visible = false)
    (he : che.id = NCKEY_ENTER) (hec : che.ctrl = false)
    (hb : chb.id = NCKEY_BACKSPACE) (hbc : chb.ctrl = false) :
    (handle_key ws (handle_key ws s che).2 chb).2.tc_lines = s.tc_lines
      ∧ (handle_key ws (handle_key ws s che).2 chb).2.tc_cursor_y = s.tc_cursor_y
      ∧ (handle_key ws (handle_key ws s che).2 chb).2.tc_cursor_x = s.tc_cursor_x := by
  obtain ⟨hne, ⟨hy0, hy1⟩, hx0, hx1⟩ := hv
  obtain ⟨A, B, L, hls, hy, hA, hB, hL⟩ := row_split s.tc_lines s.tc_cursor_y hy0 hy1
  have hcl : lines_clean (A ++ L :: B) := hls ▸ hclean
  rw [lines_clean_append, lines_clean_cons] at hcl
  obtain ⟨hcA, hcL, hcB⟩ := hcl
  rw [handle_key_enter ws s che he hec, handle_key_backspace ws _ chb hb hbc]
  obtain ⟨e1, e2, e3⟩ := key_enter_at s A B L hls hy hcA hcL hcB hp
  obtain ⟨b1, b2, b3⟩ := key_backspace_join_at s.key_enter.2 A B _ _ e1 e2 e3
  rw [b1, b2, b3, List.take_append_drop, column_width_take, hls, hy,
    to_column_of_nonneg _ hx0]
  refine ⟨rfl, rfl, ?_⟩
  rw [← hL] at hx1
  omega

/-- C23 at a concrete state: Enter and then Backspace at (1, 2) of the document "abc",
"hello". -/
theorem C23_enter_then_backspace_witness :
    (sample [abc, hello] 2 1).valid
      ∧ lines_clean (sample [abc, hello] 2 1).tc_lines
      ∧ (handle_key no_words (sample [abc, hello] 2 1) (plain_key NCKEY_ENTER)).2.tc_lines
          = [abc, [104, 101], [108, 108, 111]]
      ∧ (handle_key no_words
          (handle_key no_words (sample [abc, hello] 2 1) (plain_key NCKEY_ENTER)).2
          (plain_key NCKEY_BACKSPACE)).2.tc_cursor_x = 2
      ∧ (handle_key no_words
          (handle_key no_words (sample [abc, hello] 2 1) (plain_key NCKEY_ENTER)).2
          (plain_key NCKEY_BACKSPACE)).2.tc_lines = (sample [abc, hello] 2 1).tc_lines :=
  ⟨by decide, by decide, by decide, by decide,
    (C23_enter_then_backspace no_words (sample [abc, hello] 2 1) (plain_key NCKEY_ENTER)
      (plain_key NCKEY_BACKSPACE) (by decide) (by decide) rfl rfl rfl rfl rfl).1⟩

/-! ## Whole encoded characters -/

theorem utf8_write_unit (cp : Nat) :
    ∃ (b : Nat) (tail : std_string),
      utf8_write cp = b :: tail ∧ tail.length = utf8_char_size b - 1 := by
  unfold utf8_write
  split_ifs with h1 h2 h3
  · refine ⟨cp, [], rfl, ?_⟩
    simp only [List.length_nil]
    unfold utf8_char_size; split_ifs <;> omega
  · refine ⟨192 + cp / 64, [128 + cp % 64], rfl, ?_⟩
    simp only [List.length_cons, List.length_nil]
    unfold utf8_char_size; split_ifs <;> omega
  · refine ⟨224 + cp / 4096, [128 + cp / 64 % 64, 128 + cp % 64], rfl, ?_⟩
    simp only [List.length_cons, List.length_nil]
    unfold utf8_char_size; split_ifs <;> omega
  · refine ⟨240 + cp / 262144 % 8, [128 + cp / 4096 % 64, 128 + cp / 64 % 64, 128 + cp % 64],
      rfl, ?_⟩
    simp only [List.length_cons, List.length_nil]
    unfold utf8_char_size; split_ifs <;> omega

theorem utf8_write_clean (cp : Nat) (h : cp ≠ NL) : NL ∉ utf8_write cp := by
  unfold utf8_write NL at *
  split_ifs <;> simp <;> omega

theorem byte_index_from_zero_zero (q : std_string) : byte_index_from 0 q 0 = 0 := by
  cases q <;> rfl

theorem width_from_skip (t q : std_string) :
    width_from t.length (t ++ q) = width_from 0 q := by
  induction t with
  | nil => rfl
  | cons a t ih => simpa [width_from] using ih

theorem byte_index_from_skip (t q : std_string) (c : Nat) :
    byte_index_from t.length (t ++ q) c = t.length + byte_index_from 0 q c := by
  induction t with
  | nil => simp
  | cons a t ih =>
    simp only [List.cons_append, List.length_cons, byte_index_from, List.append_eq, ih]
    omega

theorem pending_from_skip (t q : std_string) :
    pending_from t.length (t ++ q) = pending_from 0 q := by
  induction t with
  | nil => rfl
  | cons a t ih => simpa [pending_from] using ih

theorem width_from_append_whole (k : Nat) (p q : std_string) (h : pending_from k p = 0) :
    width_from k (p ++ q) = width_from k p + width_from 0 q := by
  induction p generalizing k with
  | nil =>
    simp only [pending_from] at h
    subst h
    simp [width_from]
  | cons b rest ih =>
    cases k with
    | zero =>
      simp only [pending_from] at h
      simp only [List.cons_append, width_from, List.append_eq, ih _ h]
      omega
    | succ k =>
      simp only [pending_from] at h
      simp only [List.cons_append, width_from, List.append_eq, ih _ h]

theorem byte_index_from_append_whole (k : Nat) (p q : std_string) (c : Nat)
    (h : pending_from k p = 0) (hc : width_from k p ≤ c) :
    byte_index_from k (p ++ q) c = p.length + byte_index_from 0 q (c - width_from k p) := by
  induction p generalizing k c with
  | nil =>
    simp only [pending_from] at h
    subst h
    simp [width_from]
  | cons b rest ih =>
    cases k with
    | zero =>
      simp only [pending_from] at h
      simp only [width_from] at hc
      cases c with
      | zero => omega
      | succ c =>
        simp only [List.cons_append, byte_index_from, List.append_eq, width_from,
          List.length_cons, ih _ c h (by omega)]
        have : c + 1 - (1 + width_from (utf8_char_size b - 1) rest)
            = c - width_from (utf8_char_size b - 1) rest := by omega
        rw [this]; omega
    | succ k =>
      simp only [pending_from] at h
      simp only [width_from] at hc
      simp only [List.cons_append, byte_index_from, List.append_eq, width_from,
        List.length_cons, ih _ c h hc]
      omega

theorem pending_from_take (k : Nat) (s : std_string) (c : Nat) :
    pending_from k (s.take (byte_index_from k s c)) = 0
      ∨ byte_index_from k s c = s.length := by
  induction s generalizing k c with
  | nil => right; simp [byte_index_from]
  | cons b rest ih =>
    cases k with
    | zero =>
      cases c with
      | zero => left; simp [byte_index_from, pending_from]
      | succ c =>
        rcases ih (utf8_char_size b - 1) c with h | h
        · left
          simp only [byte_index_from, Nat.add_comm 1, List.take_succ_cons, pending_from]
          exact h
        · right
          simp only [byte_index_from, List.length_cons, h]; omega
    | succ k =>
      rcases ih k c with h | h
      · left
        simp only [byte_index_from, Nat.add_comm 1, List.take_succ_cons, pending_from]
        exact h
      · right
        simp only [byte_index_from, List.length_cons, h]; omega

/-- The text before a column of a text made of whole characters is made of whole
characters. -/
theorem whole_chars_take (L : std_string) (c : Nat) (h : whole_chars L) :
    whole_chars (L.take (column_to_byte_index L c)) := by
  unfold whole_chars column_to_byte_index at *
  rcases pending_from_take 0 L c with h1 | h1
  · exact h1
  · rw [h1, List.take_length]; exact h

/-- The columns around one encoded character put after the whole characters `p`. -/
theorem insert_unit_columns (p q : std_string) (b : Nat) (tail : std_string)
    (ht : tail.length = utf8_char_size b - 1) (hp : whole_chars p) :
    column_width (p ++ (b :: tail) ++ q) = column_width p + 1 + column_width q
      ∧ column_to_byte_index (p ++ (b :: tail) ++ q) (column_width p) = p.length
      ∧ column_to_byte_index (p ++ (b :: tail) ++ q) (column_width p + 1)
          = p.length + (tail.length + 1) := by
  unfold whole_chars at hp
  unfold column_width column_to_byte_index
  rw [List.append_assoc]
  refine ⟨?_, ?_, ?_⟩
  · rw [width_from_append_whole 0 p _ hp]
    simp only [List.cons_append, width_from, List.append_eq]
    rw [← ht, width_from_skip]; omega
  · rw [byte_index_from_append_whole 0 p _ _ hp (le_refl _), Nat.sub_self,
      byte_index_from_zero_zero]; rfl
  · rw [byte_index_from_append_whole 0 p _ _ hp (by omega)]
    have h1 : width_from 0 p + 1 - width_from 0 p = 1 := by omega
    rw [h1]
    simp only [List.cons_append, byte_index_from, List.append_eq]
    rw [← ht, byte_index_from_skip, byte_index_from_zero_zero]; omega

theorem erase_len_insert (p u q : std_string) :
    erase_len (p ++ u ++ q) p.length u.length = p ++ q := by
  unfold erase_len
  simp

/-- The effective text of a chord that carries one character is encoded as that
character. -/
theorem encode_single_char (ch : ncinput) (cp : Nat) (h : single_char ch cp) :
    encode_eff_text ch.eff_text = utf8_write cp := by
  obtain ⟨h0, -, h1 | h1⟩ := h
  · rw [h1]; simp [encode_eff_text, h0]
  · match hm : ch.eff_text with
    | [] => rw [hm] at h1; simp at h1
    | [a] => rw [hm] at h1; simp at h1
    | a :: z :: rest =>
      rw [hm] at h1
      simp only [List.take_succ_cons, List.take_zero, List.cons.injEq, and_true] at h1
      obtain ⟨rfl, rfl⟩ := h1
      simp [encode_eff_text, h0]

theorem handle_key_default (ws : word_search) (s : textinput_curses) (ch : ncinput)
    (h : reaches_default ch) : handle_key ws s ch = s.key_default ch := by
  obtain ⟨hc, ha, h1, h2, h3, h4, h5, h6, h7, h8, h9, h10, h11, h12, h13, h14⟩ := h
  unfold handle_key
  rw [if_neg ha, if_neg (fun e => h13 e.2), if_neg (fun e => h14 e.2),
    if_neg (by rw [hc]; simp)]
  unfold handle_named_key
  rw [if_neg (fun e => e.elim h1 h2), if_neg h3, if_neg h4, if_neg h5, if_neg h6, if_neg h7,
    if_neg h8, if_neg h9, if_neg h10, if_neg h11, if_neg h12, if_neg h13, if_neg h14]

/-- The cursor row `L` of the document `A ++ L :: B` is replaced by `N` and the cursor is put
at a column of `N`: `update_lines` keeps that document and that cursor. -/
theorem replace_row_update (s : textinput_curses) (A B : List std_string)
    (L N : std_string) (x : Int)
    (hls : s.tc_lines = A ++ L :: B) (hy : s.tc_cursor_y = (A.length : Int))
    (hcA : lines_clean A) (hcN : NL ∉ N) (hcB : lines_clean B)
    (hx0 : 0 ≤ x) (hx1 : x ≤ (column_width N : Int)) :
    (update_lines { s with
        tc_lines := set_line s.tc_lines s.tc_cursor_y N
        tc_cursor_x := x }).tc_lines = A ++ N :: B
      ∧ (update_lines { s with
          tc_lines := set_line s.tc_lines s.tc_cursor_y N
          tc_cursor_x := x }).tc_cursor_y = (A.length : Int)
      ∧ (update_lines { s with
          tc_lines := set_line s.tc_lines s.tc_cursor_y N
          tc_cursor_x := x }).tc_cursor_x = x := by
  have hnew : set_line s.tc_lines s.tc_cursor_y N = A ++ N :: B := by
    rw [hls, hy, set_line_row]
  rw [hnew]
  generalize hs1 : ({ s with
      tc_lines := A ++ N :: B
      tc_cursor_x := x } : textinput_curses) = s1
  have h1l : s1.tc_lines = A ++ N :: B := by rw [← hs1]
  have h1x : s1.tc_cursor_x = x := by rw [← hs1]
  have h1y : s1.tc_cursor_y = s.tc_cursor_y := by rw [← hs1]
  have hc1 : lines_clean s1.tc_lines := by
    rw [h1l, lines_clean_append, lines_clean_cons]
    exact ⟨hcA, hcN, hcB⟩
  have hv1 : s1.valid := by
    refine ⟨by rw [h1l]; simp, ⟨by omega, ?_⟩, by omega, ?_⟩
    · rw [h1l, h1y, hy]; simp
    · rw [h1x, h1l, h1y, hy, line_at_row]; exact hx1
  obtain ⟨hl, -⟩ := update_lines_fields s1 hc1
  obtain ⟨hx, hy2⟩ := update_lines_cursor s1 hv1 hc1
  rw [hl, hx, hy2, h1l, h1x, h1y, hy]
  exact ⟨rfl, rfl, rfl⟩

/-! ## C22 -/

/-- C22: insert followed by erase of the same range is the identity on the line: in a valid
state with the cursor at (r, c), for a chord that reaches the default branch with a single
character `cp` (not the line terminator), `handle_key` inserts the UTF-8 bytes of `cp` at the
byte offset of column c of line r and moves the cursor to column c+1; a Backspace that follows
immediately removes exactly those bytes: every line has its original text again and the
cursor is at (r, c) again.  The lines of the document hold no line terminator, as in every
document the widget builds, and the text before the cursor is made of whole encoded
characters. -/
theorem C22_insert_then_backspace (ws : word_search) (s : textinput_curses)
    (ch chb : ncinput) (cp : Nat) (hv : s.valid) (hclean : lines_clean s.tc_lines)
    (hw : whole_chars (s.cursor_line.take s.cursor_byte_index))
    (hd : reaches_default ch) (hcp : single_char ch cp)
    (hb : chb.id = NCKEY_BACKSPACE) (hbc : chb.ctrl = false) :
    (handle_key ws s ch).2.tc_lines
        = s.tc_lines.take s.tc_cursor_y.toNat
            ++ (s.cursor_line.take s.cursor_byte_index ++ utf8_write cp
                ++ s.cursor_line.drop s.cursor_byte_index)
            :: s.tc_lines.drop (s.tc_cursor_y.toNat + 1)
      ∧ (handle_key ws s ch).2.tc_cursor_y = s.tc_cursor_y
      ∧ (handle_key ws s ch).2.tc_cursor_x = s.tc_cursor_x + 1
      ∧ (handle_key ws (handle_key ws s ch).2 chb).2.tc_lines = s.tc_lines
      ∧ (handle_key ws (handle_key ws s ch).2 chb).2.tc_cursor_y = s.tc_cursor_y
      ∧ (handle_key ws (handle_key ws s ch).2 chb).2.tc_cursor_x = s.tc_cursor_x := by
  obtain ⟨hne, ⟨hy0, hy1⟩, hx0, hx1⟩ := hv
  obtain ⟨A, B, L, hls, hy, hA, hB, hL⟩ := row_split s.tc_lines s.tc_cursor_y hy0 hy1
  have hcl : lines_clean (A ++ L :: B) := hls ▸ hclean
  rw [lines_clean_append, lines_clean_cons] at hcl
  obtain ⟨hcA, hcL, hcB⟩ := hcl
  obtain ⟨b, tail, hU, ht⟩ := utf8_write_unit cp
  obtain ⟨c, hc⟩ := Int.eq_ofNat_of_zero_le hx0
  unfold cursor_byte_index cursor_line at hw ⊢
  rw [← hL] at hx1
  rw [← hL, to_column_of_nonneg _ hx0, hc, Int.toNat_ofNat] at hw
  have hwp : column_width (L.take (column_to_byte_index L c)) = c := by
    rw [column_width_take]; omega
  have hcols := insert_unit_columns (L.take (column_to_byte_index L c))
    (L.drop (column_to_byte_index L c)) b tail ht hw
  rw [hwp, ← hU] at hcols
  obtain ⟨hc1, hc2, hc3⟩ := hcols
  have hlen : (utf8_write cp).length = tail.length + 1 := by rw [hU]; rfl
  have ht4 := utf8_char_size_le b
  have hNc : NL ∉ L.take (column_to_byte_index L c) ++ utf8_write cp
      ++ L.drop (column_to_byte_index L c) := by
    simp only [List.mem_append, not_or]
    exact ⟨⟨not_mem_take _ _ hcL, utf8_write_clean cp hcp.2.1⟩, not_mem_drop _ _ hcL⟩
  have h1 : (handle_key ws s ch).2 = update_lines { s with
      tc_lines := set_line s.tc_lines s.tc_cursor_y
        (L.take (column_to_byte_index L c) ++ utf8_write cp
          ++ L.drop (column_to_byte_index L c))
      tc_cursor_x := s.tc_cursor_x + 1 } := by
    rw [handle_key_default ws s ch hd]
    unfold key_default
    simp only []
    rw [encode_single_char ch cp hcp, ← hL, to_column_of_nonneg _ hx0]
    simp only [hc, Int.toNat_ofNat]
    rfl
  obtain ⟨e1, e2, e3⟩ := replace_row_update s A B L _ (s.tc_cursor_x + 1) hls hy hcA hNc hcB
    (by omega) (by rw [hc1]; push_cast; omega)
  rw [← h1] at e1 e2 e3
  generalize (handle_key ws s ch).2 = t1 at e1 e2 e3 ⊢
  have h2 : (handle_key ws t1 chb).2 = update_lines { t1 with
      tc_lines := set_line t1.tc_lines t1.tc_cursor_y L
      tc_cursor_x := s.tc_cursor_x } := by
    rw [handle_key_backspace ws t1 chb hb hbc]
    unfold key_backspace
    rw [if_pos (by omega)]
    simp only []
    rw [e1, e2, e3, line_at_row, add_sub_cancel_right, to_column_of_nonneg _ hx0,
      to_column_of_nonneg _ (by omega)]
    simp only [hc, Int.toNat_ofNat, toNat_succ]
    rw [hc2, hc3, size_t_sub_of_le _ _ (by omega) (by omega), Nat.add_sub_cancel_left,
      ← hlen, erase_len_insert, List.take_append_drop]
  obtain ⟨f1, f2, f3⟩ := replace_row_update t1 A B _ L s.tc_cursor_x e1 e2 hcA hcL hcB
    hx0 hx1
  rw [← h2] at f1 f2 f3
  rw [← hL, to_column_of_nonneg _ hx0]
  simp only [hc, Int.toNat_ofNat]
  rw [hc] at e3 f3
  exact ⟨by rw [e1, hA, hB, hy], by rw [e2, hy], e3, f1.trans hls.symm,
    by rw [f2, hy], f3⟩

/-- C22 at a concrete state: the character `x` typed at (0, 2) of the document "hello", and
then Backspace. -/
theorem C22_insert_then_backspace_witness :
    (sample [hello] 2 0).valid
      ∧ reaches_default (char_key 120)
      ∧ single_char (char_key 120) 120
      ∧ (handle_key no_words (sample [hello] 2 0) (char_key 120)).2.tc_lines
          = [[104, 101, 120, 108, 108, 111]]
      ∧ (handle_key no_words (sample [hello] 2 0) (char_key 120)).2.tc_cursor_x = 3
      ∧ (handle_key no_words
          (handle_key no_words (sample [hello] 2 0) (char_key 120)).2
          (plain_key NCKEY_BACKSPACE)).2.tc_lines = (sample [hello] 2 0).tc_lines :=
  ⟨by decide, by decide, by decide, by decide, by decide,
    (C22_insert_then_backspace no_words (sample [hello] 2 0) (char_key 120)
      (plain_key NCKEY_BACKSPACE) 120 (by decide) (by decide) (by decide) (by decide)
      (by decide) rfl rfl).2.2.2.1⟩

end textinput_curses

namespace external_editor

/-! ## The external editor: detection and result -/

/-- If every implementation before one fails its probe and that one passes, it is the
detected one. -/
theorem get_impl_first (system : String → Int) (before after : List (String × impl))
    (name : String) (i : impl)
    (hfail : ∀ e ∈ before, system (e.2.i_test_command ++ " > /dev/null 2>&1") ≠ 0)
    (hok : system (i.i_test_command ++ " > /dev/null 2>&1") = 0) :
    get_impl system (before ++ (name, i) :: after) = some i := by
  induction before with
  | nil => simp [get_impl, hok]
  | cons e rest ih =>
    have h1 := hfail e (by simp)
    have h2 : ∀ e ∈ rest, system (e.2.i_test_command ++ " > /dev/null 2>&1") ≠ 0 :=
      fun e he => hfail e (by simp [he])
    simp only [List.cons_append, get_impl, if_neg h1]
    exact ih h2

/-- If every implementation fails its probe, none is detected. -/
theorem get_impl_none (system : String → Int) (c_impls : List (String × impl))
    (hfail : ∀ e ∈ c_impls, system (e.2.i_test_command ++ " > /dev/null 2>&1") ≠ 0) :
    get_impl system c_impls = none := by
  induction c_impls with
  | nil => rfl
  | cons e rest ih =>
    have h1 := hfail e (by simp)
    have h2 : ∀ e ∈ rest, system (e.2.i_test_command ++ " > /dev/null 2>&1") ≠ 0 :=
      fun e he => hfail e (by simp [he])
    simp only [get_impl, if_neg h1]
    exact ih h2

/-- A detected implementation passes its probe and every implementation before it fails. -/
theorem get_impl_some (system : String → Int) (c_impls : List (String × impl)) (i : impl)
    (h : get_impl system c_impls = some i) :
    ∃ (before after : List (String × impl)) (name : String),
      c_impls = before ++ (name, i) :: after
        ∧ (∀ e ∈ before, system (e.2.i_test_command ++ " > /dev/null 2>&1") ≠ 0)
        ∧ system (i.i_test_command ++ " > /dev/null 2>&1") = 0 := by
  induction c_impls with
  | nil => simp [get_impl] at h
  | cons e rest ih =>
    by_cases h1 : system (e.2.i_test_command ++ " > /dev/null 2>&1") = 0
    · simp only [get_impl, if_pos h1, Option.some.injEq] at h
      refine ⟨[], rest, e.1, ?_, by simp, by rw [← h]; exact h1⟩
      rw [← h]; rfl
    · simp only [get_impl, if_neg h1] at h
      obtain ⟨before, after, name, hl, hf, hok⟩ := ih h
      refine ⟨e :: before, after, name, by rw [hl]; rfl, ?_, hok⟩
      intro e2 he2
      rcases List.mem_cons.mp he2 with h3 | h3
      · rw [h3]; exact h1
      · exact hf e2 h3

/-! ## C18 -/

/-- C18: editor detection returns the first implementation, in the order of the configured
list, whose probe command is reported by `system` as exited with status 0, and returns none
when no probe succeeds or the list is empty; and when detection returned none, `open` returns
the error "no external editor found" without creating a pipe or forking a child (it makes no
call at all). -/
theorem C18_detection (system : String → Int) :
    (∀ (before after : List (String × impl)) (name : String) (i : impl),
        (∀ e ∈ before, system (e.2.i_test_command ++ " > /dev/null 2>&1") ≠ 0) →
        system (i.i_test_command ++ " > /dev/null 2>&1") = 0 →
        get_impl system (before ++ (name, i) :: after) = some i)
      ∧ (∀ c_impls : List (String × impl),
          (∀ e ∈ c_impls, system (e.2.i_test_command ++ " > /dev/null 2>&1") ≠ 0) →
          get_impl system c_impls = none)
      ∧ get_impl system [] = none
      ∧ (∀ os : os_answers, open_editor os none
          = (Except.error "no external editor found", []))
      ∧ (∀ (os : os_answers) (c_impls : List (String × impl)),
          get_impl os.system c_impls = none →
          open_first os c_impls = (Except.error "no external editor found", [])) :=
  ⟨fun before after name i hfail hok => get_impl_first system before after name i hfail hok,
    fun c_impls hfail => get_impl_none system c_impls hfail, rfl, fun _ => rfl,
    fun os c_impls h => by unfold open_first; rw [h]; rfl⟩

/-- C18 at a concrete configuration: the probe of "code" fails and the probe of "vi"
succeeds, so "vi" is detected; with no implementation configured `open` fails at once. -/
theorem C18_detection_witness :
    get_impl sample_os.system sample_impls
        = some { i_test_command := "command -v vi", i_command := "vi $FILE_PATH" }
      ∧ open_first sample_os [] = (Except.error "no external editor found", [])
      ∧ get_impl sample_os.system
          ([("code", { i_test_command := "command -v code", i_command := "code -w $FILE_PATH" })]
            ++ ("vi", { i_test_command := "command -v vi", i_command := "vi $FILE_PATH" }) :: [])
          = some { i_test_command := "command -v vi", i_command := "vi $FILE_PATH" } :=
  ⟨by decide, rfl,
    (C18_detection sample_os.system).1 _ _ _ _ (by decide) (by decide)⟩

/-! ## C19 -/

/-- C19: once the pipe and the child exist, the result of `open` is a function of the
child's termination and of the captured stderr only: a child that exited normally with
status 0 yields success; one that exited normally with a status N other than 0, with the
captured stderr text D, yields the error "editor failed with status N -- D" (D is empty when
nothing was written); one terminated by a signal S yields the error
"editor failed with signal S" whatever D is.  Neither the implementation nor the other
answers of the operating system matter. -/
theorem C19_result_mapping (os : os_answers) (i : impl)
    (hpipe : os.pipe_error = none) (hfork : os.fork_error = none) :
    (os.child = child_end.exited 0 → (open_editor os (some i)).1 = Except.ok ())
      ∧ (∀ N : Int, N ≠ 0 → os.child = child_end.exited N →
          (open_editor os (some i)).1
            = Except.error
                ("editor failed with status " ++ toString N ++ " -- " ++ read_all os.reads))
      ∧ (∀ S : Int, os.child = child_end.signaled S →
          (open_editor os (some i)).1
            = Except.error ("editor failed with signal " ++ toString S))
      ∧ (os.reads = [] → read_all os.reads = "")
      ∧ (∀ (os2 : os_answers) (i2 : impl), os2.pipe_error = none → os2.fork_error = none →
          os2.child = os.child → read_all os2.reads = read_all os.reads →
          (open_editor os2 (some i2)).1 = (open_editor os (some i)).1) := by
  refine ⟨fun h => ?_, fun N hN h => ?_, fun S h => ?_, fun h => by rw [h]; rfl,
    fun os2 i2 hp2 hf2 hc hr => ?_⟩
  · simp [open_editor, hpipe, hfork, h]
  · simp [open_editor, hpipe, hfork, h, hN]
  · simp [open_editor, hpipe, hfork, h]
  · simp only [open_editor, hpipe, hfork, hp2, hf2, hc, hr]

/-- C19 at concrete answers: an editor that writes "boom" to stderr and exits with status 2,
one that exits with status 1 and writes nothing, and one killed by signal 9. -/
theorem C19_result_mapping_witness :
    sample_os.pipe_error = none ∧ sample_os.fork_error = none
      ∧ (open_first sample_os sample_impls).1
          = Except.error "editor failed with status 2 -- boom"
      ∧ (open_editor { sample_os with child := child_end.exited 1, reads := [] }
          (some { i_test_command := "true", i_command := "exit 1" })).1
          = Except.error "editor failed with status 1 -- "
      ∧ (open_editor { sample_os with child := child_end.signaled 9 }
          (some { i_test_command := "true", i_command := "kill -9 $$" })).1
          = Except.error "editor failed with signal 9"
      ∧ (open_editor sample_os (some { i_test_command := "true", i_command := "exit 2" })).1
          = Except.error
              ("editor failed with status " ++ toString (2 : Int) ++ " -- "
                ++ read_all sample_os.reads) :=
  ⟨rfl, rfl, rfl, rfl, rfl,
    (C19_result_mapping sample_os { i_test_command := "true", i_command := "exit 2" }
      rfl rfl).2.1 2 (by decide) rfl⟩

end external_editor

end lnav
